import Mathlib

/-!
# RayTracerWindows: AABB, Ray, Sphere, SurfaceList and BVHNode

A shallow embedding of the rendering core of the ray tracer (`src/aabb.cpp`,
`src/ray.h`, `src/sphere.cpp`, `src/surface_list.cpp`, `src/bvh_node.cpp`).

The C++ type `Real` (a `double`, `types.h`) is embedded as an arbitrary linearly
ordered field `K`: arithmetic is exact, every definition is computable and runs
on `ℚ`, and every theorem also holds on `ℝ`.  The functions of the C math
library that the code calls (`sqrt`, `atan2`, `acos`) are passed in a record
`MathFns`; theorems state what they need of them as hypotheses.
A `shared_ptr` to a scene node is embedded as a value of the inductive type
`Surface`, whose constructor `null` is the null pointer.
-/

namespace RT

set_option linter.unusedSectionVars false
set_option linter.unusedVariables false

variable {K : Type} [LinearOrderedField K]

/-! ## types.h -/

/-- Constant `kInfinity` of `types.h`: `std::numeric_limits<double>::max()`. -/
def kInfinity : K := 2 ^ 1024 - 2 ^ 971

/-- Constant `kEpsilon` of `types.h` (double precision). -/
def kEpsilon : K := 1 / 10 ^ 8

/-- Constant `kPi` of `types.h`. -/
def kPi : K := 314159265359 / 10 ^ 11

/-- Constant `k2Pi` of `types.h`. -/
def k2Pi : K := 628318530718 / 10 ^ 11

/-- The C math library functions used by the code. -/
structure MathFns (K : Type) where
  sqrt : K → K
  atan2 : K → K → K
  acos : K → K

/-- Type `Vec3r` of `types.h` (`Eigen::Matrix<Real, 3, 1>`). -/
structure Vec3r (K : Type) where
  x : K
  y : K
  z : K
deriving DecidableEq

/-- Type `Vec2r` of `types.h`. -/
structure Vec2r (K : Type) where
  x : K
  y : K
deriving DecidableEq

namespace Vec3r

/-- Component access `v[i]`. -/
def get (v : Vec3r K) (i : Fin 3) : K :=
  match i with
  | 0 => v.x
  | 1 => v.y
  | 2 => v.z

/-- Vector sum. -/
def add (a b : Vec3r K) : Vec3r K := ⟨a.x + b.x, a.y + b.y, a.z + b.z⟩

/-- Vector difference. -/
def sub (a b : Vec3r K) : Vec3r K := ⟨a.x - b.x, a.y - b.y, a.z - b.z⟩

/-- Unary minus. -/
def neg (a : Vec3r K) : Vec3r K := ⟨-a.x, -a.y, -a.z⟩

/-- Product `t * v` of a scalar and a vector. -/
def smul (t : K) (a : Vec3r K) : Vec3r K := ⟨t * a.x, t * a.y, t * a.z⟩

/-- Quotient `v / s` of a vector and a scalar. -/
def sdiv (a : Vec3r K) (s : K) : Vec3r K := ⟨a.x / s, a.y / s, a.z / s⟩

/-- Eigen `a.dot(b)`. -/
def dot (a b : Vec3r K) : K := a.x * b.x + a.y * b.y + a.z * b.z

/-- Eigen `a.squaredNorm()`. -/
def squaredNorm (a : Vec3r K) : K := a.x * a.x + a.y * a.y + a.z * a.z

/-- Eigen `a.normalized()`: `a / sqrt(z)` with `z = a.squaredNorm()` when `z > 0`,
and `a` itself otherwise. -/
def normalized (M : MathFns K) (a : Vec3r K) : Vec3r K :=
  let z := a.squaredNorm
  if z > 0 then a.sdiv (M.sqrt z) else a

end Vec3r

/-! ## ray.h: Ray -/

/-- Class `Ray` of `ray.h`. -/
structure Ray (K : Type) where
  origin_ : Vec3r K
  dir_ : Vec3r K
deriving DecidableEq

namespace Ray

/-- Function `Ray::GetOrigin`. -/
def GetOrigin (r : Ray K) : Vec3r K := r.origin_

/-- Function `Ray::GetDirection`. -/
def GetDirection (r : Ray K) : Vec3r K := r.dir_

/-- Function `Ray::At`: `origin_ + t * dir_`. -/
def At (r : Ray K) (t : K) : Vec3r K := r.origin_.add (Vec3r.smul t r.dir_)

end Ray

/-! ## aabb.h, aabb.cpp -/

/-- Class `AABB`. -/
structure AABB (K : Type) where
  min_ : Vec3r K
  max_ : Vec3r K
deriving DecidableEq

namespace AABB

/-- The default-constructed box: the member initialisers of `aabb.h`. -/
def default : AABB K :=
  ⟨⟨kInfinity, kInfinity, kInfinity⟩, ⟨-kInfinity, -kInfinity, -kInfinity⟩⟩

/-- Function `AABB::GetMin`. -/
def GetMin (b : AABB K) : Vec3r K := b.min_

/-- Function `AABB::GetMax`. -/
def GetMax (b : AABB K) : Vec3r K := b.max_

/-- Function `AABB::Reset`. -/
def Reset (_b : AABB K) : AABB K :=
  ⟨⟨kInfinity, kInfinity, kInfinity⟩, ⟨-kInfinity, -kInfinity, -kInfinity⟩⟩

/-- Function `AABB::IsValid`. -/
def IsValid (b : AABB K) : Bool :=
  decide (b.min_.get 0 ≠ kInfinity) && decide (b.min_.get 1 ≠ kInfinity) &&
  decide (b.min_.get 2 ≠ kInfinity) && decide (b.max_.get 0 ≠ -kInfinity) &&
  decide (b.max_.get 1 ≠ -kInfinity) && decide (b.max_.get 2 ≠ -kInfinity)

/-- Function `AABB::ExpandBy(const Vec3r& point)`. -/
def ExpandByPoint (b : AABB K) (point : Vec3r K) : AABB K :=
  ⟨⟨min (b.min_.get 0) (point.get 0), min (b.min_.get 1) (point.get 1),
    min (b.min_.get 2) (point.get 2)⟩,
   ⟨max (b.max_.get 0) (point.get 0), max (b.max_.get 1) (point.get 1),
    max (b.max_.get 2) (point.get 2)⟩⟩

/-- Function `AABB::ExpandBy(const AABB& other)`. -/
def ExpandBy (b other : AABB K) : AABB K :=
  if !other.IsValid then b
  else (b.ExpandByPoint other.min_).ExpandByPoint other.max_

/-- Function `AABB::IntersectWith`. -/
def IntersectWith (b other : AABB K) : AABB K :=
  let out_box : AABB K := AABB.default
  if !b.IsValid || !other.IsValid then out_box
  else if decide (b.max_.get 0 < other.min_.get 0) || decide (b.min_.get 0 > other.max_.get 0) ||
      decide (b.max_.get 1 < other.min_.get 1) || decide (b.min_.get 1 > other.max_.get 1) ||
      decide (b.max_.get 2 < other.min_.get 2) || decide (b.min_.get 2 > other.max_.get 2) then
    out_box
  else
    ⟨⟨max (b.min_.get 0) (other.min_.get 0), max (b.min_.get 1) (other.min_.get 1),
      max (b.min_.get 2) (other.min_.get 2)⟩,
     ⟨min (b.max_.get 0) (other.max_.get 0), min (b.max_.get 1) (other.max_.get 1),
      min (b.max_.get 2) (other.max_.get 2)⟩⟩

/-- Function `AABB::IsPointInside`. -/
def IsPointInside (b : AABB K) (point : Vec3r K) : Bool :=
  decide (point.get 0 ≥ b.min_.get 0) && decide (point.get 1 ≥ b.min_.get 1) &&
  decide (point.get 2 ≥ b.min_.get 2) && decide (point.get 0 ≤ b.max_.get 0) &&
  decide (point.get 1 ≤ b.max_.get 1) && decide (point.get 2 ≤ b.max_.get 2)

/-- The `for` loop of `AABB::Hit` over the axes still to be visited, with the
current values of the local variables `tmin` and `tmax`. -/
def HitLoop (b : AABB K) (origin dir : Vec3r K) : List (Fin 3) → K → K → Bool
  | [], _, _ => true
  | i :: rest, tmin, tmax =>
    let dir_inv := 1 / dir.get i
    let t0 := (b.min_.get i - origin.get i) * dir_inv
    let t1 := (b.max_.get i - origin.get i) * dir_inv
    let t0s := if dir_inv < 0 then t1 else t0
    let t1s := if dir_inv < 0 then t0 else t1
    let tmin1 := if t0s > tmin then t0s else tmin
    let tmax1 := if t1s < tmax then t1s else tmax
    if tmax1 < tmin1 then false
    else HitLoop b origin dir rest tmin1 tmax1

/-- Function `AABB::Hit`. -/
def Hit (b : AABB K) (ray : Ray K) (tmin tmax : K) : Bool :=
  if !b.IsValid then false
  else HitLoop b ray.GetOrigin ray.GetDirection [0, 1, 2] tmin tmax

end AABB

/-! ## face_geouv.h, ray.h: HitRecord; surface.h: the scene nodes -/

/-- Class `FaceGeoUV`. -/
structure FaceGeoUV (K : Type) where
  face_id_ : Int
  uv_ : Vec2r K
  global_uv_ : Vec2r K
deriving DecidableEq

/-- A `Surface::Ptr`: the null pointer, or a pointer to a `Surface`, a `Sphere` or
a `BVHNode` object with the data members of that class.  (`name_`, the node id and
`material_` play no part in `Hit`, `GetBoundingBox` and `BuildBVH` and are left out.) -/
inductive Surface (K : Type) where
  | null : Surface K
  | base (bbox_ : AABB K) (bound_dirty_ : Bool) : Surface K
  | sphere (center_ : Vec3r K) (radius_ : K) (bbox_ : AABB K) (bound_dirty_ : Bool) : Surface K
  | bvhNode (left_ right_ : Surface K) (bbox_ : AABB K) (bound_dirty_ : Bool) : Surface K
deriving DecidableEq

/-- Class `HitRecord` of `ray.h`. -/
structure HitRecord (K : Type) where
  ray_t_ : K
  point_ : Vec3r K
  normal_ : Vec3r K
  front_face_ : Bool
  surface_ : Surface K
  face_geouv_ : FaceGeoUV K
deriving DecidableEq

namespace HitRecord

/-- The default-constructed record: the member initialisers of `ray.h`.  The
members of a default-constructed `FaceGeoUV` are not initialised by the code; the
model takes zeros. -/
def default : HitRecord K :=
  ⟨0, ⟨0, 0, 0⟩, ⟨0, 0, 0⟩, true, Surface.null, ⟨0, ⟨0, 0⟩, ⟨0, 0⟩⟩⟩

/-- Function `HitRecord::GetRayT`. -/
def GetRayT (h : HitRecord K) : K := h.ray_t_

/-- Function `HitRecord::SetRayT`. -/
def SetRayT (h : HitRecord K) (ray_t : K) : HitRecord K := { h with ray_t_ := ray_t }

/-- Function `HitRecord::SetPoint`. -/
def SetPoint (h : HitRecord K) (point : Vec3r K) : HitRecord K := { h with point_ := point }

/-- Function `HitRecord::SetNormal(const Ray& ray, const Vec3r& face_normal)`. -/
def SetNormal (h : HitRecord K) (ray : Ray K) (face_normal : Vec3r K) : HitRecord K :=
  let front_face := decide (ray.GetDirection.dot face_normal < 0)
  if front_face then { h with front_face_ := front_face, normal_ := face_normal }
  else { h with front_face_ := front_face, normal_ := face_normal.neg }

/-- Function `HitRecord::SetSurface`. -/
def SetSurface (h : HitRecord K) (surface : Surface K) : HitRecord K :=
  { h with surface_ := surface }

/-- Function `HitRecord::SetFaceGeoUV`. -/
def SetFaceGeoUV (h : HitRecord K) (face_geouv : FaceGeoUV K) : HitRecord K :=
  { h with face_geouv_ := face_geouv }

end HitRecord

namespace Surface

/-- Truth value of a pointer: `false` for the null pointer. -/
def isNull : Surface K → Bool
  | null => true
  | _ => false

/-- The virtual `GetBoundingBox(force_recompute)`: the returned box and the object
after the call (`Surface::GetBoundingBox`, `Sphere::GetBoundingBox`,
`BVHNode::GetBoundingBox`).  The code never calls it through a null pointer without
crashing; the callers in this file test for `null` first. -/
def GetBoundingBox : Surface K → Bool → AABB K × Surface K
  | null, _ => (AABB.default, null)
  | base bbox_ bound_dirty_, _ => (bbox_, base bbox_ bound_dirty_)
  | sphere center_ radius_ bbox_ bound_dirty_, force_recompute =>
    if !force_recompute && !bound_dirty_ then
      (bbox_, sphere center_ radius_ bbox_ bound_dirty_)
    else
      let bbox0 := bbox_.Reset
      let radius3 : Vec3r K := ⟨radius_, radius_, radius_⟩
      let bbox1 := bbox0.ExpandBy ⟨center_.sub radius3, center_.add radius3⟩
      (bbox1, sphere center_ radius_ bbox1 false)
  | bvhNode left_ right_ bbox_ bound_dirty_, force_recompute =>
    if !force_recompute && !bound_dirty_ then
      (bbox_, bvhNode left_ right_ bbox_ bound_dirty_)
    else
      let bbox0 := bbox_.Reset
      let lres := if left_.isNull then (bbox0, left_)
        else ((bbox0.ExpandBy (GetBoundingBox left_ force_recompute).1),
          (GetBoundingBox left_ force_recompute).2)
      let rres := if right_.isNull then (lres.1, right_)
        else ((lres.1.ExpandBy (GetBoundingBox right_ force_recompute).1),
          (GetBoundingBox right_ force_recompute).2)
      (rres.1, bvhNode lres.2 rres.2 rres.1 false)

end Surface

/-! ## sphere.cpp -/

/-- Function `Sphere::Hit` on the sphere object `self` with members `center_`, `radius_`:
the returned flag and the hit record after the call. -/
def Sphere.Hit (M : MathFns K) (self : Surface K) (center_ : Vec3r K) (radius_ : K)
    (ray : Ray K) (tmin tmax : K) (hit_record : HitRecord K) : Bool × HitRecord K :=
  let p0 := ray.GetOrigin.sub center_
  let v := ray.GetDirection
  let a := v.squaredNorm
  let b := 2 * p0.dot v
  let c := p0.squaredNorm - radius_ * radius_
  let a2 := 2 * a
  let discriminant := b * b - 2 * a2 * c
  if discriminant < 0 then (false, hit_record)
  else
    let s := M.sqrt discriminant
    let t0 := (-b - s) / a2
    let t := if t0 < tmin then (-b + s) / a2 else t0
    if t < tmin ∨ t > tmax then (false, hit_record)
    else
      let hit_point := ray.At t
      let rec1 := hit_record.SetRayT t
      let rec2 := rec1.SetPoint hit_point
      let rec3 := rec2.SetNormal ray ((hit_point.sub center_).normalized M)
      let rec4 := rec3.SetSurface self
      let x := hit_point.get 0 - center_.get 0
      let y := hit_point.get 1 - center_.get 1
      let z := hit_point.get 2 - center_.get 2
      let phi0 := M.atan2 y x
      let phi := if phi0 ≥ 0 then phi0 else phi0 + k2Pi
      let theta := M.acos (z / M.sqrt (x * x + y * y + z * z))
      let uv : Vec2r K := ⟨phi / k2Pi, theta / kPi⟩
      let face_geouv : FaceGeoUV K := ⟨-1, ⟨-1, -1⟩, uv⟩
      (true, rec4.SetFaceGeoUV face_geouv)

/-! ## surface.cpp, bvh_node.cpp: Hit -/

/-- The virtual `Hit(ray, tmin, tmax, hit_record)`: the returned flag and the hit
record after the call (`Surface::Hit`, `Sphere::Hit`, `BVHNode::Hit`).  On the null
pointer it is `false`, as at every call site (`ptr != nullptr and ptr->Hit(...)`). -/
def Surface.Hit (M : MathFns K) : Surface K → Ray K → K → K → HitRecord K → Bool × HitRecord K
  | Surface.null, _, _, _, hit_record => (false, hit_record)
  | Surface.base _ _, _, _, _, hit_record => (false, hit_record)
  | Surface.sphere center_ radius_ bbox_ bound_dirty_, ray, tmin, tmax, hit_record =>
    Sphere.Hit M (Surface.sphere center_ radius_ bbox_ bound_dirty_) center_ radius_
      ray tmin tmax hit_record
  | Surface.bvhNode left_ right_ bbox_ _, ray, tmin, tmax, hit_record =>
    if bbox_.Hit ray tmin tmax then
      let lres := if left_.isNull then (false, HitRecord.default)
        else Surface.Hit M left_ ray tmin tmax HitRecord.default
      let rres := if right_.isNull then (false, HitRecord.default)
        else Surface.Hit M right_ ray tmin tmax HitRecord.default
      let left_hit := lres.1
      let lrec := lres.2
      let right_hit := rres.1
      let rrec := rres.2
      if left_hit && right_hit then
        if lrec.GetRayT < rrec.GetRayT then (true, lrec) else (true, rrec)
      else if left_hit then (true, lrec)
      else if right_hit then (true, rrec)
      else (false, hit_record)
    else (false, hit_record)

/-! ## surface_list.cpp -/

/-- Class `SurfaceList`. -/
structure SurfaceList (K : Type) where
  surfaces_ : List (Surface K)
  bbox_ : AABB K
  bound_dirty_ : Bool

namespace SurfaceList

/-- The `for` loop of `SurfaceList::Hit` over the surfaces still to be visited, with
the current values of `tmax`, `first_hit` and `hit_record`; it returns the final
`first_hit` and `hit_record`. -/
def HitLoop (M : MathFns K) (ray : Ray K) (tmin : K) :
    List (Surface K) → K → Bool → HitRecord K → Bool × HitRecord K
  | [], _, first_hit, hit_record => (first_hit, hit_record)
  | surface :: rest, tmax, first_hit, hit_record =>
    if surface.isNull then HitLoop M ray tmin rest tmax first_hit hit_record
    else
      let res := surface.Hit M ray tmin tmax HitRecord.default
      let current_hit := res.2
      if !res.1 then HitLoop M ray tmin rest tmax first_hit hit_record
      else if first_hit then HitLoop M ray tmin rest current_hit.GetRayT false current_hit
      else HitLoop M ray tmin rest current_hit.GetRayT first_hit current_hit

/-- Function `SurfaceList::Hit`. -/
def Hit (M : MathFns K) (l : SurfaceList K) (ray : Ray K) (tmin tmax : K)
    (hit_record : HitRecord K) : Bool × HitRecord K :=
  let res := HitLoop M ray tmin l.surfaces_ tmax true hit_record
  (!res.1, res.2)

end SurfaceList

/-! ## bvh_node.cpp: BuildBVH -/

/-- The library function `std::sort(first, last, comp)`: some function that
rearranges the elements of the list. -/
structure StdSort where
  sort : {α : Type} → (α → α → Bool) → List α → List α
  perm : ∀ {α : Type} (comp : α → α → Bool) (l : List α), (sort comp l).Perm l

/-- Insertion of `a` into a list, before the first element that `a` precedes. -/
def StdSort.insert {α : Type} (comp : α → α → Bool) (a : α) : List α → List α
  | [] => [a]
  | b :: l => if comp a b then a :: b :: l else b :: StdSort.insert comp a l

/-- Insertion sort with the comparator `comp`. -/
def StdSort.insertionSort {α : Type} (comp : α → α → Bool) : List α → List α
  | [] => []
  | a :: l => StdSort.insert comp a (StdSort.insertionSort comp l)

theorem StdSort.insert_perm {α : Type} (comp : α → α → Bool) (a : α) (l : List α) :
    (StdSort.insert comp a l).Perm (a :: l) := by
  induction l with
  | nil => exact List.Perm.refl _
  | cons b l ih =>
    simp only [StdSort.insert]
    split_ifs
    · exact List.Perm.refl _
    · exact (List.Perm.cons b ih).trans (List.Perm.swap a b l)

theorem StdSort.insertionSort_perm {α : Type} (comp : α → α → Bool) (l : List α) :
    (StdSort.insertionSort comp l).Perm l := by
  induction l with
  | nil => exact List.Perm.refl _
  | cons a l ih =>
    simp only [StdSort.insertionSort]
    exact (StdSort.insert_perm comp a _).trans (List.Perm.cons a ih)

theorem StdSort.length_sort (S : StdSort) {α : Type} (comp : α → α → Bool) (l : List α) :
    (S.sort comp l).length = l.length := (S.perm comp l).length_eq

/-- One implementation of `std::sort`. -/
def StdSort.insertion : StdSort := ⟨StdSort.insertionSort, StdSort.insertionSort_perm⟩

namespace BVHNode

/-- Function `BVHNode::BBoxCombine`. -/
def BBoxCombine (left right : AABB K) : AABB K :=
  let minx := min (left.GetMin.get 0) (right.GetMin.get 0)
  let miny := min (left.GetMin.get 1) (right.GetMin.get 1)
  let minz := min (left.GetMin.get 2) (right.GetMin.get 2)
  let maxx := max (left.GetMax.get 0) (right.GetMax.get 0)
  let maxy := max (left.GetMax.get 1) (right.GetMax.get 1)
  let maxz := max (left.GetMax.get 2) (right.GetMax.get 2)
  ⟨⟨minx, miny, minz⟩, ⟨maxx, maxy, maxz⟩⟩

/-- The comparator lambdas of the recursive `BuildBVH`, for the axis `i`. -/
def sortComp (i : Fin 3) (lhs rhs : Surface K) : Bool :=
  decide ((lhs.GetBoundingBox false).1.GetMin.get i +
      (((lhs.GetBoundingBox false).1.GetMax.get i - (lhs.GetBoundingBox false).1.GetMin.get i) / 2) >
    (rhs.GetBoundingBox false).1.GetMax.get i +
      (((rhs.GetBoundingBox false).1.GetMax.get i - (rhs.GetBoundingBox false).1.GetMin.get i) / 2))

/-- The protected overload `BuildBVH(surfaces, start, end, split_axis)`.
The result is `none` when the code does not return: it dereferences a null
surface pointer, or (on an empty list) recurses for ever.  The comparator calls
`GetBoundingBox()` on every element it is given, so after `std::sort` every
element has had that call; the model makes the calls before sorting.  A node made
by `BVHNode::Create()` has `bound_dirty_ = true`, and the code assigns `bbox_`
without clearing it.  The three comparator lambdas differ in the axis index only. -/
def BuildBVHRange (S : StdSort) (surfaces : List (Surface K)) (start end_ : Nat)
    (split_axis : Nat) : Option (Surface K) :=
  let N := surfaces.length
  if h1 : N = 1 then
    match surfaces with
    | [s0] =>
      if s0.isNull then none
      else some (Surface.bvhNode (s0.GetBoundingBox false).2 Surface.null
        (s0.GetBoundingBox false).1 true)
    | _ => none
  else if h2 : N = 2 then
    match surfaces with
    | [s0, s1] =>
      if s0.isNull || s1.isNull then none
      else some (Surface.bvhNode (s0.GetBoundingBox false).2 (s1.GetBoundingBox false).2
        (BBoxCombine (s0.GetBoundingBox false).1 (s1.GetBoundingBox false).1) true)
    | _ => none
  else if h0 : N = 0 then none
  else if surfaces.any Surface.isNull then none
  else
    let touched := surfaces.map (fun s => (s.GetBoundingBox false).2)
    let axis : Fin 3 := if split_axis = 0 then 0 else if split_axis = 1 then 1 else 2
    let sorted := S.sort (sortComp axis) touched
    let left_sub := sorted.take (N / 2)
    let right_sub := sorted.drop (N / 2)
    match BuildBVHRange S left_sub 0 (N / 2) ((split_axis + 1) % 3) with
    | none => none
    | some left =>
      match BuildBVHRange S right_sub (N / 2) (N - 1) ((split_axis + 1) % 3) with
      | none => none
      | some right =>
        some (Surface.bvhNode (left.GetBoundingBox false).2 (right.GetBoundingBox false).2
          (BBoxCombine (left.GetBoundingBox false).1 (right.GetBoundingBox false).1) true)
termination_by surfaces.length
decreasing_by
  all_goals simp_wf
  all_goals simp only [StdSort.length_sort, List.length_map]
  all_goals omega

/-- The public `BuildBVH(surfaces)`.  The result is `none` when the code does not
return, `some Surface.null` when it returns `nullptr`, and the built node otherwise. -/
def BuildBVH (S : StdSort) (surfaces : List (Surface K)) : Option (Surface K) :=
  let surface_count := surfaces.length
  if surface_count = 0 then some Surface.null
  else
    let surfaces1 := surfaces.map
      (fun surface => if surface.isNull then surface else (surface.GetBoundingBox false).2)
    let split_axis := 0
    match BuildBVHRange S surfaces1 0 surface_count split_axis with
    | none => none
    | some bvh_node =>
      if bvh_node.isNull then some bvh_node
      else some (bvh_node.GetBoundingBox false).2

end BVHNode

/-! ## Auxiliary definitions used to state the theorems -/

/-- The local variable `discriminant` of `Sphere::Hit`. -/
def Sphere.discriminant (center_ : Vec3r K) (radius_ : K) (ray : Ray K) : K :=
  let p0 := ray.GetOrigin.sub center_
  let v := ray.GetDirection
  let a := v.squaredNorm
  let b := 2 * p0.dot v
  let c := p0.squaredNorm - radius_ * radius_
  let a2 := 2 * a
  b * b - 2 * a2 * c

/-- The local variable `t` of `Sphere::Hit` after the choice between the two roots. -/
def Sphere.chosenT (M : MathFns K) (center_ : Vec3r K) (radius_ : K) (ray : Ray K) (tmin : K) : K :=
  let p0 := ray.GetOrigin.sub center_
  let v := ray.GetDirection
  let a := v.squaredNorm
  let b := 2 * p0.dot v
  let a2 := 2 * a
  let s := M.sqrt (Sphere.discriminant center_ radius_ ray)
  let t0 := (-b - s) / a2
  if t0 < tmin then (-b + s) / a2 else t0

/-- The hit record that `Sphere::Hit` fills in for the parameter `t`. -/
def Sphere.filledRecord (M : MathFns K) (self : Surface K) (center_ : Vec3r K) (ray : Ray K)
    (t : K) (hit_record : HitRecord K) : HitRecord K :=
  let hit_point := ray.At t
  let rec1 := hit_record.SetRayT t
  let rec2 := rec1.SetPoint hit_point
  let rec3 := rec2.SetNormal ray ((hit_point.sub center_).normalized M)
  let rec4 := rec3.SetSurface self
  let x := hit_point.get 0 - center_.get 0
  let y := hit_point.get 1 - center_.get 1
  let z := hit_point.get 2 - center_.get 2
  let phi0 := M.atan2 y x
  let phi := if phi0 ≥ 0 then phi0 else phi0 + k2Pi
  let theta := M.acos (z / M.sqrt (x * x + y * y + z * z))
  let uv : Vec2r K := ⟨phi / k2Pi, theta / kPi⟩
  let face_geouv : FaceGeoUV K := ⟨-1, ⟨-1, -1⟩, uv⟩
  rec4.SetFaceGeoUV face_geouv

/-- Whether the pointer points to a `Sphere`. -/
def Surface.isSphere : Surface K → Bool
  | Surface.sphere _ _ _ _ => true
  | _ => false

/-- The box returned by `GetBoundingBox()` on the surface. -/
def Surface.box (s : Surface K) : AABB K := (s.GetBoundingBox false).1

/-- The surface after a call of `GetBoundingBox()`. -/
def Surface.touch (s : Surface K) : Surface K := (s.GetBoundingBox false).2

/-- A finite, valid bounding box: `IsValid()` holds, `min ≤ max` on every axis, and
every coordinate is a finite `Real`, that is, lies in `[-kInfinity, kInfinity]`. -/
def AABB.Proper (b : AABB K) : Prop :=
  b.IsValid = true ∧
  ∀ i : Fin 3, b.min_.get i ≤ b.max_.get i ∧ -kInfinity ≤ b.min_.get i ∧ b.max_.get i ≤ kInfinity

/-- The component-wise union of two boxes: the min of the mins and the max of the
maxes. -/
def AABB.union (a b : AABB K) : AABB K :=
  ⟨⟨min a.min_.x b.min_.x, min a.min_.y b.min_.y, min a.min_.z b.min_.z⟩,
   ⟨max a.max_.x b.max_.x, max a.max_.y b.max_.y, max a.max_.z b.max_.z⟩⟩

/-- The component-wise union of a non-empty list of boxes (min of all mins, max of
all maxes). -/
def AABB.unionList : List (AABB K) → AABB K
  | [] => AABB.default
  | [b] => b
  | b :: c :: l => AABB.union b (AABB.unionList (c :: l))

/-- The surfaces at the leaf slots of a tree of `BVHNode`s. -/
def Surface.leaves : Surface K → List (Surface K)
  | Surface.null => []
  | Surface.base bbox_ bound_dirty_ => [Surface.base bbox_ bound_dirty_]
  | Surface.sphere center_ radius_ bbox_ bound_dirty_ =>
    [Surface.sphere center_ radius_ bbox_ bound_dirty_]
  | Surface.bvhNode left_ right_ _ _ => left_.leaves ++ right_.leaves

/-- A sphere whose bounding box, as `GetBoundingBox()` returns it, is a finite,
valid box that encloses the sphere. -/
def Surface.SphereBoxOk : Surface K → Prop
  | Surface.sphere center_ radius_ bbox_ bound_dirty_ =>
    (Surface.sphere center_ radius_ bbox_ bound_dirty_).box.Proper ∧
    ∀ i : Fin 3,
      (Surface.sphere center_ radius_ bbox_ bound_dirty_).box.min_.get i ≤
        center_.get i - |radius_| ∧
      center_.get i + |radius_| ≤
        (Surface.sphere center_ radius_ bbox_ bound_dirty_).box.max_.get i
  | _ => False

/-- Three unit spheres, as constructed (`bound_dirty_ = true`), for concrete
evaluation. -/
def Surface.exampleSpheres : List (Surface ℚ) :=
  [Surface.sphere ⟨0, 0, 0⟩ 1 AABB.default true, Surface.sphere ⟨3, 0, 0⟩ 1 AABB.default true,
   Surface.sphere ⟨0, 4, 0⟩ 1 AABB.default true]

/-- A math library on `ℚ` for concrete evaluation: `sqrt` is exact on the squares
of rationals; `atan2` and `acos`, which only feed the texture coordinates of a hit,
are constant. -/
def MathFns.rat : MathFns ℚ := ⟨Rat.sqrt, fun _ _ => 0, fun _ => 0⟩

/-! ## types.h: matrices; aabb.cpp: operator* -/

/-- Constant `kEpsilon2` of `types.h` (double precision). -/
def kEpsilon2 : K := 1 / 10 ^ 14

/-- Type `Vec4r` of `types.h`. -/
structure Vec4r (K : Type) where
  x : K
  y : K
  z : K
  w : K
deriving DecidableEq

/-- Eigen `a.dot(b)` on `Vec4r`. -/
def Vec4r.dot (a b : Vec4r K) : K := a.x * b.x + a.y * b.y + a.z * b.z + a.w * b.w

/-- Function `Sphere::SetCenter` (on a pointer to a `Sphere`). -/
def Sphere.SetCenter : Surface K → Vec3r K → Surface K
  | Surface.sphere _ radius_ bbox_ _, center => Surface.sphere center radius_ bbox_ true
  | s, _ => s

/-- Function `Sphere::SetRadius` (on a pointer to a `Sphere`). -/
def Sphere.SetRadius : Surface K → K → Surface K
  | Surface.sphere center_ _ bbox_ _, radius => Surface.sphere center_ radius bbox_ true
  | s, _ => s

/-- The sphere made by the constructor `Sphere(center, radius)`: the box is the
default one and `bound_dirty_` is true (`surface.h`). -/
def Sphere.Create (center : Vec3r K) (radius : K) : Surface K :=
  Surface.sphere center radius AABB.default true

/-- A call of `SetCenter`, `SetRadius` or `GetBoundingBox()` on a sphere. -/
inductive SphereCall (K : Type) where
  | SetCenter (center : Vec3r K) : SphereCall K
  | SetRadius (radius : K) : SphereCall K
  | GetBoundingBox : SphereCall K

/-- The sphere after one call. -/
def Sphere.call (s : Surface K) : SphereCall K → Surface K
  | SphereCall.SetCenter center => Sphere.SetCenter s center
  | SphereCall.SetRadius radius => Sphere.SetRadius s radius
  | SphereCall.GetBoundingBox => (s.GetBoundingBox false).2

/-- The sphere after a sequence of calls. -/
def Sphere.calls (s : Surface K) (l : List (SphereCall K)) : Surface K :=
  l.foldl Sphere.call s

/-- The flag `bound_dirty_` of a surface object. -/
def Surface.IsBoundDirty : Surface K → Bool
  | Surface.null => false
  | Surface.base _ bound_dirty_ => bound_dirty_
  | Surface.sphere _ _ _ bound_dirty_ => bound_dirty_
  | Surface.bvhNode _ _ _ bound_dirty_ => bound_dirty_

/-- The C math library with `pow`. -/
structure CMath (K : Type) extends MathFns K where
  pow : K → K → K

/-- Eigen `a.cwiseProduct(b)`. -/
def Vec3r.cwiseProduct (a b : Vec3r K) : Vec3r K := ⟨a.x * b.x, a.y * b.y, a.z * b.z⟩

/-- Eigen `a.cross(b)`. -/
def Vec3r.cross (a b : Vec3r K) : Vec3r K :=
  ⟨a.y * b.z - a.z * b.y, a.z * b.x - a.x * b.z, a.x * b.y - a.y * b.x⟩

/-- Product `v * t` of a vector and a scalar. -/
def Vec3r.muls (a : Vec3r K) (t : K) : Vec3r K := ⟨a.x * t, a.y * t, a.z * t⟩

/-- Function `Ray::Reflect`. -/
def Ray.Reflect (ray_in : Ray K) (point normal : Vec3r K) : Ray K :=
  let dir := ray_in.GetDirection
  ⟨point, dir.sub (Vec3r.smul (2 * normal.dot dir) normal)⟩

/-- Function `Ray::Refract(ray_in, point, normal, ior_in, ior_out)`. -/
def Ray.Refract (M : MathFns K) (ray_in : Ray K) (point normal : Vec3r K) (ior_in ior_out : K) :
    Ray K :=
  let v := ray_in.GetDirection.normalized M
  let cos_theta := min (normal.dot v.neg) 1
  let r_out_perp := Vec3r.smul (ior_in / ior_out) (v.add (Vec3r.smul cos_theta normal))
  let r_out_parallel := Vec3r.smul (-(M.sqrt |1 - r_out_perp.squaredNorm|)) normal
  ⟨point, r_out_perp.add r_out_parallel⟩

/-! ## texture.h, phong_material.cpp, phong_dielectric.cpp -/

/-- A `Texture::Ptr`: the null pointer, or a pointer to a `Texture`, a `SolidTexture`
or an `ImageTexture`.  `ImageTexture::Value` reads the image through the image
library; the model holds its result as a function of `uv` and `position`. -/
inductive Texture (K : Type) where
  | null : Texture K
  | base (gain_ bias_ : Vec3r K) : Texture K
  | solid (color_ gain_ bias_ : Vec3r K) : Texture K
  | image (value : Vec2r K → Vec3r K → Vec3r K) : Texture K

/-- Truth value of a texture pointer. -/
def Texture.isNull : Texture K → Bool
  | Texture.null => true
  | _ => false

/-- The virtual `Value(uv, position)` (`Texture::Value`, `SolidTexture::Value`,
`ImageTexture::Value`); it is not called through a null pointer. -/
def Texture.Value : Texture K → Vec2r K → Vec3r K → Vec3r K
  | Texture.null, _, _ => ⟨0, 0, 0⟩
  | Texture.base _ bias_, _, _ => (⟨0, 0, 0⟩ : Vec3r K).add bias_
  | Texture.solid color_ gain_ bias_, _, _ => (color_.cwiseProduct gain_).add bias_
  | Texture.image value, uv, position => value uv position

/-- The texture made by `SolidTexture::Create(color)`. -/
def SolidTexture.Create (color : Vec3r K) : Texture K :=
  Texture.solid color ⟨1, 1, 1⟩ ⟨0, 0, 0⟩

/-- Class `PhongMaterial`. -/
structure PhongMaterial (K : Type) where
  ambient_ : Vec3r K
  diffuse_ : Texture K
  specular_ : Vec3r K
  shininess_ : K
  mirror_ : Vec3r K

/-- Class `PhongDielectric`. -/
structure PhongDielectric (K : Type) extends PhongMaterial K where
  ior_ : K

/-- A `Material::Ptr`: the null pointer, or a pointer to a `Material`, a
`PhongMaterial` or a `PhongDielectric`. -/
inductive Material (K : Type) where
  | null : Material K
  | base : Material K
  | phong (m : PhongMaterial K) : Material K
  | dielectric (m : PhongDielectric K) : Material K

/-- The cast `dynamic_pointer_cast<PhongMaterial>(material)`: `none` is the null
result. -/
def Material.asPhong : Material K → Option (PhongMaterial K)
  | Material.phong m => some m
  | Material.dielectric m => some m.toPhongMaterial
  | _ => none

/-- The constructor `PhongDielectric(ior, attenuation)`. -/
def PhongDielectric.Create (ior : K) (attenuation : Vec3r K) : PhongDielectric K :=
  { ambient_ := ⟨0, 0, 0⟩, diffuse_ := SolidTexture.Create attenuation, specular_ := ⟨0, 0, 0⟩,
    shininess_ := 1, mirror_ := ⟨0, 0, 0⟩, ior_ := ior }

/-- Function `PhongMaterial::Evaluate`. -/
def PhongMaterial.Evaluate (C : CMath K) (m : PhongMaterial K) (hit_record : HitRecord K)
    (light_vec view_vec : Vec3r K) : Vec3r K :=
  let normal := hit_record.normal_
  let half := (view_vec.add light_vec).normalized C.toMathFns
  let half_dot := max 0 (half.dot normal)
  let specular_falloff := C.pow half_dot m.shininess_
  let specular_color := Vec3r.smul specular_falloff m.specular_
  if m.diffuse_.isNull then specular_color.add ⟨0, 0, 0⟩
  else
    let uv := hit_record.face_geouv_.global_uv_
    let diffuse_color := m.diffuse_.Value uv hit_record.point_
    if !hit_record.front_face_ then (⟨0, 0, 0⟩ : Vec3r K).add ⟨1, 1, 0⟩
    else specular_color.add diffuse_color

/-- Function `PhongDielectric::SchlicksReflectance`. -/
def PhongDielectric.SchlicksReflectance (C : CMath K) (cos_theta ior_in ior_out : K) : K :=
  let ior_ratio := ior_in / ior_out
  let r0 := (1 - ior_ratio) / (1 + ior_ratio)
  let r0sq := r0 * r0
  r0sq + (1 - r0sq) * C.pow (1 - cos_theta) 5

/-- The output parameters and the returned value of `PhongDielectric::Scatter`. -/
structure ScatterResult (K : Type) where
  attenuation : Vec3r K
  reflect_ray : Option (Ray K)
  refract_ray : Option (Ray K)
  schlick_reflectance : K

/-- The local variable `cos_theta` of `PhongDielectric::Scatter`. -/
def PhongDielectric.cosTheta (C : CMath K) (hit_record : HitRecord K) (ray_in : Ray K) : K :=
  let normal := hit_record.normal_
  let v := (ray_in.GetDirection.normalized C.toMathFns).neg
  min (v.dot normal) 1

/-- The local variable `reflect_only` of `PhongDielectric::Scatter`. -/
def PhongDielectric.reflectOnly (C : CMath K) (m : PhongDielectric K) (hit_record : HitRecord K)
    (ray_in : Ray K) : Bool :=
  let cos_theta := PhongDielectric.cosTheta C hit_record ray_in
  let sin_theta := C.sqrt (1 - cos_theta * cos_theta)
  let ior_in := if !hit_record.front_face_ then m.ior_ else 1
  let ior_out := if !hit_record.front_face_ then 1 else m.ior_
  decide (sin_theta * ior_in / ior_out > 1)

/-- Function `PhongDielectric::Scatter`, with the values of the three reference
parameters before the call.  The result is `none` when `diffuse_` is not a
`SolidTexture`: the code then dereferences the null result of the cast. -/
def PhongDielectric.Scatter (C : CMath K) (m : PhongDielectric K) (hit_record : HitRecord K)
    (ray_in : Ray K) (reflect_ray refract_ray : Option (Ray K)) (schlick_reflectance : K) :
    Option (ScatterResult K) :=
  match m.diffuse_ with
  | Texture.solid color_ _ _ =>
    let attenuation := color_
    let normal := hit_record.normal_
    let cos_theta := PhongDielectric.cosTheta C hit_record ray_in
    let ior_in := if !hit_record.front_face_ then m.ior_ else 1
    let ior_out := if !hit_record.front_face_ then 1 else m.ior_
    let reflect_only := PhongDielectric.reflectOnly C m hit_record ray_in
    let schlick := if reflect_only then 1
      else PhongDielectric.SchlicksReflectance C cos_theta ior_in ior_out
    let reflect := some (Ray.Reflect ray_in hit_record.point_ normal)
    let refract := if !reflect_only
      then some (Ray.Refract C.toMathFns ray_in hit_record.point_ normal ior_in ior_out)
      else refract_ray
    some ⟨attenuation, reflect, refract, schlick⟩
  | _ => none

/-! ## light.cpp -/

/-- Class `PointLight`. -/
structure PointLight (K : Type) where
  position_ : Vec3r K
  intensity_ : Vec3r K

/-- Function `PointLight::Illuminate`.  `GetMaterial` gives the material of the
object a surface pointer points to.  The result is `none` when `scene` is null (the
code calls `scene->Hit`). -/
def PointLight.Illuminate (C : CMath K) (GetMaterial : Surface K → Material K)
    (light : PointLight K) (hit_record : HitRecord K) (view_vec : Vec3r K) (scene : Surface K) :
    Option (Vec3r K) :=
  let black : Vec3r K := ⟨0, 0, 0⟩
  let hit_position := hit_record.point_
  let shadow_ray : Ray K := ⟨hit_position, light.position_.sub hit_position⟩
  if scene.isNull then none
  else if (scene.Hit C.toMathFns shadow_ray kEpsilon 1 HitRecord.default).1 then some black
  else
    let surface := hit_record.surface_
    if surface.isNull then some black
    else
      match (GetMaterial surface).asPhong with
      | none => some black
      | some phong_material =>
        let normal := hit_record.normal_
        let light_vec0 := light.position_.sub hit_position
        let distance2 := light_vec0.squaredNorm
        let light_vec := light_vec0.normalized C.toMathFns
        let denominator := max kEpsilon2 distance2
        let irradiance := (light.intensity_.muls (max 0 (normal.dot light_vec))).sdiv denominator
        let attenuation := phong_material.Evaluate C hit_record light_vec view_vec
        some (irradiance.cwiseProduct attenuation)

/-- Class `AreaLight`. -/
structure AreaLight (K : Type) where
  center_ : Vec3r K
  direction_ : Vec3r K
  u_ : Vec3r K
  v_ : Vec3r K
  rgb_ : Vec3r K
  strat_increments_ : List (Vec3r K)
  len_ : K
  samples_ : Int
  strat_samples_ : Int

/-- How the loop of `AreaLight::Illuminate` ends: the code fails (null `scene`), it
executes `return black`, or the loop runs to its end with `total_illumination`. -/
inductive AreaLoopResult (K : Type) where
  | failed : AreaLoopResult K
  | returned (color : Vec3r K) : AreaLoopResult K
  | finished (total_illumination : Vec3r K) : AreaLoopResult K

/-- The sample position of one iteration of `AreaLight::Illuminate`, for the
stratum origin `i` and the two values `r`, `s` returned by `std::rand()`. -/
def AreaLight.samplePosition (RAND_MAX : Nat) (light : AreaLight K) (i : Vec3r K) (r s : Nat) :
    Vec3r K :=
  let xoffset : K := (r : K) / (RAND_MAX : K)
  let yoffset : K := (s : K) / (RAND_MAX : K)
  (i.add ((light.u_.muls xoffset).sdiv (light.strat_samples_ : K))).add
    ((light.v_.muls yoffset).sdiv (light.strat_samples_ : K))

/-- The contribution that one unoccluded sample adds to `total_illumination`. -/
def AreaLight.sampleContribution (C : CMath K) (light : AreaLight K)
    (phong_material : PhongMaterial K) (hit_record : HitRecord K) (view_vec : Vec3r K)
    (sample_position : Vec3r K) : Vec3r K :=
  let hit_position := hit_record.point_
  let normal := hit_record.normal_
  let light_vec0 := sample_position.sub hit_position
  let distance2 := light_vec0.squaredNorm
  let light_vec := light_vec0.normalized C.toMathFns
  let denominator := max kEpsilon2 distance2
  let intensity := light.rgb_.muls (-(light_vec.dot light.direction_))
  let irradiance0 := (intensity.muls (max 0 (normal.dot light_vec))).sdiv denominator
  let irradiance := irradiance0.muls (light.len_ * light.len_)
  let attenuation := phong_material.Evaluate C hit_record light_vec view_vec
  irradiance.cwiseProduct attenuation

/-- The `for` loop of `AreaLight::Illuminate` over the stratum origins still to be
visited.  `rand k` is the value of the `k`-th call of `std::rand()`, `n` counts the
calls made so far. -/
def AreaLight.IlluminateLoop (C : CMath K) (GetMaterial : Surface K → Material K)
    (RAND_MAX : Nat) (rand : Nat → Nat) (light : AreaLight K) (hit_record : HitRecord K)
    (view_vec : Vec3r K) (scene : Surface K) :
    List (Vec3r K) → Nat → Vec3r K → AreaLoopResult K
  | [], _, total_illumination => AreaLoopResult.finished total_illumination
  | i :: rest, n, total_illumination =>
    let black : Vec3r K := ⟨0, 0, 0⟩
    let hit_position := hit_record.point_
    let sample_position := AreaLight.samplePosition RAND_MAX light i (rand n) (rand (n + 1))
    let shadow_ray : Ray K := ⟨hit_position, sample_position.sub hit_position⟩
    if scene.isNull then AreaLoopResult.failed
    else if (scene.Hit C.toMathFns shadow_ray kEpsilon 1 HitRecord.default).1 then
      AreaLight.IlluminateLoop C GetMaterial RAND_MAX rand light hit_record view_vec scene
        rest (n + 2) total_illumination
    else
      let surface := hit_record.surface_
      if surface.isNull then AreaLoopResult.returned black
      else
        match (GetMaterial surface).asPhong with
        | none => AreaLoopResult.returned black
        | some phong_material =>
          AreaLight.IlluminateLoop C GetMaterial RAND_MAX rand light hit_record view_vec scene
            rest (n + 2)
            (total_illumination.add
              (AreaLight.sampleContribution C light phong_material hit_record view_vec
                sample_position))

/-- Function `AreaLight::Illuminate`; `n` is the number of calls of `std::rand()`
made before.  The result is `none` when the code fails. -/
def AreaLight.Illuminate (C : CMath K) (GetMaterial : Surface K → Material K)
    (RAND_MAX : Nat) (rand : Nat → Nat) (n : Nat) (light : AreaLight K)
    (hit_record : HitRecord K) (view_vec : Vec3r K) (scene : Surface K) : Option (Vec3r K) :=
  match AreaLight.IlluminateLoop C GetMaterial RAND_MAX rand light hit_record view_vec scene
      light.strat_increments_ n ⟨0, 0, 0⟩ with
  | AreaLoopResult.failed => none
  | AreaLoopResult.returned color => some color
  | AreaLoopResult.finished total_illumination =>
    some (total_illumination.sdiv (light.samples_ : K))

/-- A math library on `ℚ` with `pow`, for concrete evaluation: `pow x y` is the
power of `x` with the integer part of `y` as exponent. -/
def CMath.rat : CMath ℚ := { MathFns.rat with pow := fun x y => x ^ (Int.toNat ⌊y⌋) }

/-- The colour that the specification gives for `PointLight::Illuminate` on an
unoccluded hit, `(intensity · max(0, N·L) / max(floor, d²)) ⊙ Evaluate(hit, L, view)`,
for the unit vector `L` towards the light and the floor `floor` of the denominator. -/
def PointLight.specRadiance (C : CMath K) (floor : K) (light : PointLight K)
    (phong_material : PhongMaterial K) (hit_record : HitRecord K) (view_vec L : Vec3r K) :
    Vec3r K :=
  let d2 := (light.position_.sub hit_record.point_).squaredNorm
  ((light.intensity_.muls (max 0 (hit_record.normal_.dot L))).sdiv (max floor d2)).cwiseProduct
    (phong_material.Evaluate C hit_record L view_vec)

/-- A matte white Phong material, for concrete evaluation: diffuse `(1, 1, 1)`, no
specular term. -/
def PhongMaterial.exampleMatte : PhongMaterial ℚ :=
  ⟨⟨0, 0, 0⟩, SolidTexture.Create ⟨1, 1, 1⟩, ⟨0, 0, 0⟩, 1, ⟨0, 0, 0⟩⟩

/-- The area light made by `AreaLight(center, direction, u, rgb, len)` with center
`(1/2, −1/2, 1)`, direction `(0, 0, 1)`, `u = (1, 0, 0)`, `rgb = (1, 1, 1)`, `len = 1`,
followed by `SetSamples(1)`: `v_ = u × direction = (0, −1, 0)` and the one stratum
origin is `center − u/2 − v/2 = (0, 0, 1)`.  It emits away from the origin. -/
def AreaLight.exampleUpward : AreaLight ℚ :=
  { center_ := ⟨1 / 2, -1 / 2, 1⟩, direction_ := ⟨0, 0, 1⟩, u_ := ⟨1, 0, 0⟩,
    v_ := ⟨0, -1, 0⟩, rgb_ := ⟨1, 1, 1⟩, strat_increments_ := [⟨0, 0, 1⟩], len_ := 1,
    samples_ := 1, strat_samples_ := 1 }

/-! ## light.cpp: the lights behind a `Light::Ptr` -/

/-- Function `AmbientLight::Illuminate`, for the member `ambient_`. -/
def AmbientLight.Illuminate (GetMaterial : Surface K → Material K) (ambient_ : Vec3r K)
    (hit_record : HitRecord K) : Vec3r K :=
  let surface := hit_record.surface_
  if surface.isNull then ⟨0, 0, 0⟩
  else
    match (GetMaterial surface).asPhong with
    | none => ⟨0, 0, 0⟩
    | some phong_material => ambient_.cwiseProduct phong_material.ambient_

/-- The number of calls of `std::rand()` made when the loop of
`AreaLight::Illuminate` is left, `n` being the number made before the loop reaches
the listed stratum origins: each iteration makes two calls before anything else. -/
def AreaLight.randCount (C : CMath K) (GetMaterial : Surface K → Material K)
    (RAND_MAX : Nat) (rand : Nat → Nat) (light : AreaLight K) (hit_record : HitRecord K)
    (scene : Surface K) : List (Vec3r K) → Nat → Nat
  | [], n => n
  | i :: rest, n =>
    let hit_position := hit_record.point_
    let sample_position := AreaLight.samplePosition RAND_MAX light i (rand n) (rand (n + 1))
    let shadow_ray : Ray K := ⟨hit_position, sample_position.sub hit_position⟩
    if scene.isNull then n + 2
    else if (scene.Hit C.toMathFns shadow_ray kEpsilon 1 HitRecord.default).1 then
      AreaLight.randCount C GetMaterial RAND_MAX rand light hit_record scene rest (n + 2)
    else if hit_record.surface_.isNull then n + 2
    else
      match (GetMaterial hit_record.surface_).asPhong with
      | none => n + 2
      | some _ =>
        AreaLight.randCount C GetMaterial RAND_MAX rand light hit_record scene rest (n + 2)

/-- A `Light::Ptr`: the null pointer, or a pointer to a `Light`, an `AmbientLight`, a
`PointLight` or an `AreaLight`. -/
inductive Light (K : Type) where
  | null : Light K
  | base : Light K
  | ambient (ambient_ : Vec3r K) : Light K
  | point (light : PointLight K) : Light K
  | area (light : AreaLight K) : Light K

/-- The virtual `light->Illuminate(hit_record, view_vec, scene)`: the returned colour
and the number of calls of `std::rand()` made so far (`n` before the call).  The
result is `none` when the code fails: the light pointer is null, or the light calls
`scene->Hit` on a null scene. -/
def Light.Illuminate (C : CMath K) (GetMaterial : Surface K → Material K) (RAND_MAX : Nat)
    (rand : Nat → Nat) (n : Nat) (hit_record : HitRecord K) (view_vec : Vec3r K)
    (scene : Surface K) : Light K → Option (Vec3r K × Nat)
  | Light.null => none
  | Light.base => some (⟨0, 0, 0⟩, n)
  | Light.ambient ambient_ => some (AmbientLight.Illuminate GetMaterial ambient_ hit_record, n)
  | Light.point light =>
    match PointLight.Illuminate C GetMaterial light hit_record view_vec scene with
    | none => none
    | some color => some (color, n)
  | Light.area light =>
    match AreaLight.Illuminate C GetMaterial RAND_MAX rand n light hit_record view_vec scene with
    | none => none
    | some color =>
      some (color, AreaLight.randCount C GetMaterial RAND_MAX rand light hit_record scene
        light.strat_increments_ n)

/-! ## raytracer.cpp: RayColor -/

/-- Eigen `v.isZero()` with the default precision of `double`: every component has
absolute value at most `10⁻¹²`. -/
def Vec3r.isZero (v : Vec3r K) : Bool :=
  decide (|v.x| ≤ 1 / 10 ^ 12) && decide (|v.y| ≤ 1 / 10 ^ 12) && decide (|v.z| ≤ 1 / 10 ^ 12)

/-- The outcome of a call of `RayTracer::RayColor`: the returned flag, the output
parameter `ray_color`, the number of calls of `std::rand()` made so far, and three
counts taken over the call and the calls it makes recursively: the invocations of
`RayColor` (this one included), its queries `scene->Hit(ray, kEpsilon, kInfinity, .)`
and its calls of `light->Illuminate`. -/
structure RayColorResult (K : Type) where
  ret : Bool
  ray_color : Vec3r K
  rand_calls : Nat
  invocations : Nat
  hit_queries : Nat
  light_calls : Nat

/-- The loop `for (auto light : lights) ray_color += light->Illuminate(...)` of
`RayColor`: the colour and the number of `std::rand()` calls after it. -/
def RayTracer.lightsLoop (C : CMath K) (GetMaterial : Surface K → Material K)
    (RAND_MAX : Nat) (rand : Nat → Nat) (hit_record : HitRecord K) (view_vec : Vec3r K)
    (scene : Surface K) : List (Light K) → Nat → Vec3r K → Option (Vec3r K × Nat)
  | [], n, ray_color => some (ray_color, n)
  | light :: rest, n, ray_color =>
    match light.Illuminate C GetMaterial RAND_MAX rand n hit_record view_vec scene with
    | none => none
    | some (color, n1) =>
      RayTracer.lightsLoop C GetMaterial RAND_MAX rand hit_record view_vec scene rest n1
        (ray_color.add color)

/-- Function `RayTracer::RayColor(ray, scene, lights, ray_depth, max_ray_depth,
ray_color)`; `n` is the number of calls of `std::rand()` made before.  The result is
`none` when the code fails (a null `scene`, a null light, a dielectric whose
`diffuse_` is not a `SolidTexture`).  `ray_depth` and `max_ray_depth` are `uint`
values; `ray_depth + 1` is only computed for `ray_depth < max_ray_depth`, so it does
not wrap. -/
def RayTracer.RayColor (C : CMath K) (GetMaterial : Surface K → Material K) (RAND_MAX : Nat)
    (rand : Nat → Nat) (scene : Surface K) (lights : List (Light K)) (max_ray_depth : Nat)
    (ray : Ray K) (ray_depth : Nat) (n : Nat) : Option (RayColorResult K) :=
  let black : Vec3r K := ⟨0, 0, 0⟩
  if h : ray_depth ≥ max_ray_depth then some ⟨false, black, n, 1, 0, 0⟩
  else if scene.isNull then none
  else
    let res := scene.Hit C.toMathFns ray kEpsilon kInfinity HitRecord.default
    if !res.1 then some ⟨false, black, n, 1, 1, 0⟩
    else
      let hit_record := res.2
      let hit_surface := hit_record.surface_
      if hit_surface.isNull then some ⟨false, black, n, 1, 1, 0⟩
      else
        match GetMaterial hit_surface with
        | Material.null => some ⟨true, black, n, 1, 1, 0⟩
        | Material.base => some ⟨true, black, n, 1, 1, 0⟩
        | Material.dielectric dielectric =>
          match dielectric.Scatter C hit_record ray none none 0 with
          | none => none
          | some sc =>
            let attenuate := sc.attenuation
            let after_refract : Option (RayColorResult K) :=
              match sc.refract_ray with
              | none => some ⟨true, black, n, 1, 1, 0⟩
              | some refract_ray =>
                match RayTracer.RayColor C GetMaterial RAND_MAX rand scene lights max_ray_depth
                    refract_ray (ray_depth + 1) n with
                | none => none
                | some r =>
                  some ⟨true,
                    if r.ret then
                      black.add (attenuate.cwiseProduct
                        (r.ray_color.muls (1 - sc.schlick_reflectance)))
                    else black,
                    r.rand_calls, 1 + r.invocations, 1 + r.hit_queries, r.light_calls⟩
            match after_refract with
            | none => none
            | some s1 =>
              match sc.reflect_ray with
              | none => some s1
              | some reflect_ray =>
                match RayTracer.RayColor C GetMaterial RAND_MAX rand scene lights max_ray_depth
                    reflect_ray (ray_depth + 1) s1.rand_calls with
                | none => none
                | some r =>
                  some ⟨true,
                    if r.ret then
                      s1.ray_color.add (attenuate.cwiseProduct
                        (r.ray_color.muls sc.schlick_reflectance))
                    else s1.ray_color,
                    r.rand_calls, s1.invocations + r.invocations,
                    s1.hit_queries + r.hit_queries, s1.light_calls + r.light_calls⟩
        | Material.phong phong_material =>
          let view_vec := (ray.GetDirection.normalized C.toMathFns).neg
          match RayTracer.lightsLoop C GetMaterial RAND_MAX rand hit_record view_vec scene
              lights n black with
          | none => none
          | some (lit_color, n1) =>
            let v := ray.GetDirection
            let normal := hit_record.normal_
            let reflect := v.sub (Vec3r.smul (2 * v.dot normal) normal)
            let mirror := phong_material.mirror_
            if !mirror.isZero && hit_record.front_face_ then
              match RayTracer.RayColor C GetMaterial RAND_MAX rand scene lights max_ray_depth
                  ⟨hit_record.point_, reflect⟩ (ray_depth + 1) n1 with
              | none => none
              | some r =>
                some ⟨true,
                  if r.ret then lit_color.add (mirror.cwiseProduct r.ray_color) else lit_color,
                  r.rand_calls, 1 + r.invocations, 1 + r.hit_queries,
                  lights.length + r.light_calls⟩
            else some ⟨true, lit_color, n1, 1, 1, lights.length⟩
termination_by max_ray_depth - ray_depth
decreasing_by
  all_goals simp_wf
  all_goals omega

/-! ## light.h, light.cpp: the sample grid of an area light -/

/-- The conversion `static_cast<int>(x)` of a `Real`: truncation toward zero.  The
result is `none` when the truncated value is not an `int` (the behaviour of the code
is then undefined). -/
def realToInt [FloorRing K] (x : K) : Option Int :=
  let t : Int := if 0 ≤ x then ⌊x⌋ else ⌈x⌉
  if -2 ^ 31 ≤ t ∧ t < 2 ^ 31 then some t else none

/-- The constructor `AreaLight(center, direction, u, rgb, len)`: `v_` is
`ComputeV() = u_.cross(direction_)`, the other members keep their initialisers. -/
def AreaLight.Create (center direction u rgb : Vec3r K) (len : K) : AreaLight K :=
  { center_ := center, direction_ := direction, u_ := u, v_ := u.cross direction, rgb_ := rgb,
    strat_increments_ := [], len_ := len, samples_ := 1, strat_samples_ := 1 }

/-- The local variable `upper_left` of `AreaLight::SetStratIncrements`. -/
def AreaLight.upperLeft (light : AreaLight K) : Vec3r K :=
  (light.center_.sub (Vec3r.smul (1 / 2 * light.len_) light.u_)).sub
    (Vec3r.smul (1 / 2 * light.len_) light.v_)

/-- The local variable `current_corner` of `AreaLight::SetStratIncrements` for the loop
indices `i` and `j`. -/
def AreaLight.currentCorner (light : AreaLight K) (i j : Nat) : Vec3r K :=
  (light.upperLeft.add
    ((Vec3r.smul (light.len_ * (j : K)) light.u_).sdiv (light.strat_samples_ : K))).add
    ((Vec3r.smul (light.len_ * (i : K)) light.v_).sdiv (light.strat_samples_ : K))

/-- Function `AreaLight::SetStratIncrements`: the two nested loops push one corner
for each `i`, `j` below `strat_samples_` onto `strat_increments_`. -/
def AreaLight.SetStratIncrements (light : AreaLight K) : AreaLight K :=
  let corners := (List.range light.strat_samples_.toNat).flatMap
    (fun i => (List.range light.strat_samples_.toNat).map (fun j => light.currentCorner i j))
  { light with strat_increments_ := light.strat_increments_ ++ corners }

/-- Function `AreaLight::SetStratSamples(samples)`. -/
def AreaLight.SetStratSamples [FloorRing K] (C : CMath K) (light : AreaLight K) (samples : Int) :
    Option (AreaLight K) :=
  match realToInt (C.sqrt (samples : K)) with
  | none => none
  | some s => some (AreaLight.SetStratIncrements { light with strat_samples_ := s })

/-- Function `AreaLight::SetSamples(samples)`. -/
def AreaLight.SetSamples [FloorRing K] (C : CMath K) (light : AreaLight K) (samples : Int) :
    Option (AreaLight K) :=
  AreaLight.SetStratSamples C { light with samples_ := samples } samples

/-- The point `o + a·(len/n)·u + b·(len/n)·v` of the sub-cell with origin `o` of the
quad of an area light, `n` being `strat_samples_`. -/
def AreaLight.subCellPoint (light : AreaLight K) (o : Vec3r K) (a b : K) : Vec3r K :=
  (o.add (Vec3r.smul (a * (light.len_ / (light.strat_samples_ : K))) light.u_)).add
    (Vec3r.smul (b * (light.len_ / (light.strat_samples_ : K))) light.v_)

/-! ## trimesh.cpp: RayFaceHit -/

/-- The part of the OpenMesh triangle mesh behind a `TriMesh` that `RayFaceHit` reads:
for each face index the three vertex handles `vh0`, `vh1`, `vh2` that the halfedge
walk yields, the vertex properties `point` and `normal`, and the vertex property
`texcoord2D` when the mesh has it (`has_vertex_texcoords2D()`). -/
structure TriMesh (K : Type) where
  faces : List (Nat × Nat × Nat)
  point : Nat → Vec3r K
  normal : Nat → Vec3r K
  texcoord2D : Option (Nat → Vec2r K)

/-- Function `TriMesh::RayFaceHit(fh, ray, tmin, tmax, hit_record)`: the returned flag
and the hit record after the call.  `RayTriangleHit` stands for
`Triangle::RayTriangleHit`, with `ray_t` and `uv` as its result on success; `self` is
`GetPtr()`.  The result is `none` when `fh` is not a face of the mesh. -/
def TriMesh.RayFaceHit
    (RayTriangleHit : Vec3r K → Vec3r K → Vec3r K → Ray K → K → K → Option (K × Vec2r K))
    (mesh : TriMesh K) (self : Surface K) (fh : Nat) (ray : Ray K) (tmin tmax : K)
    (hit_record : HitRecord K) : Option (Bool × HitRecord K) :=
  match mesh.faces.get? fh with
  | none => none
  | some (vh0, vh1, vh2) =>
    let p0 := mesh.point vh0
    let p1 := mesh.point vh1
    let p2 := mesh.point vh2
    match RayTriangleHit p0 p1 p2 ray tmin tmax with
    | none => some (false, hit_record)
    | some (ray_t, uvfh) =>
      let alpha := 1 - uvfh.x - uvfh.y
      let lerp_n := ((Vec3r.smul alpha (mesh.normal vh0)).add
        (Vec3r.smul uvfh.x (mesh.normal vh1))).add (Vec3r.smul uvfh.y (mesh.normal vh2))
      let hit_point := ray.At ray_t
      let rec1 := hit_record.SetRayT ray_t
      let rec2 := rec1.SetPoint hit_point
      let rec3 := rec2.SetNormal ray lerp_n
      let rec4 := rec3.SetSurface self
      match mesh.texcoord2D with
      | none =>
        let fguv : FaceGeoUV K := ⟨(fh : Int), uvfh, ⟨-1, -1⟩⟩
        some (true, rec4)
      | some texcoord2D =>
        let one : Vec2r K := ⟨alpha * (texcoord2D vh0).x, alpha * (texcoord2D vh0).y⟩
        let two : Vec2r K := ⟨uvfh.x * (texcoord2D vh1).x, uvfh.x * (texcoord2D vh1).y⟩
        let three : Vec2r K := ⟨uvfh.y * (texcoord2D vh2).x, uvfh.y * (texcoord2D vh2).y⟩
        let out : Vec2r K := ⟨one.x + two.x + three.x, one.y + two.y + three.y⟩
        let fguv : FaceGeoUV K := ⟨(fh : Int), uvfh, out⟩
        some (true, rec4.SetFaceGeoUV fguv)

/-- The midpoint `min + (max − min)/2` of a box along the axis `i`. -/
def AABB.midpoint (b : AABB K) (i : Fin 3) : K :=
  b.min_.get i + (b.max_.get i - b.min_.get i) / 2
/-! ## camera.h; raytracer.cpp: Render -/

/-- The members of class `Camera` that `Render` reads through `GetAspectRatio()` and
`GetRay()`. -/
structure Camera (K : Type) where
  aspect_ : K
  cop_ : Vec3r K
  lower_left_corner_ : Vec3r K
  horizontal_ : Vec3r K
  vertical_ : Vec3r K

/-- Function `Camera::GetAspectRatio`. -/
def Camera.GetAspectRatio (camera : Camera K) : K := camera.aspect_

/-- Function `Camera::GetRay(s, t)`. -/
def Camera.GetRay (camera : Camera K) (s t : K) : Ray K :=
  ⟨camera.cop_,
    ((camera.lower_left_corner_.add (Vec3r.smul s camera.horizontal_)).add
      (Vec3r.smul t camera.vertical_)).sub camera.cop_⟩

/-- A `cv::Mat` of type `CV_64FC3`: the numbers of rows and columns and the pixel at
each row and column. -/
structure Image (K : Type) where
  rows : Nat
  cols : Nat
  pixel : Nat → Nat → Vec3r K

/-- The default-constructed `cv::Mat`. -/
def Image.empty : Image K := ⟨0, 0, fun _ _ => ⟨0, 0, 0⟩⟩

/-- The matrix `cv::Mat(cv::Size(width, height), CV_64FC3, cv::Scalar(0, 0, 0, 0))`. -/
def Image.zeros (width height : Nat) : Image K := ⟨height, width, fun _ _ => ⟨0, 0, 0⟩⟩

/-- The assignment `image.at<cv::Vec3d>(row, col) = color`. -/
def Image.set (image : Image K) (row col : Nat) (color : Vec3r K) : Image K :=
  { image with pixel := fun r c => if r = row ∧ c = col then color else image.pixel r c }

/-- The data members of class `RayTracer` (the progress bar apart). -/
structure RayTracer (K : Type) where
  image_height_ : Nat
  rendered_image_ : Image K
  max_ray_depth_ : Nat
  samples_per_pixel_ : Int

/-- The conversion `static_cast<int>(u)` of a `uint`. -/
def uintToInt (u : Nat) : Int :=
  if u % 2 ^ 32 < 2 ^ 31 then ((u % 2 ^ 32 : Nat) : Int) else ((u % 2 ^ 32 : Nat) : Int) - 2 ^ 32

/-- Function `RayTracer::RandomReal`: the quotient `std::rand() / RAND_MAX` of two
`int` values, converted to `Real`; `n` is the number of calls of `std::rand()` made
before. -/
def RayTracer.RandomReal (RAND_MAX : Nat) (rand : Nat → Nat) (n : Nat) : K :=
  ((rand n / RAND_MAX : Nat) : K)

/-- The loop over `sample` of `Render` for the pixel `(x, y)`, with the number of
iterations still to run: the accumulated `ray_color` and the number of calls of
`std::rand()` after it. -/
def RayTracer.sampleLoop (C : CMath K) (GetMaterial : Surface K → Material K) (RAND_MAX : Nat)
    (rand : Nat → Nat) (scene : Surface K) (lights : List (Light K)) (max_ray_depth : Nat)
    (camera : Camera K) (x y : Nat) (xscale yscale : K) :
    Nat → Nat → Vec3r K → Option (Vec3r K × Nat)
  | 0, n, ray_color => some (ray_color, n)
  | m + 1, n, ray_color =>
    let xoffset : K := RayTracer.RandomReal RAND_MAX rand n
    let yoffset : K := RayTracer.RandomReal RAND_MAX rand (n + 1)
    let ray := camera.GetRay (((x : K) + xoffset) * xscale) (((y : K) + yoffset) * yscale)
    match RayTracer.RayColor C GetMaterial RAND_MAX rand scene lights max_ray_depth ray 0
        (n + 2) with
    | none => none
    | some r =>
      RayTracer.sampleLoop C GetMaterial RAND_MAX rand scene lights max_ray_depth camera x y
        xscale yscale m r.rand_calls (ray_color.add r.ray_color)

/-- The body of the loops of `Render` for the pixel `(x, y)`: the colour stored in the
image and the number of calls of `std::rand()` after it.  In the branch for several
samples `ray_color` is declared without a value; `uninit` is the value it holds. -/
def RayTracer.renderPixel (C : CMath K) (GetMaterial : Surface K → Material K) (RAND_MAX : Nat)
    (rand : Nat → Nat) (uninit : Vec3r K) (samples_per_pixel : Int) (scene : Surface K)
    (lights : List (Light K)) (max_ray_depth : Nat) (camera : Camera K) (xscale yscale : K)
    (x y : Nat) (n : Nat) : Option (Vec3r K × Nat) :=
  if samples_per_pixel = 1 then
    let ray := camera.GetRay (((x : K) + 1 / 2) * xscale) (((y : K) + 1 / 2) * yscale)
    match RayTracer.RayColor C GetMaterial RAND_MAX rand scene lights max_ray_depth ray 0 n with
    | none => none
    | some r => some (r.ray_color, r.rand_calls)
  else
    match RayTracer.sampleLoop C GetMaterial RAND_MAX rand scene lights max_ray_depth camera
        x y xscale yscale samples_per_pixel.toNat n uninit with
    | none => none
    | some (ray_color, n1) => some (ray_color.sdiv (samples_per_pixel : K), n1)

/-- The loop over `x` of `Render` for the row `y`, over the columns still to visit. -/
def RayTracer.renderRow (C : CMath K) (GetMaterial : Surface K → Material K) (RAND_MAX : Nat)
    (rand : Nat → Nat) (uninit : Vec3r K) (samples_per_pixel : Int) (scene : Surface K)
    (lights : List (Light K)) (max_ray_depth : Nat) (camera : Camera K) (xscale yscale : K)
    (height : Nat) (y : Nat) : List Nat → Image K → Nat → Option (Image K × Nat)
  | [], image, n => some (image, n)
  | x :: xs, image, n =>
    match RayTracer.renderPixel C GetMaterial RAND_MAX rand uninit samples_per_pixel scene
        lights max_ray_depth camera xscale yscale x y n with
    | none => none
    | some (color, n1) =>
      RayTracer.renderRow C GetMaterial RAND_MAX rand uninit samples_per_pixel scene lights
        max_ray_depth camera xscale yscale height y xs (image.set (height - y - 1) x color) n1

/-- The loop over `y` of `Render`, over the rows still to visit. -/
def RayTracer.renderRows (C : CMath K) (GetMaterial : Surface K → Material K) (RAND_MAX : Nat)
    (rand : Nat → Nat) (uninit : Vec3r K) (samples_per_pixel : Int) (scene : Surface K)
    (lights : List (Light K)) (max_ray_depth : Nat) (camera : Camera K) (xscale yscale : K)
    (height width : Nat) : List Nat → Image K → Nat → Option (Image K × Nat)
  | [], image, n => some (image, n)
  | y :: ys, image, n =>
    match RayTracer.renderRow C GetMaterial RAND_MAX rand uninit samples_per_pixel scene lights
        max_ray_depth camera xscale yscale height y (List.range width) image n with
    | none => none
    | some (image1, n1) =>
      RayTracer.renderRows C GetMaterial RAND_MAX rand uninit samples_per_pixel scene lights
        max_ray_depth camera xscale yscale height width ys image1 n1

/-- Function `RayTracer::Render(scene, lights, camera)`: the returned flag, the ray
tracer after the call and the number of calls of `std::rand()` made so far (`n`
before).  A null camera is `none`.  The result is `none` when the behaviour of the
code is undefined or it fails: the width is not an `int`, the `int` product
`width * height` overflows, or a call of `RayColor` fails.  The progress bar and the
timer are left out. -/
def RayTracer.Render [FloorRing K] (C : CMath K) (GetMaterial : Surface K → Material K)
    (RAND_MAX : Nat) (rand : Nat → Nat) (uninit : Vec3r K) (rt : RayTracer K)
    (scene : Surface K) (lights : List (Light K)) (camera : Option (Camera K)) (n : Nat) :
    Option (Bool × RayTracer K × Nat) :=
  match camera with
  | none => some (false, rt, n)
  | some cam =>
    if scene.isNull then some (false, rt, n)
    else
      let aspect := cam.GetAspectRatio
      let height := uintToInt rt.image_height_
      match realToInt (aspect * (height : K) + 1 / 2) with
      | none => none
      | some width =>
        if height ≤ 0 ∨ width ≤ 0 then some (false, rt, n)
        else if width * height ≥ 2 ^ 31 then none
        else
          let image : Image K := Image.zeros width.toNat height.toNat
          let xscale : K := 1 / (width : K)
          let yscale : K := 1 / (height : K)
          match RayTracer.renderRows C GetMaterial RAND_MAX rand uninit rt.samples_per_pixel_
              scene lights rt.max_ray_depth_ cam xscale yscale height.toNat width.toNat
              (List.range height.toNat) image n with
          | none => none
          | some (image1, n1) => some (true, { rt with rendered_image_ := image1 }, n1)

/-! ## The insertion sort of `std::sort` -/

/-- One step of the insertion sort that implementations of `std::sort` run on a short
range: the element `x` that follows the sorted prefix `acc` goes to the front when
`comp x first` holds; otherwise it moves left past the elements `y` with `comp x y`. -/
def StdSort.linearInsert {α : Type} (comp : α → α → Bool) (acc : List α) (x : α) : List α :=
  match acc with
  | [] => [x]
  | first :: rest =>
    if comp x first then x :: first :: rest
    else ((first :: rest).reverse.dropWhile (comp x)).reverse ++
      x :: ((first :: rest).reverse.takeWhile (comp x)).reverse

/-- The insertion sort that implementations of `std::sort` run on a short range. -/
def StdSort.linearInsertionSort {α : Type} (comp : α → α → Bool) (l : List α) : List α :=
  l.foldl (StdSort.linearInsert comp) []

theorem StdSort.linearInsert_perm {α : Type} (comp : α → α → Bool) (acc : List α) (x : α) :
    (StdSort.linearInsert comp acc x).Perm (x :: acc) := by
  cases acc with
  | nil => exact List.Perm.refl _
  | cons first rest =>
    simp only [StdSort.linearInsert]
    split_ifs
    · exact List.Perm.refl _
    · refine List.perm_middle.trans (List.Perm.cons x ?_)
      rw [← List.reverse_append]
      refine (List.reverse_perm _).trans ?_
      rw [List.takeWhile_append_dropWhile]
      exact List.reverse_perm _

theorem StdSort.foldl_linearInsert_perm {α : Type} (comp : α → α → Bool) (l : List α) :
    ∀ acc : List α, (l.foldl (StdSort.linearInsert comp) acc).Perm (acc ++ l) := by
  induction l with
  | nil =>
    intro acc
    simp
  | cons x l ih =>
    intro acc
    simp only [List.foldl_cons]
    refine (ih _).trans ?_
    refine (List.Perm.append_right l (StdSort.linearInsert_perm comp acc x)).trans ?_
    simp only [List.cons_append]
    exact List.perm_middle.symm

theorem StdSort.linearInsertionSort_perm {α : Type} (comp : α → α → Bool) (l : List α) :
    (StdSort.linearInsertionSort comp l).Perm l := by
  have h := StdSort.foldl_linearInsert_perm comp l []
  simpa [StdSort.linearInsertionSort] using h

/-- A second implementation of `std::sort`. -/
def StdSort.linear : StdSort := ⟨StdSort.linearInsertionSort, StdSort.linearInsertionSort_perm⟩

/-! ## Invariants of the tree built by BuildBVH -/

/-- Whether the pointer points to a `BVHNode`. -/
def Surface.isBVHNode : Surface K → Bool
  | Surface.bvhNode _ _ _ _ => true
  | _ => false

/-- The member `bbox_` of the object (the box that `BVHNode::Hit` tests against). -/
def Surface.cachedBox : Surface K → AABB K
  | Surface.null => AABB.default
  | Surface.base bbox_ _ => bbox_
  | Surface.sphere _ _ bbox_ _ => bbox_
  | Surface.bvhNode _ _ bbox_ _ => bbox_

/-- The bounding boxes of the non-null children among `left_` and `right_`. -/
def Surface.childBoxes (left_ right_ : Surface K) : List (AABB K) :=
  ([left_, right_].filter (fun child => !child.isNull)).map Surface.box

/-- The box invariant at every `BVHNode` of a tree: the node is clean and its cached
`bbox_` is the union of the bounding boxes of its non-null children; it is the box
that the recursive build assigns (`surfaces[0]->GetBoundingBox()` for one child,
`BBoxCombine` of the two boxes otherwise) and the box that a recompute by
`GetBoundingBox()` gives. -/
def Surface.NodeBoxOk : Surface K → Prop
  | Surface.bvhNode left_ right_ bbox_ bound_dirty_ =>
    bound_dirty_ = false ∧
    bbox_ = AABB.unionList (Surface.childBoxes left_ right_) ∧
    bbox_ = (if right_.isNull then left_.box else BVHNode.BBoxCombine left_.box right_.box) ∧
    bbox_ = ((Surface.bvhNode left_ right_ bbox_ true).GetBoundingBox false).1 ∧
    left_.NodeBoxOk ∧ right_.NodeBoxOk
  | _ => True

/-! ## Basic facts -/

theorem kInfinity_pos : (0 : K) < kInfinity := by
  unfold kInfinity
  have h : (2 : K) ^ 971 < 2 ^ 1024 := pow_lt_pow_right₀ (by norm_num) (by norm_num)
  linarith

@[simp]
theorem Vec3r.get_zero (v : Vec3r K) : v.get 0 = v.x := rfl
@[simp]
theorem Vec3r.get_one (v : Vec3r K) : v.get 1 = v.y := rfl
@[simp]
theorem Vec3r.get_two (v : Vec3r K) : v.get 2 = v.z := rfl

theorem Vec3r.forall_fin3 {p : Fin 3 → Prop} : (∀ i, p i) ↔ p 0 ∧ p 1 ∧ p 2 := by
  constructor
  · intro h
    exact ⟨h 0, h 1, h 2⟩
  · rintro ⟨h0, h1, h2⟩ i
    fin_cases i
    · exact h0
    · exact h1
    · exact h2

theorem AABB.isValid_iff (b : AABB K) :
    b.IsValid = true ↔
      (b.min_.x ≠ kInfinity ∧ b.min_.y ≠ kInfinity ∧ b.min_.z ≠ kInfinity) ∧
      (b.max_.x ≠ -kInfinity ∧ b.max_.y ≠ -kInfinity ∧ b.max_.z ≠ -kInfinity) := by
  simp [AABB.IsValid, and_assoc]

theorem AABB.isPointInside_iff (b : AABB K) (p : Vec3r K) :
    b.IsPointInside p = true ↔
      (b.min_.x ≤ p.x ∧ p.x ≤ b.max_.x) ∧ (b.min_.y ≤ p.y ∧ p.y ≤ b.max_.y) ∧
      (b.min_.z ≤ p.z ∧ p.z ≤ b.max_.z) := by
  simp [AABB.IsPointInside]
  tauto

theorem AABB.isPointInside_iff_get (b : AABB K) (p : Vec3r K) :
    b.IsPointInside p = true ↔ ∀ i : Fin 3, b.min_.get i ≤ p.get i ∧ p.get i ≤ b.max_.get i := by
  rw [AABB.isPointInside_iff, Vec3r.forall_fin3]
  simp

theorem AABB.default_not_valid : (AABB.default : AABB K).IsValid = false := by
  simp [AABB.IsValid, AABB.default]

theorem kInfinity_gt : (10 : K) ^ 6 < kInfinity := by
  unfold kInfinity
  have h1 : (2 : K) ^ 971 * 2 ≤ 2 ^ 1024 := by
    rw [← pow_succ]
    exact pow_le_pow_right₀ (by norm_num) (by norm_num)
  have h2 : (10 : K) ^ 6 < 2 ^ 971 :=
    lt_of_lt_of_le (by norm_num : (10 : K) ^ 6 < 2 ^ 20)
      (pow_le_pow_right₀ (by norm_num) (by norm_num))
  linarith

/-- A box whose coordinates are small is valid. -/
theorem AABB.isValid_small (b : AABB K)
    (hmin : b.min_.x < 10 ^ 6 ∧ b.min_.y < 10 ^ 6 ∧ b.min_.z < 10 ^ 6)
    (hmax : -(10 ^ 6) < b.max_.x ∧ -(10 ^ 6) < b.max_.y ∧ -(10 ^ 6) < b.max_.z) :
    b.IsValid = true := by
  have hk : (10 : K) ^ 6 < kInfinity := kInfinity_gt
  rw [AABB.isValid_iff]
  obtain ⟨a1, a2, a3⟩ := hmin
  obtain ⟨c1, c2, c3⟩ := hmax
  refine ⟨⟨?_, ?_, ?_⟩, ?_, ?_, ?_⟩
  · intro h; rw [h] at a1; linarith
  · intro h; rw [h] at a2; linarith
  · intro h; rw [h] at a3; linarith
  · intro h; rw [h] at c1; linarith
  · intro h; rw [h] at c2; linarith
  · intro h; rw [h] at c3; linarith

theorem AABB.hitLoop_reverse (b : AABB K) (o d : Vec3r K) (axes : List (Fin 3)) :
    ∀ (tmin tmax : K), (∀ i ∈ axes, d.get i ≠ 0) →
      AABB.HitLoop b o d axes tmin tmax = AABB.HitLoop b o d.neg axes (-tmax) (-tmin) := by
  induction axes with
  | nil => intro _ _ _; rfl
  | cons i rest ih =>
    intro tmin tmax hd
    have hdi : d.get i ≠ 0 := hd i (List.mem_cons_self _ _)
    have hdr : ∀ j ∈ rest, d.get j ≠ 0 := fun j hj => hd j (List.mem_cons_of_mem _ hj)
    have hneg : d.neg.get i = -(d.get i) := by fin_cases i <;> rfl
    simp only [AABB.HitLoop, hneg]
    have hinv : 1 / -(d.get i) = -(1 / d.get i) := by rw [one_div, one_div, inv_neg]
    rw [hinv]
    have hne : 1 / d.get i ≠ 0 := one_div_ne_zero hdi
    set inv := 1 / d.get i with hinvdef
    set a := (b.min_.get i - o.get i) * inv with ha
    set c := (b.max_.get i - o.get i) * inv with hc
    have ha2 : (b.min_.get i - o.get i) * -inv = -a := by rw [ha]; ring
    have hc2 : (b.max_.get i - o.get i) * -inv = -c := by rw [hc]; ring
    rw [ha2, hc2]
    rcases lt_or_gt_of_ne hne with hlt | hgt
    · have h1 : ¬ (-inv < 0) := by linarith
      simp only [hlt, h1, if_true, if_false]
      have e1 : (if -a > -tmax then -a else -tmax) = -(if a < tmax then a else tmax) := by
        split_ifs <;> first | rfl | linarith
      have e2 : (if -c < -tmin then -c else -tmin) = -(if c > tmin then c else tmin) := by
        split_ifs <;> first | rfl | linarith
      rw [e1, e2, ih _ _ hdr]
      simp only [neg_lt_neg_iff]
    · have h1 : ¬ (inv < 0) := by linarith
      have h2 : -inv < 0 := by linarith
      simp only [h1, h2, if_true, if_false]
      have e1 : (if -c > -tmax then -c else -tmax) = -(if c < tmax then c else tmax) := by
        split_ifs <;> first | rfl | linarith
      have e2 : (if -a < -tmin then -a else -tmin) = -(if a > tmin then a else tmin) := by
        split_ifs <;> first | rfl | linarith
      rw [e1, e2, ih _ _ hdr]
      simp only [neg_lt_neg_iff]

theorem AABB.expandByPoint_min_le (b : AABB K) (p : Vec3r K) (i : Fin 3) :
    (b.ExpandByPoint p).min_.get i = min (b.min_.get i) (p.get i) := by
  fin_cases i <;> rfl

theorem AABB.expandByPoint_max_ge (b : AABB K) (p : Vec3r K) (i : Fin 3) :
    (b.ExpandByPoint p).max_.get i = max (b.max_.get i) (p.get i) := by
  fin_cases i <;> rfl

theorem AABB.expandBy_valid_get (b other : AABB K) (h : other.IsValid = true) (i : Fin 3) :
    (b.ExpandBy other).min_.get i = min (min (b.min_.get i) (other.min_.get i)) (other.max_.get i) ∧
    (b.ExpandBy other).max_.get i = max (max (b.max_.get i) (other.min_.get i)) (other.max_.get i) := by
  simp only [AABB.ExpandBy, h, Bool.not_true, Bool.false_eq_true, if_false,
    AABB.expandByPoint_min_le, AABB.expandByPoint_max_ge, and_self]

theorem AABB.expandBy_invalid (b other : AABB K) (h : other.IsValid = false) :
    b.ExpandBy other = b := by
  simp [AABB.ExpandBy, h]

/-! ## The claims on AABB -/

/-- C7: `AABB::Hit` returns false on every invalid box, for every ray and every
`tmin`, `tmax`: in particular on the default-constructed box, on a box after
`Reset`, and on a box of which one coordinate holds the sentinel. -/
theorem aabb_hit_invalid_box (b : AABB K) (ray : Ray K) (tmin tmax : K) :
    (b.IsValid = false → b.Hit ray tmin tmax = false) ∧
    (AABB.default : AABB K).Hit ray tmin tmax = false ∧
    (b.Reset).Hit ray tmin tmax = false ∧
    (∀ i : Fin 3, b.min_.get i = kInfinity → b.Hit ray tmin tmax = false) ∧
    (∀ i : Fin 3, b.max_.get i = -kInfinity → b.Hit ray tmin tmax = false) := by
  have key : ∀ c : AABB K, c.IsValid = false → c.Hit ray tmin tmax = false := by
    intro c hc
    simp [AABB.Hit, hc]
  refine ⟨key b, key _ AABB.default_not_valid, key _ AABB.default_not_valid, ?_, ?_⟩
  · intro i hi
    apply key
    rw [← Bool.not_eq_true, AABB.isValid_iff]
    fin_cases i <;> simp at hi <;> simp [hi]
  · intro i hi
    apply key
    rw [← Bool.not_eq_true, AABB.isValid_iff]
    fin_cases i <;> simp at hi <;> simp [hi]

theorem aabb_hit_invalid_box_witness :
    (⟨⟨0, 0, 0⟩, ⟨1, -kInfinity, 1⟩⟩ : AABB ℚ).Hit ⟨⟨-1, -1, -1⟩, ⟨1, 1, 1⟩⟩ 0 5 = false :=
  (aabb_hit_invalid_box (⟨⟨0, 0, 0⟩, ⟨1, -kInfinity, 1⟩⟩ : AABB ℚ) ⟨⟨-1, -1, -1⟩, ⟨1, 1, 1⟩⟩
    0 5).2.2.2.2 1 rfl

/-- C8: for a ray with origin `O` and direction `D` whose components are all
non-zero, `AABB::Hit(Ray(O, D), tmin, tmax)` equals
`AABB::Hit(Ray(O, −D), −tmax, −tmin)`, on every box (valid or not). -/
theorem aabb_hit_reverse_direction (b : AABB K) (O D : Vec3r K) (tmin tmax : K)
    (hd : ∀ i : Fin 3, D.get i ≠ 0) :
    b.Hit ⟨O, D⟩ tmin tmax = b.Hit ⟨O, D.neg⟩ (-tmax) (-tmin) := by
  simp only [AABB.Hit, Ray.GetOrigin, Ray.GetDirection]
  rw [AABB.hitLoop_reverse b O D _ tmin tmax (fun i _ => hd i)]

theorem aabb_hit_reverse_direction_witness :
    (⟨⟨0, 0, 0⟩, ⟨1, 1, 1⟩⟩ : AABB ℚ).Hit ⟨⟨-1, -1, -1⟩, ⟨1, 2, 3⟩⟩ 0 5 =
      (⟨⟨0, 0, 0⟩, ⟨1, 1, 1⟩⟩ : AABB ℚ).Hit ⟨⟨-1, -1, -1⟩, (⟨1, 2, 3⟩ : Vec3r ℚ).neg⟩ (-5) (-0) :=
  aabb_hit_reverse_direction _ _ _ _ _ (by intro i; fin_cases i <;> simp)

/-- C9: for boxes `A` and `B` with `B` valid and every point `p`: if `p` is inside
`A` or inside `B` (`IsPointInside`), then `p` is inside `A` after `A.ExpandBy(B)`.
(Validity of `A` is not needed.) -/
theorem aabb_expandBy_contains_both (A B : AABB K) (p : Vec3r K) (hB : B.IsValid = true)
    (h : A.IsPointInside p = true ∨ B.IsPointInside p = true) :
    (A.ExpandBy B).IsPointInside p = true := by
  rw [AABB.isPointInside_iff_get]
  intro i
  rw [(AABB.expandBy_valid_get A B hB i).1, (AABB.expandBy_valid_get A B hB i).2]
  rcases h with h | h
  · have h1 := (AABB.isPointInside_iff_get A p).mp h i
    exact ⟨le_trans (le_trans (min_le_left _ _) (min_le_left _ _)) h1.1,
      le_trans h1.2 (le_trans (le_max_left _ _) (le_max_left _ _))⟩
  · have h1 := (AABB.isPointInside_iff_get B p).mp h i
    exact ⟨le_trans (le_trans (min_le_left _ _) (min_le_right _ _)) h1.1,
      le_trans h1.2 (le_max_right _ _)⟩

theorem aabb_expandBy_contains_both_witness :
    ((⟨⟨0, 0, 0⟩, ⟨1, 1, 1⟩⟩ : AABB ℚ).ExpandBy ⟨⟨2, 2, 2⟩, ⟨3, 3, 3⟩⟩).IsPointInside
      ⟨3, 2, 5 / 2⟩ = true :=
  aabb_expandBy_contains_both _ _ _ (AABB.isValid_small _ (by norm_num) (by norm_num))
    (Or.inr (by rw [AABB.isPointInside_iff]; norm_num))

/-- C10: `A.IntersectWith(B)` is invalid if `A` or `B` is invalid; for valid `A` and
`B` it is invalid iff the boxes are disjoint on some axis (`A.max < B.min` or
`A.min > B.max` on that axis), and otherwise it is the box
`[max(A.min, B.min), min(A.max, B.max)]`. -/
theorem aabb_intersectWith_spec (A B : AABB K) :
    ((A.IsValid = false ∨ B.IsValid = false) → (A.IntersectWith B).IsValid = false) ∧
    (A.IsValid = true → B.IsValid = true →
      (((A.IntersectWith B).IsValid = false ↔
        ∃ i : Fin 3, A.max_.get i < B.min_.get i ∨ A.min_.get i > B.max_.get i) ∧
      ((¬ ∃ i : Fin 3, A.max_.get i < B.min_.get i ∨ A.min_.get i > B.max_.get i) →
        A.IntersectWith B =
          ⟨⟨max (A.min_.get 0) (B.min_.get 0), max (A.min_.get 1) (B.min_.get 1),
            max (A.min_.get 2) (B.min_.get 2)⟩,
           ⟨min (A.max_.get 0) (B.max_.get 0), min (A.max_.get 1) (B.max_.get 1),
            min (A.max_.get 2) (B.max_.get 2)⟩⟩))) := by
  constructor
  · rintro (h | h) <;> simp [AABB.IntersectWith, h, AABB.default_not_valid]
  · intro hA hB
    have hdis : (∃ i : Fin 3, A.max_.get i < B.min_.get i ∨ A.min_.get i > B.max_.get i) ↔
        ((A.max_.x < B.min_.x ∨ A.min_.x > B.max_.x) ∨ (A.max_.y < B.min_.y ∨ A.min_.y > B.max_.y)
          ∨ (A.max_.z < B.min_.z ∨ A.min_.z > B.max_.z)) := by
      constructor
      · rintro ⟨i, hi⟩
        fin_cases i
        · exact Or.inl hi
        · exact Or.inr (Or.inl hi)
        · exact Or.inr (Or.inr hi)
      · rintro (h | h | h)
        · exact ⟨0, h⟩
        · exact ⟨1, h⟩
        · exact ⟨2, h⟩
    rw [hdis]
    by_cases hd : ((A.max_.x < B.min_.x ∨ A.min_.x > B.max_.x) ∨
        (A.max_.y < B.min_.y ∨ A.min_.y > B.max_.y) ∨ (A.max_.z < B.min_.z ∨ A.min_.z > B.max_.z))
    · have hres : A.IntersectWith B = AABB.default := by
        simp only [AABB.IntersectWith, hA, hB, Bool.not_true, Bool.or_self, Bool.false_eq_true,
          if_false]
        rw [if_pos]
        simp only [Vec3r.get_zero, Vec3r.get_one, Vec3r.get_two, Bool.or_eq_true,
          decide_eq_true_eq]
        tauto
      rw [hres]
      exact ⟨⟨fun _ => hd, fun _ => AABB.default_not_valid⟩, fun h => absurd hd h⟩
    · have hres : A.IntersectWith B =
          ⟨⟨max (A.min_.get 0) (B.min_.get 0), max (A.min_.get 1) (B.min_.get 1),
            max (A.min_.get 2) (B.min_.get 2)⟩,
           ⟨min (A.max_.get 0) (B.max_.get 0), min (A.max_.get 1) (B.max_.get 1),
            min (A.max_.get 2) (B.max_.get 2)⟩⟩ := by
        simp only [AABB.IntersectWith, hA, hB, Bool.not_true, Bool.or_self, Bool.false_eq_true,
          if_false]
        rw [if_neg]
        simp only [Vec3r.get_zero, Vec3r.get_one, Vec3r.get_two, Bool.or_eq_true,
          decide_eq_true_eq]
        tauto
      refine ⟨?_, fun _ => hres⟩
      constructor
      · intro hinv
        exfalso
        rw [hres, ← Bool.not_eq_true, AABB.isValid_iff] at hinv
        apply hinv
        rw [AABB.isValid_iff] at hA hB
        obtain ⟨⟨a1, a2, a3⟩, a4, a5, a6⟩ := hA
        obtain ⟨⟨c1, c2, c3⟩, c4, c5, c6⟩ := hB
        simp only [Vec3r.get_zero, Vec3r.get_one, Vec3r.get_two]
        refine ⟨⟨?_, ?_, ?_⟩, ?_, ?_, ?_⟩
        · rcases max_choice A.min_.x B.min_.x with h | h <;> rw [h] <;> assumption
        · rcases max_choice A.min_.y B.min_.y with h | h <;> rw [h] <;> assumption
        · rcases max_choice A.min_.z B.min_.z with h | h <;> rw [h] <;> assumption
        · rcases min_choice A.max_.x B.max_.x with h | h <;> rw [h] <;> assumption
        · rcases min_choice A.max_.y B.max_.y with h | h <;> rw [h] <;> assumption
        · rcases min_choice A.max_.z B.max_.z with h | h <;> rw [h] <;> assumption
      · intro h
        exact absurd h hd

theorem aabb_intersectWith_spec_witness :
    ((⟨⟨0, 0, 0⟩, ⟨2, 2, 2⟩⟩ : AABB ℚ).IntersectWith ⟨⟨3, 1, 1⟩, ⟨4, 3, 3⟩⟩).IsValid = false ↔
      ∃ i : Fin 3, (⟨⟨0, 0, 0⟩, ⟨2, 2, 2⟩⟩ : AABB ℚ).max_.get i <
          (⟨⟨3, 1, 1⟩, ⟨4, 3, 3⟩⟩ : AABB ℚ).min_.get i ∨
        (⟨⟨0, 0, 0⟩, ⟨2, 2, 2⟩⟩ : AABB ℚ).min_.get i >
          (⟨⟨3, 1, 1⟩, ⟨4, 3, 3⟩⟩ : AABB ℚ).max_.get i :=
  ((aabb_intersectWith_spec (⟨⟨0, 0, 0⟩, ⟨2, 2, 2⟩⟩ : AABB ℚ) ⟨⟨3, 1, 1⟩, ⟨4, 3, 3⟩⟩).2
    (AABB.isValid_small _ (by norm_num) (by norm_num))
    (AABB.isValid_small _ (by norm_num) (by norm_num))).1

/-! ## Sphere::Hit -/

theorem Sphere.hit_eq (M : MathFns K) (self : Surface K) (center_ : Vec3r K) (radius_ : K)
    (ray : Ray K) (tmin tmax : K) (hit_record : HitRecord K) :
    Sphere.Hit M self center_ radius_ ray tmin tmax hit_record =
      if Sphere.discriminant center_ radius_ ray < 0 then (false, hit_record)
      else if Sphere.chosenT M center_ radius_ ray tmin < tmin ∨
          Sphere.chosenT M center_ radius_ ray tmin > tmax then (false, hit_record)
      else (true, Sphere.filledRecord M self center_ ray
        (Sphere.chosenT M center_ radius_ ray tmin) hit_record) := rfl

theorem Sphere.filledRecord_ray_t (M : MathFns K) (self : Surface K) (center_ : Vec3r K)
    (ray : Ray K) (t : K) (hit_record : HitRecord K) :
    (Sphere.filledRecord M self center_ ray t hit_record).ray_t_ = t := by
  simp only [Sphere.filledRecord, HitRecord.SetFaceGeoUV, HitRecord.SetSurface,
    HitRecord.SetNormal, HitRecord.SetPoint, HitRecord.SetRayT]
  split_ifs <;> rfl

/-- The flag returned by `Sphere::Hit`, and the parameter it reports. -/
theorem Sphere.hit_true_iff (M : MathFns K) (self : Surface K) (center_ : Vec3r K) (radius_ : K)
    (ray : Ray K) (tmin tmax : K) (hit_record : HitRecord K) :
    (Sphere.Hit M self center_ radius_ ray tmin tmax hit_record).1 = true ↔
      (0 ≤ Sphere.discriminant center_ radius_ ray ∧
        tmin ≤ Sphere.chosenT M center_ radius_ ray tmin ∧
        Sphere.chosenT M center_ radius_ ray tmin ≤ tmax) := by
  rw [Sphere.hit_eq]
  split_ifs with h1 h2
  · simp only [Bool.false_eq_true, false_iff, not_and, not_le]
    intro h; exact absurd h (not_le.mpr h1)
  · simp only [Bool.false_eq_true, false_iff, not_and, not_le]
    intro _ h3
    rcases h2 with h2 | h2
    · exact absurd h3 (not_le.mpr h2)
    · exact h2
  · simp only [true_iff]
    rw [not_or, not_lt, not_lt] at h2
    exact ⟨not_lt.mp h1, h2.1, h2.2⟩

theorem Sphere.hit_true_record (M : MathFns K) (self : Surface K) (center_ : Vec3r K) (radius_ : K)
    (ray : Ray K) (tmin tmax : K) (hit_record : HitRecord K)
    (h : (Sphere.Hit M self center_ radius_ ray tmin tmax hit_record).1 = true) :
    (Sphere.Hit M self center_ radius_ ray tmin tmax hit_record).2 =
      Sphere.filledRecord M self center_ ray (Sphere.chosenT M center_ radius_ ray tmin)
        hit_record := by
  rw [Sphere.hit_eq] at h ⊢
  split_ifs at h ⊢ with h1 h2
  rfl

theorem Sphere.hit_false_record (M : MathFns K) (self : Surface K) (center_ : Vec3r K) (radius_ : K)
    (ray : Ray K) (tmin tmax : K) (hit_record : HitRecord K)
    (h : (Sphere.Hit M self center_ radius_ ray tmin tmax hit_record).1 = false) :
    (Sphere.Hit M self center_ radius_ ray tmin tmax hit_record).2 = hit_record := by
  rw [Sphere.hit_eq] at h ⊢
  split_ifs at h ⊢ with h1 h2
  · rfl
  · rfl

theorem MathFns.rat_sqrt_sq (q : ℚ) (h : 0 ≤ q) : MathFns.rat.sqrt (q * q) = q := by
  show Rat.sqrt (q * q) = q
  rw [Rat.sqrt_eq, abs_of_nonneg h]

theorem Vec3r.dot_neg_right (a b : Vec3r K) : a.dot b.neg = -(a.dot b) := by
  simp only [Vec3r.dot, Vec3r.neg]
  ring

theorem Vec3r.squaredNorm_sdiv (v : Vec3r K) (s : K) (hs : s * s = v.squaredNorm) (h0 : s ≠ 0) :
    (v.sdiv s).squaredNorm = 1 := by
  have h : (v.sdiv s).squaredNorm = v.squaredNorm / (s * s) := by
    simp only [Vec3r.sdiv, Vec3r.squaredNorm]
    field_simp
  rw [h, hs]
  exact div_self (by rw [← hs]; exact mul_ne_zero h0 h0)

theorem MathFns.rat_sqrt_one : MathFns.rat.sqrt 1 = 1 := by
  have h := MathFns.rat_sqrt_sq 1 (by norm_num)
  norm_num at h
  exact h

theorem MathFns.rat_sqrt_zero : MathFns.rat.sqrt 0 = 0 := by
  have h := MathFns.rat_sqrt_sq 0 (by norm_num)
  norm_num at h
  exact h

/-- A sphere (or the null pointer) queried on a shorter interval `[tmin, tmax1]`
reports the hit it reports on `[tmin, tmax]` when that hit is at most `tmax1`, and
no hit otherwise. -/
theorem Surface.hit_shrink (M : MathFns K) (s : Surface K)
    (hs : s.isNull = true ∨ s.isSphere = true) (ray : Ray K) (tmin tmax tmax1 : K)
    (hit_record : HitRecord K) (hle : tmax1 ≤ tmax) :
    s.Hit M ray tmin tmax1 hit_record =
      if (s.Hit M ray tmin tmax hit_record).1 = true ∧
          (s.Hit M ray tmin tmax hit_record).2.ray_t_ ≤ tmax1
      then s.Hit M ray tmin tmax hit_record else (false, hit_record) := by
  cases s with
  | null => simp [Surface.Hit]
  | base b d => simp [Surface.isNull, Surface.isSphere] at hs
  | bvhNode l r b d => simp [Surface.isNull, Surface.isSphere] at hs
  | sphere c r b d =>
    simp only [Surface.Hit]
    by_cases h : (Sphere.Hit M (Surface.sphere c r b d) c r ray tmin tmax hit_record).1 = true
    · have hrec := Sphere.hit_true_record M _ c r ray tmin tmax hit_record h
      have hi := (Sphere.hit_true_iff M (Surface.sphere c r b d) c r ray tmin tmax hit_record).mp h
      rw [hrec, Sphere.filledRecord_ray_t]
      by_cases h1 : Sphere.chosenT M c r ray tmin ≤ tmax1
      · have h2 : (Sphere.Hit M (Surface.sphere c r b d) c r ray tmin tmax1 hit_record).1 = true :=
          (Sphere.hit_true_iff M _ c r ray tmin tmax1 hit_record).mpr ⟨hi.1, hi.2.1, h1⟩
        rw [if_pos ⟨h, h1⟩]
        apply Prod.ext
        · rw [h2, h]
        · rw [Sphere.hit_true_record M _ c r ray tmin tmax1 hit_record h2, hrec]
      · have h2 : (Sphere.Hit M (Surface.sphere c r b d) c r ray tmin tmax1 hit_record).1 = false := by
          rw [← Bool.not_eq_true, Sphere.hit_true_iff]
          intro h3
          exact h1 h3.2.2
        rw [if_neg (fun h3 => h1 h3.2)]
        apply Prod.ext
        · exact h2
        · exact Sphere.hit_false_record M _ c r ray tmin tmax1 hit_record h2
    · rw [if_neg (fun h3 => h h3.1)]
      have h2 : (Sphere.Hit M (Surface.sphere c r b d) c r ray tmin tmax1 hit_record).1 = false := by
        rw [← Bool.not_eq_true, Sphere.hit_true_iff]
        intro h3
        apply h
        rw [Sphere.hit_true_iff]
        exact ⟨h3.1, h3.2.1, le_trans h3.2.2 hle⟩
      apply Prod.ext
      · exact h2
      · exact Sphere.hit_false_record M _ c r ray tmin tmax1 hit_record h2

theorem Surface.hit_le_tmax (M : MathFns K) (s : Surface K)
    (hs : s.isNull = true ∨ s.isSphere = true) (ray : Ray K) (tmin tmax : K)
    (hit_record : HitRecord K) (h : (s.Hit M ray tmin tmax hit_record).1 = true) :
    (s.Hit M ray tmin tmax hit_record).2.ray_t_ ≤ tmax := by
  have h1 := Surface.hit_shrink M s hs ray tmin tmax tmax hit_record (le_refl _)
  by_contra hc
  rw [if_neg (fun h3 => hc h3.2)] at h1
  rw [h1] at h
  simp at h

theorem Surface.hit_null (M : MathFns K) (s : Surface K) (hs : s.isNull = true) (ray : Ray K)
    (tmin tmax : K) (hit_record : HitRecord K) :
    s.Hit M ray tmin tmax hit_record = (false, hit_record) := by
  cases s <;> simp [Surface.isNull] at hs
  rfl

/-- The loop of `SurfaceList::Hit` over spheres: with no hitting child the state is
unchanged; otherwise `first_hit` ends false and the record is that of a hitting
child with the least `t`. -/
theorem SurfaceList.hitLoop_spec (M : MathFns K) (ray : Ray K) (tmin : K) (l : List (Surface K))
    (hl : ∀ s ∈ l, s.isNull = true ∨ s.isSphere = true) :
    ∀ (tmax : K) (first_hit : Bool) (hit_record : HitRecord K),
      ((∀ s ∈ l, (s.Hit M ray tmin tmax HitRecord.default).1 = false) →
        SurfaceList.HitLoop M ray tmin l tmax first_hit hit_record = (first_hit, hit_record)) ∧
      ((∃ s ∈ l, (s.Hit M ray tmin tmax HitRecord.default).1 = true) →
        (SurfaceList.HitLoop M ray tmin l tmax first_hit hit_record).1 = false ∧
        ∃ s ∈ l, s.Hit M ray tmin tmax HitRecord.default =
            (true, (SurfaceList.HitLoop M ray tmin l tmax first_hit hit_record).2) ∧
          ∀ s1 ∈ l, (s1.Hit M ray tmin tmax HitRecord.default).1 = true →
            (SurfaceList.HitLoop M ray tmin l tmax first_hit hit_record).2.ray_t_ ≤
              (s1.Hit M ray tmin tmax HitRecord.default).2.ray_t_) := by
  induction l with
  | nil =>
    intro tmax first_hit hit_record
    exact ⟨fun _ => rfl, fun ⟨s, hs, _⟩ => absurd hs (List.not_mem_nil s)⟩
  | cons s rest ih =>
    intro tmax first_hit hit_record
    have hs := hl s (List.mem_cons_self _ _)
    have hrest : ∀ s1 ∈ rest, s1.isNull = true ∨ s1.isSphere = true :=
      fun s1 h1 => hl s1 (List.mem_cons_of_mem _ h1)
    have ih1 := ih hrest
    -- the child misses: the loop goes on with the same state
    have hmiss : (s.Hit M ray tmin tmax HitRecord.default).1 = false →
        SurfaceList.HitLoop M ray tmin (s :: rest) tmax first_hit hit_record =
          SurfaceList.HitLoop M ray tmin rest tmax first_hit hit_record := by
      intro hm
      simp only [SurfaceList.HitLoop, hm, Bool.not_false, if_true, ite_self]
    -- the child hits: the loop goes on with its record and its `t` as `tmax`
    have hhit : (s.Hit M ray tmin tmax HitRecord.default).1 = true →
        SurfaceList.HitLoop M ray tmin (s :: rest) tmax first_hit hit_record =
          SurfaceList.HitLoop M ray tmin rest (s.Hit M ray tmin tmax HitRecord.default).2.ray_t_
            false (s.Hit M ray tmin tmax HitRecord.default).2 := by
      intro hh
      have hnn : s.isNull = false := by
        cases hn : s.isNull
        · rfl
        · rw [Surface.hit_null M s hn] at hh
          simp at hh
      simp only [SurfaceList.HitLoop, hnn, hh, Bool.false_eq_true, if_false, Bool.not_true,
        HitRecord.GetRayT]
      cases first_hit <;> simp
    cases hc : (s.Hit M ray tmin tmax HitRecord.default).1 with
    | false =>
      rw [hmiss hc]
      obtain ⟨ihA, ihB⟩ := ih1 tmax first_hit hit_record
      constructor
      · intro hall
        exact ihA (fun s1 h1 => hall s1 (List.mem_cons_of_mem _ h1))
      · rintro ⟨s1, h1, h2⟩
        have h1r : s1 ∈ rest := by
          rcases List.mem_cons.mp h1 with rfl | h
          · rw [hc] at h2; simp at h2
          · exact h
        obtain ⟨hf, s2, hs2, he, hmin⟩ := ihB ⟨s1, h1r, h2⟩
        refine ⟨hf, s2, List.mem_cons_of_mem _ hs2, he, ?_⟩
        intro s3 hs3 h3
        rcases List.mem_cons.mp hs3 with rfl | h
        · rw [hc] at h3; simp at h3
        · exact hmin s3 h h3
    | true =>
      rw [hhit hc]
      have hts : (s.Hit M ray tmin tmax HitRecord.default).2.ray_t_ ≤ tmax :=
        Surface.hit_le_tmax M s hs ray tmin tmax _ hc
      set ts := (s.Hit M ray tmin tmax HitRecord.default).2.ray_t_ with hts_def
      obtain ⟨ihA, ihB⟩ := ih1 ts false (s.Hit M ray tmin tmax HitRecord.default).2
      constructor
      · intro hall
        have := hall s (List.mem_cons_self _ _)
        rw [hc] at this
        simp at this
      · intro _
        by_cases hex : ∃ s1 ∈ rest, (s1.Hit M ray tmin ts HitRecord.default).1 = true
        · obtain ⟨hf, s2, hs2, he, hmin⟩ := ihB hex
          have hsh := Surface.hit_shrink M s2 (hrest s2 hs2) ray tmin tmax ts HitRecord.default hts
          have hcond : (s2.Hit M ray tmin tmax HitRecord.default).1 = true ∧
              (s2.Hit M ray tmin tmax HitRecord.default).2.ray_t_ ≤ ts := by
            by_contra hn
            rw [if_neg hn, he] at hsh
            simp at hsh
          rw [if_pos hcond] at hsh
          have hres_le : (SurfaceList.HitLoop M ray tmin rest ts false
              (s.Hit M ray tmin tmax HitRecord.default).2).2.ray_t_ ≤ ts := by
            have := hcond.2
            rw [← hsh, he] at this
            exact this
          refine ⟨hf, s2, List.mem_cons_of_mem _ hs2, by rw [← hsh, he], ?_⟩
          intro s3 hs3 h3
          rcases List.mem_cons.mp hs3 with rfl | h
          · exact hres_le
          · by_cases h4 : (s3.Hit M ray tmin tmax HitRecord.default).2.ray_t_ ≤ ts
            · have hsh3 := Surface.hit_shrink M s3 (hrest s3 h) ray tmin tmax ts
                HitRecord.default hts
              rw [if_pos ⟨h3, h4⟩] at hsh3
              have := hmin s3 h (by rw [hsh3]; exact h3)
              rw [hsh3] at this
              exact this
            · exact le_trans hres_le (le_of_lt (not_le.mp h4))
        · have hall : ∀ s1 ∈ rest, (s1.Hit M ray tmin ts HitRecord.default).1 = false := by
            intro s1 h1
            cases h2 : (s1.Hit M ray tmin ts HitRecord.default).1
            · rfl
            · exact absurd ⟨s1, h1, h2⟩ hex
          rw [ihA hall]
          refine ⟨rfl, s, List.mem_cons_self _ _, Prod.ext hc rfl, ?_⟩
          intro s3 hs3 h3
          rcases List.mem_cons.mp hs3 with rfl | h
          · exact le_refl _
          · have hsh3 := Surface.hit_shrink M s3 (hrest s3 h) ray tmin tmax ts
              HitRecord.default hts
            by_contra hn
            rw [if_pos ⟨h3, le_of_lt (not_le.mp hn)⟩] at hsh3
            have := hall s3 h
            rw [hsh3, h3] at this
            simp at this

/-- C3: for a `SurfaceList` whose children are spheres or null pointers,
`SurfaceList::Hit(ray, tmin, tmax, rec)` returns true iff some non-null child reports
a hit in `[tmin, tmax]`; on success `rec` is the record reported by a child whose
`t` is the least among all children that hit in `[tmin, tmax]`; and when no child
hits, `rec` is left unchanged.  (It holds for every ray.) -/
theorem surfaceList_hit_closest (M : MathFns K) (l : SurfaceList K) (ray : Ray K)
    (tmin tmax : K) (hit_record : HitRecord K)
    (hl : ∀ s ∈ l.surfaces_, s.isNull = true ∨ s.isSphere = true) :
    ((l.Hit M ray tmin tmax hit_record).1 = true ↔
      ∃ s ∈ l.surfaces_, s.isNull = false ∧
        (s.Hit M ray tmin tmax HitRecord.default).1 = true) ∧
    ((l.Hit M ray tmin tmax hit_record).1 = true →
      ∃ s ∈ l.surfaces_, s.isNull = false ∧
        s.Hit M ray tmin tmax HitRecord.default = (true, (l.Hit M ray tmin tmax hit_record).2) ∧
        ∀ s1 ∈ l.surfaces_, (s1.Hit M ray tmin tmax HitRecord.default).1 = true →
          (l.Hit M ray tmin tmax hit_record).2.GetRayT ≤
            (s1.Hit M ray tmin tmax HitRecord.default).2.GetRayT) ∧
    ((l.Hit M ray tmin tmax hit_record).1 = false →
      (l.Hit M ray tmin tmax hit_record).2 = hit_record) := by
  obtain ⟨hA, hB⟩ := SurfaceList.hitLoop_spec M ray tmin l.surfaces_ hl tmax true hit_record
  have hnn : ∀ s : Surface K, (s.Hit M ray tmin tmax HitRecord.default).1 = true →
      s.isNull = false := by
    intro s hh
    cases hn : s.isNull
    · rfl
    · rw [Surface.hit_null M s hn] at hh
      simp at hh
  by_cases hex : ∃ s ∈ l.surfaces_, (s.Hit M ray tmin tmax HitRecord.default).1 = true
  · obtain ⟨hf, s2, hs2, he, hmin⟩ := hB hex
    have htrue : (l.Hit M ray tmin tmax hit_record).1 = true := by
      simp only [SurfaceList.Hit, hf, Bool.not_false]
    refine ⟨⟨fun _ => ?_, fun _ => htrue⟩, fun _ => ?_, fun h => ?_⟩
    · obtain ⟨s, hs, hh⟩ := hex
      exact ⟨s, hs, hnn s hh, hh⟩
    · exact ⟨s2, hs2, hnn s2 (by rw [he]), he, hmin⟩
    · rw [htrue] at h
      simp at h
  · have hall : ∀ s ∈ l.surfaces_, (s.Hit M ray tmin tmax HitRecord.default).1 = false := by
      intro s1 h1
      cases h2 : (s1.Hit M ray tmin tmax HitRecord.default).1
      · rfl
      · exact absurd ⟨s1, h1, h2⟩ hex
    have hres := hA hall
    have hfalse : (l.Hit M ray tmin tmax hit_record).1 = false := by
      simp only [SurfaceList.Hit, hres, Bool.not_true]
    refine ⟨⟨fun h => ?_, fun ⟨s, hs, _, hh⟩ => absurd ⟨s, hs, hh⟩ hex⟩, fun h => ?_, fun _ => ?_⟩
    · rw [hfalse] at h
      simp at h
    · rw [hfalse] at h
      simp at h
    · simp only [SurfaceList.Hit, hres]

theorem surfaceList_hit_closest_witness :
    (SurfaceList.Hit MathFns.rat
        ⟨[Surface.sphere ⟨0, 0, 0⟩ 1 AABB.default true, Surface.null,
          Surface.sphere ⟨3, 0, 0⟩ 1 AABB.default true], AABB.default, true⟩
        ⟨⟨5, 0, 0⟩, ⟨-1, 0, 0⟩⟩ 0 10 HitRecord.default).1 = true ↔
      ∃ s ∈ [Surface.sphere (⟨0, 0, 0⟩ : Vec3r ℚ) 1 AABB.default true, Surface.null,
          Surface.sphere ⟨3, 0, 0⟩ 1 AABB.default true], s.isNull = false ∧
        (s.Hit MathFns.rat ⟨⟨5, 0, 0⟩, ⟨-1, 0, 0⟩⟩ 0 10 HitRecord.default).1 = true :=
  (surfaceList_hit_closest MathFns.rat
    ⟨[Surface.sphere ⟨0, 0, 0⟩ 1 AABB.default true, Surface.null,
      Surface.sphere ⟨3, 0, 0⟩ 1 AABB.default true], AABB.default, true⟩
    ⟨⟨5, 0, 0⟩, ⟨-1, 0, 0⟩⟩ 0 10 HitRecord.default
    (by
      intro s hs
      simp only [List.mem_cons, List.mem_singleton, List.not_mem_nil, or_false] at hs
      rcases hs with rfl | rfl | rfl
      · exact Or.inr rfl
      · exact Or.inl rfl
      · exact Or.inr rfl)).1

/-! ## GetBoundingBox and the boxes -/

/-- A second call of `GetBoundingBox()` returns the same box and changes nothing. -/
theorem Surface.getBoundingBox_touch (s : Surface K) :
    (s.touch).GetBoundingBox false = (s.box, s.touch) := by
  cases s with
  | null => rfl
  | base b d => rfl
  | sphere c r b d =>
    cases d <;> simp [Surface.touch, Surface.box, Surface.GetBoundingBox]
  | bvhNode l r b d =>
    cases d <;> simp [Surface.touch, Surface.box, Surface.GetBoundingBox]

theorem Surface.box_touch (s : Surface K) : s.touch.box = s.box := by
  rw [Surface.box, Surface.getBoundingBox_touch]

theorem Surface.touch_touch (s : Surface K) : s.touch.touch = s.touch := by
  rw [Surface.touch, Surface.getBoundingBox_touch]

theorem Surface.isNull_touch (s : Surface K) : s.touch.isNull = s.isNull := by
  cases s with
  | null => rfl
  | base b d => rfl
  | sphere c r b d =>
    cases d <;> simp [Surface.touch, Surface.GetBoundingBox, Surface.isNull]
  | bvhNode l r b d =>
    cases d <;> simp [Surface.touch, Surface.GetBoundingBox, Surface.isNull]

theorem Surface.isSphere_touch (s : Surface K) : s.touch.isSphere = s.isSphere := by
  cases s with
  | null => rfl
  | base b d => rfl
  | sphere c r b d =>
    cases d <;> simp [Surface.touch, Surface.GetBoundingBox, Surface.isSphere]
  | bvhNode l r b d =>
    cases d <;> simp [Surface.touch, Surface.GetBoundingBox, Surface.isSphere]

theorem AABB.ext_get (a b : AABB K) (hmin : ∀ i : Fin 3, a.min_.get i = b.min_.get i)
    (hmax : ∀ i : Fin 3, a.max_.get i = b.max_.get i) : a = b := by
  obtain ⟨⟨a1, a2, a3⟩, ⟨a4, a5, a6⟩⟩ := a
  obtain ⟨⟨b1, b2, b3⟩, ⟨b4, b5, b6⟩⟩ := b
  have h0 := hmin 0
  have h1 := hmin 1
  have h2 := hmin 2
  have h3 := hmax 0
  have h4 := hmax 1
  have h5 := hmax 2
  simp only [Vec3r.get_zero, Vec3r.get_one, Vec3r.get_two] at h0 h1 h2 h3 h4 h5
  rw [h0, h1, h2, h3, h4, h5]

theorem AABB.union_min (a b : AABB K) (i : Fin 3) :
    (AABB.union a b).min_.get i = min (a.min_.get i) (b.min_.get i) := by
  fin_cases i <;> rfl

theorem AABB.union_max (a b : AABB K) (i : Fin 3) :
    (AABB.union a b).max_.get i = max (a.max_.get i) (b.max_.get i) := by
  fin_cases i <;> rfl

theorem AABB.reset_min (b : AABB K) (i : Fin 3) : (b.Reset).min_.get i = kInfinity := by
  fin_cases i <;> rfl

theorem AABB.reset_max (b : AABB K) (i : Fin 3) : (b.Reset).max_.get i = -kInfinity := by
  fin_cases i <;> rfl

theorem BVHNode.bboxCombine_eq_union (a b : AABB K) : BVHNode.BBoxCombine a b = AABB.union a b :=
  rfl

/-- Expanding a reset box by a finite, valid box gives that box. -/
theorem AABB.reset_expandBy (a b : AABB K) (hb : b.Proper) : (a.Reset).ExpandBy b = b := by
  apply AABB.ext_get
  · intro i
    rw [(AABB.expandBy_valid_get _ _ hb.1 i).1, AABB.reset_min]
    obtain ⟨h1, h2, h3⟩ := hb.2 i
    rw [min_eq_right (le_trans h1 h3), min_eq_left h1]
  · intro i
    rw [(AABB.expandBy_valid_get _ _ hb.1 i).2, AABB.reset_max]
    obtain ⟨h1, h2, h3⟩ := hb.2 i
    rw [max_eq_right h2, max_eq_right h1]

/-- On finite, valid boxes `ExpandBy` is the component-wise union. -/
theorem AABB.expandBy_eq_union (a b : AABB K) (hb : b.Proper) :
    a.ExpandBy b = AABB.union a b := by
  apply AABB.ext_get
  · intro i
    rw [(AABB.expandBy_valid_get _ _ hb.1 i).1, AABB.union_min]
    obtain ⟨h1, h2, h3⟩ := hb.2 i
    rw [min_assoc, min_eq_left h1]
  · intro i
    rw [(AABB.expandBy_valid_get _ _ hb.1 i).2, AABB.union_max]
    obtain ⟨h1, h2, h3⟩ := hb.2 i
    rw [max_assoc, max_eq_right h1]

theorem AABB.union_proper (a b : AABB K) (ha : a.Proper) (hb : b.Proper) :
    (AABB.union a b).Proper := by
  have hk : (0 : K) < kInfinity := kInfinity_pos
  have hget : ∀ i : Fin 3, (AABB.union a b).min_.get i ≤ (AABB.union a b).max_.get i ∧
      -kInfinity ≤ (AABB.union a b).min_.get i ∧ (AABB.union a b).max_.get i ≤ kInfinity := by
    intro i
    rw [AABB.union_min, AABB.union_max]
    obtain ⟨h1, h2, h3⟩ := ha.2 i
    obtain ⟨h4, h5, h6⟩ := hb.2 i
    exact ⟨le_trans (min_le_left _ _) (le_trans h1 (le_max_left _ _)), le_min h2 h5,
      max_le h3 h6⟩
  refine ⟨?_, hget⟩
  have hva := (AABB.isValid_iff a).mp ha.1
  have hvb := (AABB.isValid_iff b).mp hb.1
  rw [AABB.isValid_iff]
  simp only [AABB.union]
  refine ⟨⟨?_, ?_, ?_⟩, ?_, ?_, ?_⟩
  · rcases min_choice a.min_.x b.min_.x with h | h <;> rw [h]
    · exact hva.1.1
    · exact hvb.1.1
  · rcases min_choice a.min_.y b.min_.y with h | h <;> rw [h]
    · exact hva.1.2.1
    · exact hvb.1.2.1
  · rcases min_choice a.min_.z b.min_.z with h | h <;> rw [h]
    · exact hva.1.2.2
    · exact hvb.1.2.2
  · rcases max_choice a.max_.x b.max_.x with h | h <;> rw [h]
    · exact hva.2.1
    · exact hvb.2.1
  · rcases max_choice a.max_.y b.max_.y with h | h <;> rw [h]
    · exact hva.2.2.1
    · exact hvb.2.2.1
  · rcases max_choice a.max_.z b.max_.z with h | h <;> rw [h]
    · exact hva.2.2.2
    · exact hvb.2.2.2

theorem AABB.union_comm (a b : AABB K) : AABB.union a b = AABB.union b a := by
  simp only [AABB.union, min_comm, max_comm]

theorem AABB.union_assoc (a b c : AABB K) :
    AABB.union (AABB.union a b) c = AABB.union a (AABB.union b c) := by
  simp only [AABB.union, min_assoc, max_assoc]

theorem AABB.union_left_comm (a b c : AABB K) :
    AABB.union a (AABB.union b c) = AABB.union b (AABB.union a c) := by
  rw [← AABB.union_assoc, AABB.union_comm a b, AABB.union_assoc]

theorem AABB.unionList_cons (b : AABB K) (l : List (AABB K)) (h : l ≠ []) :
    AABB.unionList (b :: l) = AABB.union b (AABB.unionList l) := by
  cases l with
  | nil => exact absurd rfl h
  | cons c l => rfl

theorem AABB.unionList_append (l1 l2 : List (AABB K)) (h1 : l1 ≠ []) (h2 : l2 ≠ []) :
    AABB.unionList (l1 ++ l2) = AABB.union (AABB.unionList l1) (AABB.unionList l2) := by
  induction l1 with
  | nil => exact absurd rfl h1
  | cons b l ih =>
    cases l with
    | nil =>
      simp only [List.singleton_append]
      rw [AABB.unionList_cons b l2 h2]
      rfl
    | cons c l =>
      have h3 : c :: l ++ l2 ≠ [] := by simp
      rw [List.cons_append, AABB.unionList_cons b _ h3, ih (by simp),
        AABB.unionList_cons b (c :: l) (by simp), AABB.union_assoc]

/-- The union of a list of boxes does not depend on the order of the list. -/
theorem AABB.unionList_perm (l1 l2 : List (AABB K)) (h : l1.Perm l2) :
    AABB.unionList l1 = AABB.unionList l2 := by
  induction h with
  | nil => rfl
  | cons x hp ih =>
    rename_i l l'
    cases l with
    | nil =>
      have := hp.symm.eq_nil
      rw [this]
    | cons c l =>
      have hne : l' ≠ [] := by
        intro h0
        rw [h0] at hp
        exact absurd hp.eq_nil (by simp)
      rw [AABB.unionList_cons x (c :: l) (by simp), AABB.unionList_cons x l' hne, ih]
  | swap x y l =>
    cases l with
    | nil => exact AABB.union_comm y x
    | cons c l =>
      rw [AABB.unionList_cons y (x :: c :: l) (by simp),
        AABB.unionList_cons x (c :: l) (by simp),
        AABB.unionList_cons x (y :: c :: l) (by simp),
        AABB.unionList_cons y (c :: l) (by simp), AABB.union_left_comm]
  | trans _ _ ih1 ih2 => exact ih1.trans ih2

theorem AABB.unionList_proper (l : List (AABB K)) (hne : l ≠ []) (h : ∀ b ∈ l, b.Proper) :
    (AABB.unionList l).Proper := by
  induction l with
  | nil => exact absurd rfl hne
  | cons b l ih =>
    cases l with
    | nil => exact h b (List.mem_cons_self _ _)
    | cons c l =>
      rw [AABB.unionList_cons b (c :: l) (by simp)]
      exact AABB.union_proper _ _ (h b (List.mem_cons_self _ _))
        (ih (by simp) (fun x hx => h x (List.mem_cons_of_mem _ hx)))

/-! ## Unfolding the recursive BuildBVH -/

theorem BVHNode.buildBVHRange_one (S : StdSort) (s0 : Surface K) (start end_ split_axis : Nat) :
    BVHNode.BuildBVHRange S [s0] start end_ split_axis =
      if s0.isNull then none
      else some (Surface.bvhNode s0.touch Surface.null s0.box true) := by
  rw [BVHNode.BuildBVHRange]
  simp [Surface.touch, Surface.box]

theorem BVHNode.buildBVHRange_two (S : StdSort) (s0 s1 : Surface K)
    (start end_ split_axis : Nat) :
    BVHNode.BuildBVHRange S [s0, s1] start end_ split_axis =
      if s0.isNull || s1.isNull then none
      else some (Surface.bvhNode s0.touch s1.touch (AABB.union s0.box s1.box) true) := by
  rw [BVHNode.BuildBVHRange]
  simp [Surface.touch, Surface.box, BVHNode.bboxCombine_eq_union]

theorem BVHNode.buildBVHRange_many (S : StdSort) (surfaces : List (Surface K))
    (start end_ split_axis : Nat) (h : 3 ≤ surfaces.length)
    (hnn : ∀ s ∈ surfaces, s.isNull = false) :
    BVHNode.BuildBVHRange S surfaces start end_ split_axis =
      match BVHNode.BuildBVHRange S
          ((S.sort (BVHNode.sortComp
            (if split_axis = 0 then 0 else if split_axis = 1 then 1 else 2))
            (surfaces.map Surface.touch)).take (surfaces.length / 2))
          0 (surfaces.length / 2) ((split_axis + 1) % 3) with
      | none => none
      | some left =>
        match BVHNode.BuildBVHRange S
            ((S.sort (BVHNode.sortComp
              (if split_axis = 0 then 0 else if split_axis = 1 then 1 else 2))
              (surfaces.map Surface.touch)).drop (surfaces.length / 2))
            (surfaces.length / 2) (surfaces.length - 1) ((split_axis + 1) % 3) with
        | none => none
        | some right =>
          some (Surface.bvhNode left.touch right.touch (AABB.union left.box right.box) true) := by
  rw [BVHNode.BuildBVHRange]
  have h1 : ¬ surfaces.length = 1 := by omega
  have h2 : ¬ surfaces.length = 2 := by omega
  have h0 : ¬ surfaces.length = 0 := by omega
  have hany : surfaces.any Surface.isNull = false := by
    rw [List.any_eq_false]
    intro s hs
    rw [hnn s hs]
    simp
  · simp only [h1, h2, h0, hany, dite_false, Bool.false_eq_true, if_false]
    rfl
  · intro s0 hs
    rw [hs] at h
    simp at h
  · intro s0 s1 hs
    rw [hs] at h
    simp at h

/-! ## The bounding box of the built tree -/

theorem Surface.box_bvhNode_dirty (l r : Surface K) (b : AABB K) (hl : l.isNull = false) :
    (Surface.bvhNode l r b true).box =
      if r.isNull then (b.Reset).ExpandBy l.box else ((b.Reset).ExpandBy l.box).ExpandBy r.box := by
  simp only [Surface.box, Surface.GetBoundingBox, hl, Bool.not_true, Bool.false_eq_true,
    Bool.and_false, if_false]
  split_ifs <;> rfl

theorem Surface.touch_bvhNode_dirty (l r : Surface K) (b : AABB K) (hl : l.isNull = false) :
    (Surface.bvhNode l r b true).touch =
      Surface.bvhNode l.touch r.touch (Surface.bvhNode l r b true).box false := by
  have hr : r.isNull = true → r.touch = r := by
    intro h
    cases r <;> simp [Surface.isNull] at h
    rfl
  simp only [Surface.touch, Surface.box, Surface.GetBoundingBox, hl, Bool.not_true,
    Bool.false_eq_true, Bool.and_false, if_false]
  cases h : r.isNull
  · simp
  · have := hr h
    simp only [Surface.touch] at this
    simp [this]

theorem StdSort.mem_sort (S : StdSort) {α : Type} (comp : α → α → Bool) (l : List α) (a : α) :
    a ∈ S.sort comp l ↔ a ∈ l := (S.perm comp l).mem_iff

/-- The box of the node built by the recursive `BuildBVH` over non-null surfaces
with finite, valid boxes is the union of their boxes. -/
theorem BVHNode.buildBVHRange_box (S : StdSort) :
    ∀ (n : Nat) (surfaces : List (Surface K)) (start end_ split_axis : Nat),
      surfaces.length = n → 0 < n →
      (∀ s ∈ surfaces, s.isNull = false) → (∀ s ∈ surfaces, s.box.Proper) →
      ∃ node, BVHNode.BuildBVHRange S surfaces start end_ split_axis = some node ∧
        node.isNull = false ∧ node.box = AABB.unionList (surfaces.map Surface.box) := by
  intro n
  induction n using Nat.strong_induction_on with
  | _ n ih =>
    intro surfaces start end_ split_axis hlen hpos hnn hprop
    match surfaces, hlen, hnn, hprop with
    | [], hlen, _, _ =>
      simp at hlen
      omega
    | [s0], _, hnn, hprop =>
      have h0 := hnn s0 (List.mem_cons_self _ _)
      refine ⟨Surface.bvhNode s0.touch Surface.null s0.box true,
        by rw [BVHNode.buildBVHRange_one, h0]; rfl, rfl, ?_⟩
      rw [Surface.box_bvhNode_dirty _ _ _ (by rw [Surface.isNull_touch]; exact h0)]
      simp only [Surface.isNull, if_true, Surface.box_touch, List.map, AABB.unionList]
      exact AABB.reset_expandBy _ _ (hprop s0 (List.mem_cons_self _ _))
    | [s0, s1], _, hnn, hprop =>
      have h0 := hnn s0 (List.mem_cons_self _ _)
      have h1 := hnn s1 (List.mem_cons_of_mem _ (List.mem_cons_self _ _))
      have p0 := hprop s0 (List.mem_cons_self _ _)
      have p1 := hprop s1 (List.mem_cons_of_mem _ (List.mem_cons_self _ _))
      refine ⟨Surface.bvhNode s0.touch s1.touch (AABB.union s0.box s1.box) true,
        by rw [BVHNode.buildBVHRange_two, h0, h1]; rfl, rfl, ?_⟩
      rw [Surface.box_bvhNode_dirty _ _ _ (by rw [Surface.isNull_touch]; exact h0)]
      simp only [Surface.isNull_touch, h1, Bool.false_eq_true, if_false, Surface.box_touch,
        List.map, AABB.unionList]
      rw [AABB.reset_expandBy _ _ p0, AABB.expandBy_eq_union _ _ p1]
    | s0 :: s1 :: s2 :: rest, hlen, hnn, hprop =>
      set surfaces := s0 :: s1 :: s2 :: rest with hsurf
      have h3 : 3 ≤ surfaces.length := by simp [hsurf]
      rw [BVHNode.buildBVHRange_many S surfaces start end_ split_axis h3 hnn]
      set sorted := S.sort (BVHNode.sortComp
        (if split_axis = 0 then 0 else if split_axis = 1 then 1 else 2))
        (surfaces.map Surface.touch) with hsorted
      have hslen : sorted.length = surfaces.length := by
        rw [hsorted, StdSort.length_sort, List.length_map]
      have hmem : ∀ s ∈ sorted, s.isNull = false ∧ s.box.Proper := by
        intro s hs
        rw [hsorted, StdSort.mem_sort, List.mem_map] at hs
        obtain ⟨s', hs', rfl⟩ := hs
        rw [Surface.isNull_touch, Surface.box_touch]
        exact ⟨hnn s' hs', hprop s' hs'⟩
      have hk1 : 0 < surfaces.length / 2 := by omega
      have hk2 : surfaces.length / 2 < surfaces.length := by omega
      have hll : (sorted.take (surfaces.length / 2)).length = surfaces.length / 2 := by
        rw [List.length_take, hslen]; omega
      have hrl : (sorted.drop (surfaces.length / 2)).length =
          surfaces.length - surfaces.length / 2 := by
        rw [List.length_drop, hslen]
      obtain ⟨left, hleft, hlnn, hlbox⟩ := ih (surfaces.length / 2) (by omega)
        (sorted.take (surfaces.length / 2)) 0 (surfaces.length / 2) ((split_axis + 1) % 3)
        hll hk1 (fun s hs => (hmem s (List.mem_of_mem_take hs)).1)
        (fun s hs => (hmem s (List.mem_of_mem_take hs)).2)
      obtain ⟨right, hright, hrnn, hrbox⟩ := ih (surfaces.length - surfaces.length / 2) (by omega)
        (sorted.drop (surfaces.length / 2)) (surfaces.length / 2) (surfaces.length - 1)
        ((split_axis + 1) % 3) hrl (by omega)
        (fun s hs => (hmem s (List.mem_of_mem_drop hs)).1)
        (fun s hs => (hmem s (List.mem_of_mem_drop hs)).2)
      rw [hleft, hright]
      refine ⟨_, rfl, rfl, ?_⟩
      have hlne : (sorted.take (surfaces.length / 2)).map Surface.box ≠ [] := by
        intro h0
        have := congrArg List.length h0
        rw [List.length_map, hll] at this
        simp at this
        omega
      have hrne : (sorted.drop (surfaces.length / 2)).map Surface.box ≠ [] := by
        intro h0
        have := congrArg List.length h0
        rw [List.length_map, hrl] at this
        simp at this
        omega
      have plbox : left.box.Proper := by
        rw [hlbox]
        apply AABB.unionList_proper _ hlne
        intro b hb
        rw [List.mem_map] at hb
        obtain ⟨s, hs, rfl⟩ := hb
        exact (hmem s (List.mem_of_mem_take hs)).2
      have prbox : right.box.Proper := by
        rw [hrbox]
        apply AABB.unionList_proper _ hrne
        intro b hb
        rw [List.mem_map] at hb
        obtain ⟨s, hs, rfl⟩ := hb
        exact (hmem s (List.mem_of_mem_drop hs)).2
      rw [Surface.box_bvhNode_dirty _ _ _ (by rw [Surface.isNull_touch]; exact hlnn)]
      simp only [Surface.isNull_touch, hrnn, Bool.false_eq_true, if_false, Surface.box_touch]
      rw [AABB.reset_expandBy _ _ plbox, AABB.expandBy_eq_union _ _ prbox, hlbox, hrbox,
        ← AABB.unionList_append _ _ hlne hrne, ← List.map_append, List.take_append_drop]
      have hperm : (sorted.map Surface.box).Perm ((surfaces.map Surface.touch).map Surface.box) :=
        (S.perm _ _).map _
      rw [AABB.unionList_perm _ _ hperm, List.map_map]
      congr 1
      apply List.map_congr_left
      intro s _
      exact Surface.box_touch s

theorem BVHNode.buildBVH_eq (S : StdSort) (surfaces : List (Surface K)) (hne : surfaces ≠ []) :
    BVHNode.BuildBVH S surfaces =
      match BVHNode.BuildBVHRange S (surfaces.map Surface.touch) 0 surfaces.length 0 with
      | none => none
      | some bvh_node => some bvh_node.touch := by
  have hlen : ¬ surfaces.length = 0 := by
    intro h
    exact hne (List.length_eq_zero.mp h)
  have hmap : surfaces.map (fun surface => if surface.isNull = true then surface
      else (surface.GetBoundingBox false).2) = surfaces.map Surface.touch := by
    apply List.map_congr_left
    intro s _
    cases s <;> rfl
  simp only [BVHNode.BuildBVH, hlen, if_false, hmap]
  cases h : BVHNode.BuildBVHRange S (surfaces.map Surface.touch) 0 surfaces.length 0 with
  | none => rfl
  | some node =>
    simp only
    cases node <;> rfl

/-- C1: for every non-empty list of non-null surfaces with finite, valid bounding
boxes (`IsValid()`, `min ≤ max`, coordinates in `[-kInfinity, kInfinity]`),
`BVHNode::BuildBVH(surfaces)` returns a node whose `GetBoundingBox()` is the
component-wise union (min of all mins, max of all maxes) of the input surfaces'
bounding boxes, and every permutation of the list gives the same box. -/
theorem buildBVH_bbox_is_union (S : StdSort) (surfaces : List (Surface K))
    (hne : surfaces ≠ []) (hnn : ∀ s ∈ surfaces, s.isNull = false)
    (hprop : ∀ s ∈ surfaces, (s.GetBoundingBox false).1.Proper) :
    ∃ node, BVHNode.BuildBVH S surfaces = some node ∧ node.isNull = false ∧
      (node.GetBoundingBox false).1 =
        AABB.unionList (surfaces.map (fun s => (s.GetBoundingBox false).1)) ∧
      ∀ surfaces1 : List (Surface K), surfaces1.Perm surfaces →
        ∃ node1, BVHNode.BuildBVH S surfaces1 = some node1 ∧ node1.isNull = false ∧
          (node1.GetBoundingBox false).1 = (node.GetBoundingBox false).1 := by
  have key : ∀ l : List (Surface K), l.Perm surfaces →
      ∃ node, BVHNode.BuildBVH S l = some node ∧ node.isNull = false ∧
        node.box = AABB.unionList (surfaces.map Surface.box) := by
    intro l hl
    have hlne : l ≠ [] := by
      intro h0
      rw [h0] at hl
      exact hne hl.symm.eq_nil
    have hlpos : 0 < l.length := List.length_pos.mpr hlne
    obtain ⟨node0, h0, hnn0, hbox0⟩ := BVHNode.buildBVHRange_box S (l.map Surface.touch).length
      (l.map Surface.touch) 0 l.length 0 rfl (by rw [List.length_map]; exact hlpos)
      (by
        intro s hs
        rw [List.mem_map] at hs
        obtain ⟨s', hs', rfl⟩ := hs
        rw [Surface.isNull_touch]
        exact hnn s' (hl.mem_iff.mp hs'))
      (by
        intro s hs
        rw [List.mem_map] at hs
        obtain ⟨s', hs', rfl⟩ := hs
        rw [Surface.box_touch]
        exact hprop s' (hl.mem_iff.mp hs'))
    refine ⟨node0.touch, by rw [BVHNode.buildBVH_eq S l hlne, h0], ?_, ?_⟩
    · rw [Surface.isNull_touch]; exact hnn0
    · rw [Surface.box_touch, hbox0, List.map_map]
      have e : l.map (Surface.box ∘ Surface.touch) = l.map Surface.box := by
        apply List.map_congr_left
        intro s _
        exact Surface.box_touch s
      rw [e]
      exact AABB.unionList_perm _ _ (hl.map _)
  obtain ⟨node, h1, h2, h3⟩ := key surfaces (List.Perm.refl _)
  refine ⟨node, h1, h2, h3, ?_⟩
  intro surfaces1 hp
  obtain ⟨node1, h4, h5, h6⟩ := key surfaces1 hp
  exact ⟨node1, h4, h5, h6.trans h3.symm⟩

/-! ## Spheres and their boxes -/

theorem Surface.touch_sphere (c : Vec3r K) (r : K) (b : AABB K) (d : Bool) :
    (Surface.sphere c r b d).touch = Surface.sphere c r (Surface.sphere c r b d).box false := by
  cases d <;> simp [Surface.touch, Surface.box, Surface.GetBoundingBox]

theorem Surface.box_sphere_clean (c : Vec3r K) (r : K) (b : AABB K) :
    (Surface.sphere c r b false).box = b := by
  simp [Surface.box, Surface.GetBoundingBox]

theorem Surface.box_sphere_dirty (c : Vec3r K) (r : K) (b : AABB K) :
    (Surface.sphere c r b true).box =
      (b.Reset).ExpandBy ⟨c.sub ⟨r, r, r⟩, c.add ⟨r, r, r⟩⟩ := by
  simp [Surface.box, Surface.GetBoundingBox]

theorem AABB.proper_small (b : AABB K)
    (h : ∀ i : Fin 3, b.min_.get i ≤ b.max_.get i ∧ -(10 ^ 6) < b.min_.get i ∧
      b.max_.get i < 10 ^ 6) : b.Proper := by
  have hk : (10 : K) ^ 6 < kInfinity := kInfinity_gt
  have h0 := h 0
  have h1 := h 1
  have h2 := h 2
  simp only [Vec3r.get_zero, Vec3r.get_one, Vec3r.get_two] at h0 h1 h2
  constructor
  · apply AABB.isValid_small
    · exact ⟨by linarith, by linarith, by linarith⟩
    · exact ⟨by linarith, by linarith, by linarith⟩
  · intro i
    obtain ⟨a1, a2, a3⟩ := h i
    exact ⟨a1, by linarith, by linarith⟩

/-- A sphere as constructed, of non-negative radius and moderate size, has a
finite, valid box that encloses it. -/
theorem Surface.sphereBoxOk_small (c : Vec3r K) (r : K) (b : AABB K) (hr : 0 ≤ r)
    (h : ∀ i : Fin 3, -(10 ^ 6) < c.get i - r ∧ c.get i + r < 10 ^ 6) :
    (Surface.sphere c r b true).SphereBoxOk := by
  have hp : (⟨c.sub ⟨r, r, r⟩, c.add ⟨r, r, r⟩⟩ : AABB K).Proper := by
    apply AABB.proper_small
    intro i
    have hi := h i
    fin_cases i <;> simp [Vec3r.sub, Vec3r.add] at hi ⊢ <;>
      exact ⟨by linarith, hi.1, hi.2⟩
  simp only [Surface.SphereBoxOk]
  rw [Surface.box_sphere_dirty, AABB.reset_expandBy _ _ hp]
  refine ⟨hp, ?_⟩
  intro i
  rw [abs_of_nonneg hr]
  fin_cases i <;> simp [Vec3r.sub, Vec3r.add]

theorem Surface.sphereBoxOk_isSphere (s : Surface K) (h : s.SphereBoxOk) : s.isSphere = true := by
  cases s <;> simp [Surface.SphereBoxOk] at h
  rfl

/-- A sphere as constructed (`bound_dirty_ = true`) whose extent is finite and whose
box `[center − r, center + r]` is valid (no coordinate on the sentinel) has a
finite, valid bounding box that encloses it. -/
theorem Surface.sphereBoxOk_of_valid (c : Vec3r K) (r : K) (b : AABB K)
    (hv : (⟨c.sub ⟨r, r, r⟩, c.add ⟨r, r, r⟩⟩ : AABB K).IsValid = true)
    (hfin : ∀ i : Fin 3, -kInfinity ≤ c.get i - |r| ∧ c.get i + |r| ≤ kInfinity) :
    (Surface.sphere c r b true).SphereBoxOk := by
  have hsub : ∀ i : Fin 3, (c.sub ⟨r, r, r⟩).get i = c.get i - r := by
    intro i; fin_cases i <;> rfl
  have hadd : ∀ i : Fin 3, (c.add ⟨r, r, r⟩).get i = c.get i + r := by
    intro i; fin_cases i <;> rfl
  have hne : ∀ i : Fin 3, c.get i - r ≠ kInfinity ∧ c.get i + r ≠ -kInfinity := by
    have h := (AABB.isValid_iff _).mp hv
    rw [Vec3r.forall_fin3]
    simp only [Vec3r.get_zero, Vec3r.get_one, Vec3r.get_two]
    simp only [Vec3r.sub, Vec3r.add] at h
    exact ⟨⟨h.1.1, h.2.1⟩, ⟨h.1.2.1, h.2.2.1⟩, ⟨h.1.2.2, h.2.2.2⟩⟩
  have hmin : ∀ i : Fin 3, (Surface.sphere c r b true).box.min_.get i = c.get i - |r| := by
    intro i
    rw [Surface.box_sphere_dirty, (AABB.expandBy_valid_get _ _ hv i).1, AABB.reset_min, hsub,
      hadd]
    obtain ⟨h1, h2⟩ := hfin i
    have h3 := neg_abs_le r
    have h4 := le_abs_self r
    have e1 : min kInfinity (c.get i - r) = c.get i - r := min_eq_right (by linarith)
    rw [e1]
    rcases abs_cases r with ⟨h5, _⟩ | ⟨h5, _⟩
    · rw [h5, min_eq_left (by linarith)]
    · rw [h5, min_eq_right (by linarith)]
      ring
  have hmax : ∀ i : Fin 3, (Surface.sphere c r b true).box.max_.get i = c.get i + |r| := by
    intro i
    rw [Surface.box_sphere_dirty, (AABB.expandBy_valid_get _ _ hv i).2, AABB.reset_max, hsub,
      hadd]
    obtain ⟨h1, h2⟩ := hfin i
    have h3 := neg_abs_le r
    have h4 := le_abs_self r
    have e1 : max (-kInfinity) (c.get i - r) = c.get i - r := max_eq_right (by linarith)
    rw [e1]
    rcases abs_cases r with ⟨h5, _⟩ | ⟨h5, _⟩
    · rw [h5, max_eq_right (by linarith)]
    · rw [h5, max_eq_left (by linarith)]
      ring
  have hget : ∀ i : Fin 3,
      (Surface.sphere c r b true).box.min_.get i ≠ kInfinity ∧
      (Surface.sphere c r b true).box.max_.get i ≠ -kInfinity := by
    intro i
    rw [hmin, hmax]
    obtain ⟨h1, h2⟩ := hfin i
    obtain ⟨h6, h7⟩ := hne i
    have hk : (0 : K) < kInfinity := kInfinity_pos
    rcases abs_cases r with ⟨h5, h8⟩ | ⟨h5, h8⟩
    · rw [h5]
      exact ⟨h6, h7⟩
    · rw [h5] at h1 h2 ⊢
      refine ⟨?_, ?_⟩
      · intro h9
        linarith
      · intro h9
        linarith
  simp only [Surface.SphereBoxOk]
  refine ⟨⟨?_, ?_⟩, fun i => ⟨le_of_eq (hmin i), le_of_eq (hmax i).symm⟩⟩
  · rw [AABB.isValid_iff]
    have h0 := hget 0
    have h1 := hget 1
    have h2 := hget 2
    simp only [Vec3r.get_zero, Vec3r.get_one, Vec3r.get_two] at h0 h1 h2
    exact ⟨⟨h0.1, h1.1, h2.1⟩, h0.2, h1.2, h2.2⟩
  · intro i
    rw [hmin, hmax]
    obtain ⟨h1, h2⟩ := hfin i
    have h3 := abs_nonneg r
    exact ⟨by linarith, by linarith, by linarith⟩

theorem Surface.exampleSpheres_ok : ∀ s ∈ Surface.exampleSpheres, s.SphereBoxOk := by
  intro s hs
  simp only [Surface.exampleSpheres, List.mem_cons, List.mem_singleton, List.not_mem_nil,
    or_false] at hs
  rcases hs with rfl | rfl | rfl <;>
    exact Surface.sphereBoxOk_small _ _ _ (by norm_num)
      (by intro i; fin_cases i <;> simp <;> norm_num)

theorem buildBVH_bbox_is_union_witness :
    ∃ node, BVHNode.BuildBVH StdSort.insertion Surface.exampleSpheres = some node ∧
      node.isNull = false ∧
      (node.GetBoundingBox false).1 =
        AABB.unionList (Surface.exampleSpheres.map (fun s => (s.GetBoundingBox false).1)) ∧
      ∀ surfaces1 : List (Surface ℚ), surfaces1.Perm Surface.exampleSpheres →
        ∃ node1, BVHNode.BuildBVH StdSort.insertion surfaces1 = some node1 ∧
          node1.isNull = false ∧
          (node1.GetBoundingBox false).1 = (node.GetBoundingBox false).1 :=
  buildBVH_bbox_is_union StdSort.insertion Surface.exampleSpheres
    (by simp [Surface.exampleSpheres])
    (by
      intro s hs
      have := Surface.sphereBoxOk_isSphere s (Surface.exampleSpheres_ok s hs)
      cases s <;> simp [Surface.isSphere] at this
      rfl)
    (by
      intro s hs
      have h1 := Surface.exampleSpheres_ok s hs
      have := Surface.sphereBoxOk_isSphere s h1
      cases s <;> simp [Surface.isSphere] at this
      exact h1.1)

/-- C11: `ExpandBy` never shrinks a box: after `A.ExpandBy(point)` and after
`A.ExpandBy(box)` each component of `A.min` is `≤` its previous value and each
component of `A.max` is `≥` its previous value; and `ExpandBy` with an invalid box
argument leaves `A` unchanged. -/
theorem aabb_expandBy_monotonic (A B : AABB K) (p : Vec3r K) :
    (∀ i : Fin 3, (A.ExpandByPoint p).min_.get i ≤ A.min_.get i ∧
      A.max_.get i ≤ (A.ExpandByPoint p).max_.get i) ∧
    (∀ i : Fin 3, (A.ExpandBy B).min_.get i ≤ A.min_.get i ∧
      A.max_.get i ≤ (A.ExpandBy B).max_.get i) ∧
    (B.IsValid = false → A.ExpandBy B = A) := by
  refine ⟨?_, ?_, AABB.expandBy_invalid A B⟩
  · intro i
    rw [AABB.expandByPoint_min_le, AABB.expandByPoint_max_ge]
    exact ⟨min_le_left _ _, le_max_left _ _⟩
  · intro i
    cases hB : B.IsValid
    · rw [AABB.expandBy_invalid A B hB]
      exact ⟨le_refl _, le_refl _⟩
    · rw [(AABB.expandBy_valid_get A B hB i).1, (AABB.expandBy_valid_get A B hB i).2]
      exact ⟨le_trans (min_le_left _ _) (min_le_left _ _),
        le_trans (le_max_left _ _) (le_max_left _ _)⟩

theorem aabb_expandBy_monotonic_witness :
    (⟨⟨0, 0, 0⟩, ⟨1, 1, 1⟩⟩ : AABB ℚ).ExpandBy ⟨⟨2, kInfinity, 2⟩, ⟨3, 3, 3⟩⟩ =
      ⟨⟨0, 0, 0⟩, ⟨1, 1, 1⟩⟩ :=
  (aabb_expandBy_monotonic (⟨⟨0, 0, 0⟩, ⟨1, 1, 1⟩⟩ : AABB ℚ) ⟨⟨2, kInfinity, 2⟩, ⟨3, 3, 3⟩⟩
    ⟨0, 0, 0⟩).2.2 (by simp [AABB.IsValid])

/-- C13: after `HitRecord::SetNormal(ray, n)`, for any ray and any vector `n`, the
stored normal satisfies `dot(ray.direction, normal) ≤ 0`, `front_face` is true iff
`dot(ray.direction, n) < 0`, and the stored normal is `n` when `front_face` and
`−n` otherwise. -/
theorem hitRecord_setNormal_spec (h : HitRecord K) (ray : Ray K) (n : Vec3r K) :
    ray.GetDirection.dot (h.SetNormal ray n).normal_ ≤ 0 ∧
    ((h.SetNormal ray n).front_face_ = true ↔ ray.GetDirection.dot n < 0) ∧
    (h.SetNormal ray n).normal_ =
      (if (h.SetNormal ray n).front_face_ = true then n else n.neg) := by
  by_cases hlt : ray.GetDirection.dot n < 0
  · have e : h.SetNormal ray n = { h with front_face_ := true, normal_ := n } := by
      simp [HitRecord.SetNormal, hlt]
    rw [e]
    exact ⟨le_of_lt hlt, ⟨fun _ => hlt, fun _ => rfl⟩, by simp⟩
  · have e : h.SetNormal ray n = { h with front_face_ := false, normal_ := n.neg } := by
      simp [HitRecord.SetNormal, hlt]
    rw [e]
    refine ⟨?_, ⟨fun h1 => by simp at h1, fun h1 => absurd h1 hlt⟩, by simp⟩
    show ray.GetDirection.dot n.neg ≤ 0
    rw [Vec3r.dot_neg_right]
    linarith [not_lt.mp hlt]

/-! ### The cache of a sphere -/

theorem Sphere.calls_append (s : Surface K) (l : List (SphereCall K)) (c : SphereCall K) :
    Sphere.calls s (l ++ [c]) = Sphere.call (Sphere.calls s l) c := by
  simp [Sphere.calls, List.foldl_append]

/-- The box that a forced recompute of a sphere yields. -/
theorem Sphere.forced_box (c : Vec3r K) (r : K) (b : AABB K) (d : Bool) :
    ((Surface.sphere c r b d).GetBoundingBox true).1 =
      (b.Reset).ExpandBy ⟨c.sub ⟨r, r, r⟩, c.add ⟨r, r, r⟩⟩ := by
  simp [Surface.GetBoundingBox]

/-- The state of a sphere is coherent: it is a sphere, and when `bound_dirty_` is
false the cached box is what a forced recompute yields. -/
theorem Sphere.calls_coherent (c0 : Vec3r K) (r0 : K) (l : List (SphereCall K)) :
    ∃ c r b d, Sphere.calls (Sphere.Create c0 r0) l = Surface.sphere c r b d ∧
      (d = false → b = ((Surface.sphere c r b d).GetBoundingBox true).1) := by
  induction l using List.reverseRecOn with
  | nil => exact ⟨c0, r0, AABB.default, true, rfl, fun h => by simp at h⟩
  | append_singleton l call ih =>
    obtain ⟨c, r, b, d, hs, hinv⟩ := ih
    rw [Sphere.calls_append, hs]
    cases call with
    | SetCenter center =>
      exact ⟨center, r, b, true, rfl, fun h => by simp at h⟩
    | SetRadius radius =>
      exact ⟨c, radius, b, true, rfl, fun h => by simp at h⟩
    | GetBoundingBox =>
      cases d with
      | false =>
        refine ⟨c, r, b, false, ?_, hinv⟩
        simp [Sphere.call, Surface.GetBoundingBox]
      | true =>
        refine ⟨c, r, (b.Reset).ExpandBy ⟨c.sub ⟨r, r, r⟩, c.add ⟨r, r, r⟩⟩, false, ?_, ?_⟩
        · simp [Sphere.call, Surface.GetBoundingBox]
        · intro _
          rw [Sphere.forced_box]
          rfl

/-- The box `[c − r, c + r]` is what the recompute yields when the radius is not
negative, the coordinates are finite and none is on the sentinel. -/
theorem Sphere.recompute_eq (c : Vec3r K) (r : K) (b : AABB K) (hr : 0 ≤ r)
    (hv : (⟨c.sub ⟨r, r, r⟩, c.add ⟨r, r, r⟩⟩ : AABB K).IsValid = true)
    (hfin : ∀ i : Fin 3, -kInfinity ≤ c.get i - r ∧ c.get i + r ≤ kInfinity) :
    (b.Reset).ExpandBy ⟨c.sub ⟨r, r, r⟩, c.add ⟨r, r, r⟩⟩ =
      ⟨c.sub ⟨r, r, r⟩, c.add ⟨r, r, r⟩⟩ := by
  apply AABB.reset_expandBy
  refine ⟨hv, ?_⟩
  intro i
  have hsub : (c.sub ⟨r, r, r⟩).get i = c.get i - r := by fin_cases i <;> rfl
  have hadd : (c.add ⟨r, r, r⟩).get i = c.get i + r := by fin_cases i <;> rfl
  simp only [hsub, hadd]
  exact ⟨by linarith, (hfin i).1, (hfin i).2⟩

/-- C14 (amended): for every sequence of `SetCenter`, `SetRadius` and
`GetBoundingBox` calls on a constructed `Sphere`: `SetCenter` and `SetRadius` set
the dirty flag; whenever `bound_dirty_` is false the cached `bbox_` equals what a
forced recompute would yield; and a `GetBoundingBox()` call returns exactly the box
`[center − (r,r,r), center + (r,r,r)]` for the current center and radius when the
radius is not negative, these coordinates are finite and none of them is on the
sentinel (no coordinate of `center − r` is `kInfinity`, none of `center + r` is
`−kInfinity`). -/
theorem sphere_bbox_cache (c0 : Vec3r K) (r0 : K) (l : List (SphereCall K)) :
    (∀ center : Vec3r K,
      (Sphere.SetCenter (Sphere.calls (Sphere.Create c0 r0) l) center).IsBoundDirty = true) ∧
    (∀ radius : K,
      (Sphere.SetRadius (Sphere.calls (Sphere.Create c0 r0) l) radius).IsBoundDirty = true) ∧
    ∃ c r b d, Sphere.calls (Sphere.Create c0 r0) l = Surface.sphere c r b d ∧
      (d = false → b = ((Surface.sphere c r b d).GetBoundingBox true).1) ∧
      (0 ≤ r → (⟨c.sub ⟨r, r, r⟩, c.add ⟨r, r, r⟩⟩ : AABB K).IsValid = true →
        (∀ i : Fin 3, -kInfinity ≤ c.get i - r ∧ c.get i + r ≤ kInfinity) →
        ((Surface.sphere c r b d).GetBoundingBox false).1 =
          ⟨c.sub ⟨r, r, r⟩, c.add ⟨r, r, r⟩⟩) := by
  obtain ⟨c, r, b, d, hs, hinv⟩ := Sphere.calls_coherent c0 r0 l
  rw [hs]
  refine ⟨fun _ => rfl, fun _ => rfl, c, r, b, d, rfl, hinv, ?_⟩
  intro hr hv hfin
  cases d with
  | false =>
    have h1 := hinv rfl
    rw [Sphere.forced_box] at h1
    have h2 : ((Surface.sphere c r b false).GetBoundingBox false).1 = b := by
      simp [Surface.GetBoundingBox]
    rw [h2, h1]
    exact Sphere.recompute_eq c r b hr hv hfin
  | true =>
    have h2 : ((Surface.sphere c r b true).GetBoundingBox false).1 =
        (b.Reset).ExpandBy ⟨c.sub ⟨r, r, r⟩, c.add ⟨r, r, r⟩⟩ := by
      simp [Surface.GetBoundingBox]
    rw [h2]
    exact Sphere.recompute_eq c r b hr hv hfin

theorem sphere_bbox_cache_witness :
    ∃ c r b d, Sphere.calls (Sphere.Create (⟨0, 0, 0⟩ : Vec3r ℚ) 1)
        [SphereCall.SetCenter ⟨1, 2, 3⟩, SphereCall.GetBoundingBox, SphereCall.SetRadius 2] =
        Surface.sphere c r b d ∧
      (d = false → b = ((Surface.sphere c r b d).GetBoundingBox true).1) ∧
      (0 ≤ r → (⟨c.sub ⟨r, r, r⟩, c.add ⟨r, r, r⟩⟩ : AABB ℚ).IsValid = true →
        (∀ i : Fin 3, -kInfinity ≤ c.get i - r ∧ c.get i + r ≤ kInfinity) →
        ((Surface.sphere c r b d).GetBoundingBox false).1 =
          ⟨c.sub ⟨r, r, r⟩, c.add ⟨r, r, r⟩⟩) :=
  (sphere_bbox_cache (⟨0, 0, 0⟩ : Vec3r ℚ) 1
    [SphereCall.SetCenter ⟨1, 2, 3⟩, SphereCall.GetBoundingBox, SphereCall.SetRadius 2]).2.2

/-- C14, as stated, fails on a sphere whose box touches the sentinel: after
`SetCenter((kInfinity, 0, 0))` on the constructed sphere of center `(0,0,0)` and
radius 0, `GetBoundingBox()` returns the reset box (`ExpandBy` ignores the box
`[c − r, c + r]`, whose `min.x` is `kInfinity`), not the box `[c − r, c + r]`. -/
theorem sphere_bbox_cache_sentinel :
    ((Sphere.calls (Sphere.Create (⟨0, 0, 0⟩ : Vec3r ℚ) 0)
        [SphereCall.SetCenter ⟨kInfinity, 0, 0⟩]).GetBoundingBox false).1 = AABB.default ∧
    ((Sphere.calls (Sphere.Create (⟨0, 0, 0⟩ : Vec3r ℚ) 0)
        [SphereCall.SetCenter ⟨kInfinity, 0, 0⟩]).GetBoundingBox false).1 ≠
      ⟨(⟨kInfinity, 0, 0⟩ : Vec3r ℚ).sub ⟨0, 0, 0⟩, (⟨kInfinity, 0, 0⟩ : Vec3r ℚ).add ⟨0, 0, 0⟩⟩ := by
  have h : ((Sphere.calls (Sphere.Create (⟨0, 0, 0⟩ : Vec3r ℚ) 0)
      [SphereCall.SetCenter ⟨kInfinity, 0, 0⟩]).GetBoundingBox false).1 = AABB.default := by
    have e : Sphere.calls (Sphere.Create (⟨0, 0, 0⟩ : Vec3r ℚ) 0)
        [SphereCall.SetCenter ⟨kInfinity, 0, 0⟩] =
        Surface.sphere ⟨kInfinity, 0, 0⟩ 0 AABB.default true := rfl
    rw [e]
    show (Surface.sphere (⟨kInfinity, 0, 0⟩ : Vec3r ℚ) 0 AABB.default true).box = AABB.default
    rw [Surface.box_sphere_dirty, AABB.expandBy_invalid]
    · rfl
    · rw [← Bool.not_eq_true, AABB.isValid_iff]
      simp [Vec3r.sub]
  refine ⟨h, ?_⟩
  rw [h]
  intro h2
  have h3 := congrArg (fun b : AABB ℚ => b.max_.x) h2
  simp [AABB.default, Vec3r.add] at h3
  have hk : (0 : ℚ) < kInfinity := kInfinity_pos
  linarith

/-! ## operator*: the box of a transformed box -/

theorem CMath.rat_pow_five (x : ℚ) : CMath.rat.pow x 5 = x ^ 5 := by
  show x ^ (Int.toNat ⌊(5 : ℚ)⌋) = x ^ 5
  have h : ⌊(5 : ℚ)⌋ = 5 := by
    simp
  rw [h]
  rfl

/-- Schlick's reflectance lies in `[0, 1]` for a positive ratio and a cosine in
`[0, 1]`. -/
theorem PhongDielectric.schlick_bounds (C : CMath K) (cos_theta n1 n2 : K)
    (h1 : 0 < n1) (h2 : 0 < n2) (hc0 : 0 ≤ cos_theta) (hc1 : cos_theta ≤ 1)
    (hpow : C.pow (1 - cos_theta) 5 = (1 - cos_theta) ^ 5) :
    0 ≤ PhongDielectric.SchlicksReflectance C cos_theta n1 n2 ∧
      PhongDielectric.SchlicksReflectance C cos_theta n1 n2 ≤ 1 := by
  simp only [PhongDielectric.SchlicksReflectance, hpow]
  have hq : 0 < n1 / n2 := div_pos h1 h2
  set q := (1 - n1 / n2) / (1 + n1 / n2) with hqdef
  have hden : 0 < 1 + n1 / n2 := by linarith
  have hq1 : q ≤ 1 := by
    rw [hqdef, div_le_one hden]; linarith
  have hq2 : -1 ≤ q := by
    rw [hqdef, le_div_iff₀ hden]; linarith
  have hr0 : 0 ≤ q * q := mul_self_nonneg q
  have hr1 : q * q ≤ 1 := by nlinarith
  have hx0 : 0 ≤ (1 - cos_theta) ^ 5 := pow_nonneg (by linarith) 5
  have hx1 : (1 - cos_theta) ^ 5 ≤ 1 := pow_le_one₀ (by linarith) (by linarith)
  constructor
  · have : 0 ≤ (1 - q * q) * (1 - cos_theta) ^ 5 := mul_nonneg (by linarith) hx0
    linarith
  · have : (1 - q * q) * (1 - cos_theta) ^ 5 ≤ (1 - q * q) * 1 :=
      mul_le_mul_of_nonneg_left hx1 (by linarith)
    linarith

theorem PhongDielectric.scatter_solid (C : CMath K) (m : PhongDielectric K)
    (hit_record : HitRecord K) (ray_in : Ray K) (reflect_ray refract_ray : Option (Ray K))
    (schlick_reflectance : K) (color gain bias : Vec3r K)
    (hsolid : m.diffuse_ = Texture.solid color gain bias) :
    PhongDielectric.Scatter C m hit_record ray_in reflect_ray refract_ray schlick_reflectance =
      some ⟨color, some (Ray.Reflect ray_in hit_record.point_ hit_record.normal_),
        (if !PhongDielectric.reflectOnly C m hit_record ray_in
          then some (Ray.Refract C.toMathFns ray_in hit_record.point_ hit_record.normal_
            (if !hit_record.front_face_ then m.ior_ else 1)
            (if !hit_record.front_face_ then 1 else m.ior_))
          else refract_ray),
        (if PhongDielectric.reflectOnly C m hit_record ray_in then 1
          else PhongDielectric.SchlicksReflectance C
            (PhongDielectric.cosTheta C hit_record ray_in)
            (if !hit_record.front_face_ then m.ior_ else 1)
            (if !hit_record.front_face_ then 1 else m.ior_))⟩ := by
  simp only [PhongDielectric.Scatter, hsolid]

/-- The cosine that `Scatter` computes lies in `[0, 1]` when the normal opposes the
ray. -/
theorem PhongDielectric.cosTheta_bounds (C : CMath K) (hit_record : HitRecord K) (ray_in : Ray K)
    (hsqrt : 0 ≤ C.sqrt ray_in.GetDirection.squaredNorm)
    (hopp : ray_in.GetDirection.dot hit_record.normal_ ≤ 0) :
    0 ≤ PhongDielectric.cosTheta C hit_record ray_in ∧
      PhongDielectric.cosTheta C hit_record ray_in ≤ 1 := by
  simp only [PhongDielectric.cosTheta]
  refine ⟨le_min ?_ (by norm_num), min_le_right _ _⟩
  have hneg : ∀ a b : Vec3r K, a.neg.dot b = -(a.dot b) := by
    intro a b
    simp only [Vec3r.dot, Vec3r.neg]
    ring
  rw [hneg]
  simp only [Vec3r.normalized]
  split_ifs with hz
  · have hd : (ray_in.GetDirection.sdiv (C.sqrt ray_in.GetDirection.squaredNorm)).dot
        hit_record.normal_ =
        ray_in.GetDirection.dot hit_record.normal_ / C.sqrt ray_in.GetDirection.squaredNorm := by
      simp only [Vec3r.dot, Vec3r.sdiv]
      ring
    rw [hd]
    have := div_nonpos_of_nonpos_of_nonneg hopp hsqrt
    linarith
  · linarith

/-- C15: for a dielectric whose `diffuse_` is a `SolidTexture` (as both constructors
make it), every hit record and every incoming ray, `Scatter` returns and sets
`reflect_ray` to the ray `Ray::Reflect(ray_in, point, normal)`, which starts at the hit
point with direction `d − 2 (n·d) n`.  It sets `refract_ray` (null before the call) to
non-null exactly when total internal reflection does not occur, that is when
`sin_theta · ior_in / ior_out ≤ 1`, where `(ior_in, ior_out)` is `(1, ior)` on a front
face and `(ior, 1)` otherwise; then it is `Ray::Refract` of these values.  Under total
internal reflection `schlick_reflectance` is set to `1`. -/
theorem dielectric_scatter_rays (C : CMath K) (m : PhongDielectric K)
    (hit_record : HitRecord K) (ray_in : Ray K) (reflect_ray : Option (Ray K))
    (schlick_reflectance : K) (color gain bias : Vec3r K)
    (hsolid : m.diffuse_ = Texture.solid color gain bias) :
    ∃ res, PhongDielectric.Scatter C m hit_record ray_in reflect_ray none schlick_reflectance =
        some res ∧
      res.reflect_ray = some (Ray.Reflect ray_in hit_record.point_ hit_record.normal_) ∧
      (Ray.Reflect ray_in hit_record.point_ hit_record.normal_).origin_ = hit_record.point_ ∧
      (Ray.Reflect ray_in hit_record.point_ hit_record.normal_).dir_ =
        ray_in.dir_.sub
          (Vec3r.smul (2 * hit_record.normal_.dot ray_in.dir_) hit_record.normal_) ∧
      (res.refract_ray ≠ none ↔
        C.sqrt (1 - PhongDielectric.cosTheta C hit_record ray_in *
            PhongDielectric.cosTheta C hit_record ray_in) *
          (if hit_record.front_face_ = true then 1 else m.ior_) /
          (if hit_record.front_face_ = true then m.ior_ else 1) ≤ 1) ∧
      (res.refract_ray ≠ none →
        res.refract_ray = some (Ray.Refract C.toMathFns ray_in hit_record.point_
          hit_record.normal_ (if hit_record.front_face_ = true then 1 else m.ior_)
          (if hit_record.front_face_ = true then m.ior_ else 1))) ∧
      (res.refract_ray = none → res.schlick_reflectance = 1) := by
  refine ⟨_, PhongDielectric.scatter_solid C m hit_record ray_in reflect_ray none
    schlick_reflectance color gain bias hsolid, rfl, rfl, rfl, ?_, ?_, ?_⟩
  · simp only [PhongDielectric.reflectOnly]
    by_cases hf : hit_record.front_face_ = true <;> simp [hf]
  · simp only [PhongDielectric.reflectOnly]
    by_cases hf : hit_record.front_face_ = true <;> simp [hf]
  · simp only [PhongDielectric.reflectOnly]
    by_cases hf : hit_record.front_face_ = true <;> simp [hf] <;>
      exact fun h1 h2 => absurd h2 (not_le.mpr h1)

theorem CMath.rat_sqrt (q : ℚ) : CMath.rat.sqrt q = MathFns.rat.sqrt q := rfl

theorem CMath.rat_toMathFns : CMath.rat.toMathFns = MathFns.rat := rfl

theorem dielectric_scatter_rays_witness :
    ∃ res, PhongDielectric.Scatter CMath.rat (PhongDielectric.Create (3 / 2) ⟨1, 1, 1⟩)
        ⟨1, ⟨0, 0, 0⟩, ⟨0, 0, 1⟩, true, Surface.null, ⟨0, ⟨0, 0⟩, ⟨0, 0⟩⟩⟩
        ⟨⟨0, 0, 1⟩, ⟨0, 0, -1⟩⟩ none none 0 = some res ∧
      res.reflect_ray = some ⟨⟨0, 0, 0⟩, ⟨0, 0, 1⟩⟩ ∧ res.refract_ray ≠ none := by
  obtain ⟨res, h1, h2, _, _, h5, _, _⟩ :=
    dielectric_scatter_rays CMath.rat (PhongDielectric.Create (3 / 2) ⟨1, 1, 1⟩)
      ⟨1, ⟨0, 0, 0⟩, ⟨0, 0, 1⟩, true, Surface.null, ⟨0, ⟨0, 0⟩, ⟨0, 0⟩⟩⟩
      ⟨⟨0, 0, 1⟩, ⟨0, 0, -1⟩⟩ none 0 ⟨1, 1, 1⟩ ⟨1, 1, 1⟩ ⟨0, 0, 0⟩ rfl
  refine ⟨res, h1, ?_, h5.mpr ?_⟩
  · rw [h2]
    simp only [Ray.Reflect, Ray.GetDirection, Vec3r.sub, Vec3r.smul, Vec3r.dot]
    norm_num
  · have hc : PhongDielectric.cosTheta CMath.rat
        (⟨1, ⟨0, 0, 0⟩, ⟨0, 0, 1⟩, true, Surface.null, ⟨0, ⟨0, 0⟩, ⟨0, 0⟩⟩⟩ : HitRecord ℚ)
        ⟨⟨0, 0, 1⟩, ⟨0, 0, -1⟩⟩ = 1 := by
      simp only [PhongDielectric.cosTheta, Ray.GetDirection, Vec3r.normalized,
        Vec3r.squaredNorm, Vec3r.dot, Vec3r.neg, Vec3r.sdiv, CMath.rat_toMathFns]
      norm_num [MathFns.rat_sqrt_one]
    rw [hc]
    norm_num [CMath.rat_sqrt, MathFns.rat_sqrt_zero, PhongDielectric.Create]

/-- C16: for a dielectric with `ior_ > 0` whose `diffuse_` is a `SolidTexture`, an
incoming ray and a normal opposing it (`dir · normal ≤ 0`), with `sqrt` non-negative
and `pow(x, 5)` the fifth power of `x = 1 − cos_theta`: `Scatter` returns and the
`schlick_reflectance` it sets lies in `[0, 1]`. -/
theorem dielectric_scatter_schlick_range (C : CMath K) (m : PhongDielectric K)
    (hit_record : HitRecord K) (ray_in : Ray K) (reflect_ray refract_ray : Option (Ray K))
    (schlick_reflectance : K) (color gain bias : Vec3r K)
    (hsolid : m.diffuse_ = Texture.solid color gain bias)
    (hior : 0 < m.ior_)
    (hopp : ray_in.GetDirection.dot hit_record.normal_ ≤ 0)
    (hsqrt : 0 ≤ C.sqrt ray_in.GetDirection.squaredNorm)
    (hpow : C.pow (1 - PhongDielectric.cosTheta C hit_record ray_in) 5 =
      (1 - PhongDielectric.cosTheta C hit_record ray_in) ^ 5) :
    ∃ res, PhongDielectric.Scatter C m hit_record ray_in reflect_ray refract_ray
        schlick_reflectance = some res ∧
      0 ≤ res.schlick_reflectance ∧ res.schlick_reflectance ≤ 1 := by
  refine ⟨_, PhongDielectric.scatter_solid C m hit_record ray_in reflect_ray refract_ray
    schlick_reflectance color gain bias hsolid, ?_⟩
  obtain ⟨hc0, hc1⟩ := PhongDielectric.cosTheta_bounds C hit_record ray_in hsqrt hopp
  show 0 ≤ (if PhongDielectric.reflectOnly C m hit_record ray_in then (1 : K) else _) ∧
    (if PhongDielectric.reflectOnly C m hit_record ray_in then (1 : K) else _) ≤ 1
  split_ifs with hr hf
  · exact ⟨zero_le_one, le_refl 1⟩
  · exact PhongDielectric.schlick_bounds C _ m.ior_ 1 hior zero_lt_one hc0 hc1 hpow
  · exact PhongDielectric.schlick_bounds C _ 1 m.ior_ zero_lt_one hior hc0 hc1 hpow

theorem dielectric_scatter_schlick_range_witness :
    ∃ res, PhongDielectric.Scatter CMath.rat (PhongDielectric.Create (3 / 2) ⟨1, 1, 1⟩)
        ⟨1, ⟨0, 0, 0⟩, ⟨0, 0, 1⟩, true, Surface.null, ⟨0, ⟨0, 0⟩, ⟨0, 0⟩⟩⟩
        ⟨⟨0, 0, 1⟩, ⟨0, 0, -1⟩⟩ none none 0 = some res ∧
      0 ≤ res.schlick_reflectance ∧ res.schlick_reflectance ≤ 1 :=
  dielectric_scatter_schlick_range CMath.rat (PhongDielectric.Create (3 / 2) ⟨1, 1, 1⟩)
    ⟨1, ⟨0, 0, 0⟩, ⟨0, 0, 1⟩, true, Surface.null, ⟨0, ⟨0, 0⟩, ⟨0, 0⟩⟩⟩
    ⟨⟨0, 0, 1⟩, ⟨0, 0, -1⟩⟩ none none 0 ⟨1, 1, 1⟩ ⟨1, 1, 1⟩ ⟨0, 0, 0⟩ rfl
    (by norm_num [PhongDielectric.Create])
    (by simp only [Ray.GetDirection, Vec3r.dot]; norm_num)
    (by
      simp only [Ray.GetDirection, Vec3r.squaredNorm, Vec3r.dot, CMath.rat_sqrt]
      norm_num [MathFns.rat_sqrt_one])
    (CMath.rat_pow_five _)

/-! ## PointLight::Illuminate -/

/-- C18: if `scene->Hit` reports a hit for the shadow ray with origin at the hit
point and direction `position − point` on the parameter range `[kEpsilon, 1]`, then
`PointLight::Illuminate` returns `(0, 0, 0)`, whatever the material, the view vector
and the light's intensity. -/
theorem pointLight_occluded_black (C : CMath K) (GetMaterial : Surface K → Material K)
    (light : PointLight K) (hit_record : HitRecord K) (view_vec : Vec3r K) (scene : Surface K)
    (hocc : (scene.Hit C.toMathFns ⟨hit_record.point_, light.position_.sub hit_record.point_⟩
      kEpsilon 1 HitRecord.default).1 = true) :
    PointLight.Illuminate C GetMaterial light hit_record view_vec scene = some ⟨0, 0, 0⟩ := by
  have hnn : scene.isNull = false := by
    cases hs : scene.isNull
    · rfl
    · rw [Surface.hit_null _ scene hs] at hocc
      exact absurd hocc (by simp)
  simp only [PointLight.Illuminate, hnn, hocc, Bool.false_eq_true, if_false, if_true]

theorem pointLight_occluded_black_witness :
    PointLight.Illuminate CMath.rat (fun _ => Material.phong
        ⟨⟨0, 0, 0⟩, SolidTexture.Create ⟨1, 1, 1⟩, ⟨0, 0, 0⟩, 1, ⟨0, 0, 0⟩⟩)
      ⟨⟨0, 0, 10⟩, ⟨1, 1, 1⟩⟩
      ⟨1, ⟨0, 0, 0⟩, ⟨0, 0, 1⟩, true, Surface.base AABB.default true, ⟨0, ⟨0, 0⟩, ⟨0, 0⟩⟩⟩
      ⟨0, 0, 1⟩ (Surface.sphere ⟨0, 0, 5⟩ 1 AABB.default true) = some ⟨0, 0, 0⟩ :=
  pointLight_occluded_black CMath.rat _ ⟨⟨0, 0, 10⟩, ⟨1, 1, 1⟩⟩
    ⟨1, ⟨0, 0, 0⟩, ⟨0, 0, 1⟩, true, Surface.base AABB.default true, ⟨0, ⟨0, 0⟩, ⟨0, 0⟩⟩⟩
    ⟨0, 0, 1⟩ (Surface.sphere ⟨0, 0, 5⟩ 1 AABB.default true)
    (by
      have hd : Sphere.discriminant (⟨0, 0, 5⟩ : Vec3r ℚ) 1
          ⟨⟨0, 0, 0⟩, (⟨0, 0, 10⟩ : Vec3r ℚ).sub ⟨0, 0, 0⟩⟩ = 20 * 20 := by
        simp only [Sphere.discriminant, Ray.GetOrigin, Ray.GetDirection, Vec3r.sub, Vec3r.dot,
          Vec3r.squaredNorm]
        norm_num
      have ht : Sphere.chosenT MathFns.rat (⟨0, 0, 5⟩ : Vec3r ℚ) 1
          ⟨⟨0, 0, 0⟩, (⟨0, 0, 10⟩ : Vec3r ℚ).sub ⟨0, 0, 0⟩⟩ kEpsilon = 2 / 5 := by
        simp only [Sphere.chosenT, hd, MathFns.rat_sqrt_sq 20 (by norm_num)]
        simp only [Ray.GetOrigin, Ray.GetDirection, Vec3r.sub, Vec3r.dot, Vec3r.squaredNorm,
          kEpsilon]
        norm_num
      show (Sphere.Hit MathFns.rat _ ⟨0, 0, 5⟩ 1 _ kEpsilon 1 HitRecord.default).1 = true
      rw [Sphere.hit_true_iff, ht, hd]
      refine ⟨by norm_num, ?_, by norm_num⟩
      simp only [kEpsilon]
      norm_num)

/-- The value of `PointLight::Illuminate` on an unoccluded hit with a Phong
material. -/
theorem PointLight.illuminate_unoccluded (C : CMath K) (GetMaterial : Surface K → Material K)
    (light : PointLight K) (hit_record : HitRecord K) (view_vec : Vec3r K) (scene : Surface K)
    (phong_material : PhongMaterial K)
    (hscene : scene.isNull = false)
    (hunocc : (scene.Hit C.toMathFns ⟨hit_record.point_, light.position_.sub hit_record.point_⟩
      kEpsilon 1 HitRecord.default).1 = false)
    (hsurf : hit_record.surface_.isNull = false)
    (hmat : (GetMaterial hit_record.surface_).asPhong = some phong_material) :
    PointLight.Illuminate C GetMaterial light hit_record view_vec scene =
      some (PointLight.specRadiance C kEpsilon2 light phong_material hit_record view_vec
        ((light.position_.sub hit_record.point_).normalized C.toMathFns)) := by
  simp only [PointLight.Illuminate, hscene, hunocc, hsurf, hmat, Bool.false_eq_true, if_false,
    PointLight.specRadiance]

/-- C19 (amended): for every unoccluded hit on a surface with a Phong material,
`PointLight::Illuminate` returns
`(intensity · max(0, N·L) / max(kEpsilon2, d²)) ⊙ material.Evaluate(hit, L, view)`, where
`L` is the normalized vector from the hit point to the light (a unit vector when
`d² > 0` and `sqrt` is exact on `d²`) and `d²` is the squared distance to the light.
The floor of the denominator is the separate constant `kEpsilon2`, which is
`100 · kEpsilon²` and not the square of `kEpsilon`. -/
theorem pointLight_unoccluded_radiance (C : CMath K) (GetMaterial : Surface K → Material K)
    (light : PointLight K) (hit_record : HitRecord K) (view_vec : Vec3r K) (scene : Surface K)
    (phong_material : PhongMaterial K)
    (hscene : scene.isNull = false)
    (hunocc : (scene.Hit C.toMathFns ⟨hit_record.point_, light.position_.sub hit_record.point_⟩
      kEpsilon 1 HitRecord.default).1 = false)
    (hsurf : hit_record.surface_.isNull = false)
    (hmat : (GetMaterial hit_record.surface_).asPhong = some phong_material) :
    PointLight.Illuminate C GetMaterial light hit_record view_vec scene =
        some (PointLight.specRadiance C kEpsilon2 light phong_material hit_record view_vec
          ((light.position_.sub hit_record.point_).normalized C.toMathFns)) ∧
      (0 < (light.position_.sub hit_record.point_).squaredNorm →
        C.sqrt (light.position_.sub hit_record.point_).squaredNorm *
            C.sqrt (light.position_.sub hit_record.point_).squaredNorm =
          (light.position_.sub hit_record.point_).squaredNorm →
        ((light.position_.sub hit_record.point_).normalized C.toMathFns).squaredNorm = 1) ∧
      (kEpsilon2 : K) = 100 * (kEpsilon * kEpsilon) := by
  refine ⟨PointLight.illuminate_unoccluded C GetMaterial light hit_record view_vec scene
    phong_material hscene hunocc hsurf hmat, ?_, ?_⟩
  · intro hpos hs
    have h0 : C.sqrt (light.position_.sub hit_record.point_).squaredNorm ≠ 0 := by
      intro h
      rw [h, mul_zero] at hs
      exact absurd hs.symm (ne_of_gt hpos)
    simp only [Vec3r.normalized, gt_iff_lt, hpos, if_true]
    exact Vec3r.squaredNorm_sdiv _ _ hs h0
  · simp only [kEpsilon2, kEpsilon]
    norm_num

/-- The shadow ray from the point `(0,0,0)` of the sphere with center `(−1,0,0)` and
radius 1 to a light at `(a, 0, 0)`, `a > 0`, does not hit the sphere on
`[kEpsilon, 1]`. -/
theorem PointLight.example_unoccluded (a : ℚ) (ha : 0 < a) :
    ((Surface.sphere ⟨-1, 0, 0⟩ 1 AABB.default true : Surface ℚ).Hit CMath.rat.toMathFns
      ⟨⟨0, 0, 0⟩, (⟨a, 0, 0⟩ : Vec3r ℚ).sub ⟨0, 0, 0⟩⟩ kEpsilon 1
      HitRecord.default).1 = false := by
  have hd : Sphere.discriminant (⟨-1, 0, 0⟩ : Vec3r ℚ) 1
      ⟨⟨0, 0, 0⟩, (⟨a, 0, 0⟩ : Vec3r ℚ).sub ⟨0, 0, 0⟩⟩ = (2 * a) * (2 * a) := by
    simp only [Sphere.discriminant, Ray.GetOrigin, Ray.GetDirection, Vec3r.sub, Vec3r.dot,
      Vec3r.squaredNorm]
    ring
  have ht : Sphere.chosenT MathFns.rat (⟨-1, 0, 0⟩ : Vec3r ℚ) 1
      ⟨⟨0, 0, 0⟩, (⟨a, 0, 0⟩ : Vec3r ℚ).sub ⟨0, 0, 0⟩⟩ kEpsilon = 0 := by
    simp only [Sphere.chosenT, hd, MathFns.rat_sqrt_sq (2 * a) (by linarith)]
    simp only [Ray.GetOrigin, Ray.GetDirection, Vec3r.sub, Vec3r.dot, Vec3r.squaredNorm,
      kEpsilon]
    have hneg : (-(2 * ((0 - -1) * (a - 0) + (0 - 0) * (0 - 0) + (0 - 0) * (0 - 0))) - 2 * a) /
        (2 * ((a - 0) * (a - 0) + (0 - 0) * (0 - 0) + (0 - 0) * (0 - 0))) < 1 / 10 ^ 8 := by
      have h1 : (-(2 * ((0 - -1) * (a - 0) + (0 - 0) * (0 - 0) + (0 - 0) * (0 - 0))) - 2 * a) /
          (2 * ((a - 0) * (a - 0) + (0 - 0) * (0 - 0) + (0 - 0) * (0 - 0))) = -(2 / a) := by
        field_simp
        ring
      rw [h1]
      have : 0 < 2 / a := div_pos (by norm_num) ha
      have h2 : (0 : ℚ) < 1 / 10 ^ 8 := by norm_num
      linarith
    rw [if_pos hneg]
    simp
  rw [← Bool.not_eq_true]
  show ¬ (Sphere.Hit MathFns.rat _ ⟨-1, 0, 0⟩ 1 _ kEpsilon 1 HitRecord.default).1 = true
  rw [Sphere.hit_true_iff, ht]
  rintro ⟨_, h, _⟩
  simp only [kEpsilon] at h
  norm_num at h

/-- C19, as stated, fails for a light closer than `10⁻⁷` to the hit point.  The hit is
the point `(0,0,0)` of the sphere with center `(−1,0,0)` and radius 1, normal
`(1,0,0)`, matte white material; the light is at `(1/10^8, 0, 0)` with intensity
`(1,1,1)`; the shadow ray does not hit the sphere.  Here `d² = 10⁻¹⁶ = kEpsilon²`,
`L = (1,0,0)`, and the code returns `(10¹⁴, 10¹⁴, 10¹⁴)` (denominator `kEpsilon2`),
where the formula with the floor `kEpsilon²` gives `(10¹⁶, 10¹⁶, 10¹⁶)`. -/
theorem pointLight_floor_not_kEpsilon_sq :
    ((Surface.sphere ⟨-1, 0, 0⟩ 1 AABB.default true : Surface ℚ).Hit CMath.rat.toMathFns
      ⟨⟨0, 0, 0⟩, (⟨1 / 10 ^ 8, 0, 0⟩ : Vec3r ℚ).sub ⟨0, 0, 0⟩⟩ kEpsilon 1
      HitRecord.default).1 = false ∧
    PointLight.Illuminate CMath.rat (fun _ => Material.phong PhongMaterial.exampleMatte)
      ⟨⟨1 / 10 ^ 8, 0, 0⟩, ⟨1, 1, 1⟩⟩
      ⟨1, ⟨0, 0, 0⟩, ⟨1, 0, 0⟩, true, Surface.sphere ⟨-1, 0, 0⟩ 1 AABB.default true,
        ⟨0, ⟨0, 0⟩, ⟨0, 0⟩⟩⟩
      ⟨1, 0, 0⟩ (Surface.sphere ⟨-1, 0, 0⟩ 1 AABB.default true) =
        some ⟨10 ^ 14, 10 ^ 14, 10 ^ 14⟩ ∧
    PointLight.specRadiance CMath.rat (kEpsilon * kEpsilon) ⟨⟨1 / 10 ^ 8, 0, 0⟩, ⟨1, 1, 1⟩⟩
      PhongMaterial.exampleMatte
      ⟨1, ⟨0, 0, 0⟩, ⟨1, 0, 0⟩, true, Surface.sphere ⟨-1, 0, 0⟩ 1 AABB.default true,
        ⟨0, ⟨0, 0⟩, ⟨0, 0⟩⟩⟩
      ⟨1, 0, 0⟩ ⟨1, 0, 0⟩ = ⟨10 ^ 16, 10 ^ 16, 10 ^ 16⟩ := by
  have hz : ((⟨1 / 10 ^ 8, 0, 0⟩ : Vec3r ℚ).sub ⟨0, 0, 0⟩).squaredNorm =
      (1 / 10 ^ 8) * (1 / 10 ^ 8) := by
    simp only [Vec3r.sub, Vec3r.squaredNorm]
    norm_num
  have hL : ((⟨1 / 10 ^ 8, 0, 0⟩ : Vec3r ℚ).sub ⟨0, 0, 0⟩).normalized CMath.rat.toMathFns =
      ⟨1, 0, 0⟩ := by
    simp only [Vec3r.normalized, hz, CMath.rat_toMathFns,
      MathFns.rat_sqrt_sq (1 / 10 ^ 8) (by norm_num)]
    simp only [Vec3r.sub, Vec3r.sdiv]
    norm_num
  have hE : PhongMaterial.Evaluate CMath.rat PhongMaterial.exampleMatte
      ⟨1, ⟨0, 0, 0⟩, ⟨1, 0, 0⟩, true, Surface.sphere ⟨-1, 0, 0⟩ 1 AABB.default true,
        ⟨0, ⟨0, 0⟩, ⟨0, 0⟩⟩⟩ ⟨1, 0, 0⟩ ⟨1, 0, 0⟩ = ⟨1, 1, 1⟩ := by
    simp only [PhongMaterial.Evaluate, PhongMaterial.exampleMatte, SolidTexture.Create,
      Texture.isNull, Texture.Value, Vec3r.smul, Vec3r.add, Vec3r.cwiseProduct]
    norm_num
  refine ⟨PointLight.example_unoccluded _ (by norm_num), ?_, ?_⟩
  · rw [PointLight.illuminate_unoccluded CMath.rat
      (fun _ => Material.phong PhongMaterial.exampleMatte) ⟨⟨1 / 10 ^ 8, 0, 0⟩, ⟨1, 1, 1⟩⟩
      ⟨1, ⟨0, 0, 0⟩, ⟨1, 0, 0⟩, true, Surface.sphere ⟨-1, 0, 0⟩ 1 AABB.default true,
        ⟨0, ⟨0, 0⟩, ⟨0, 0⟩⟩⟩
      ⟨1, 0, 0⟩ (Surface.sphere ⟨-1, 0, 0⟩ 1 AABB.default true) PhongMaterial.exampleMatte rfl
      (PointLight.example_unoccluded _ (by norm_num)) rfl rfl]
    simp only [PointLight.specRadiance, hL, hE, hz]
    simp only [Vec3r.muls, Vec3r.sdiv, Vec3r.cwiseProduct, Vec3r.dot, kEpsilon2]
    norm_num
  · simp only [PointLight.specRadiance, hE, hz]
    simp only [Vec3r.muls, Vec3r.sdiv, Vec3r.cwiseProduct, Vec3r.dot, kEpsilon]
    norm_num

theorem pointLight_unoccluded_radiance_witness :
    PointLight.Illuminate CMath.rat (fun _ => Material.phong PhongMaterial.exampleMatte)
      ⟨⟨2, 0, 0⟩, ⟨1, 1, 1⟩⟩
      ⟨1, ⟨0, 0, 0⟩, ⟨1, 0, 0⟩, true, Surface.sphere ⟨-1, 0, 0⟩ 1 AABB.default true,
        ⟨0, ⟨0, 0⟩, ⟨0, 0⟩⟩⟩
      ⟨1, 0, 0⟩ (Surface.sphere ⟨-1, 0, 0⟩ 1 AABB.default true) =
        some ⟨1 / 4, 1 / 4, 1 / 4⟩ := by
  have hz : ((⟨2, 0, 0⟩ : Vec3r ℚ).sub ⟨0, 0, 0⟩).squaredNorm = 2 * 2 := by
    simp only [Vec3r.sub, Vec3r.squaredNorm]
    norm_num
  have hL : ((⟨2, 0, 0⟩ : Vec3r ℚ).sub ⟨0, 0, 0⟩).normalized CMath.rat.toMathFns =
      ⟨1, 0, 0⟩ := by
    simp only [Vec3r.normalized, hz, CMath.rat_toMathFns, MathFns.rat_sqrt_sq 2 (by norm_num)]
    simp only [Vec3r.sub, Vec3r.sdiv]
    norm_num
  have hE : PhongMaterial.Evaluate CMath.rat PhongMaterial.exampleMatte
      ⟨1, ⟨0, 0, 0⟩, ⟨1, 0, 0⟩, true, Surface.sphere ⟨-1, 0, 0⟩ 1 AABB.default true,
        ⟨0, ⟨0, 0⟩, ⟨0, 0⟩⟩⟩ ⟨1, 0, 0⟩ ⟨1, 0, 0⟩ = ⟨1, 1, 1⟩ := by
    simp only [PhongMaterial.Evaluate, PhongMaterial.exampleMatte, SolidTexture.Create,
      Texture.isNull, Texture.Value, Vec3r.smul, Vec3r.add, Vec3r.cwiseProduct]
    norm_num
  rw [(pointLight_unoccluded_radiance CMath.rat
    (fun _ => Material.phong PhongMaterial.exampleMatte) ⟨⟨2, 0, 0⟩, ⟨1, 1, 1⟩⟩
    ⟨1, ⟨0, 0, 0⟩, ⟨1, 0, 0⟩, true, Surface.sphere ⟨-1, 0, 0⟩ 1 AABB.default true,
      ⟨0, ⟨0, 0⟩, ⟨0, 0⟩⟩⟩
    ⟨1, 0, 0⟩ (Surface.sphere ⟨-1, 0, 0⟩ 1 AABB.default true) PhongMaterial.exampleMatte rfl
    (PointLight.example_unoccluded 2 (by norm_num)) rfl rfl).1]
  simp only [PointLight.specRadiance, hL, hE, hz]
  simp only [Vec3r.muls, Vec3r.sdiv, Vec3r.cwiseProduct, Vec3r.dot, kEpsilon2]
  norm_num

/-! ## AreaLight::Illuminate -/

/-- C20: the code multiplies `rgb_` by `−L·direction` without the clamp `max(0, ·)`.
The hit is the point `(0,0,0)` of the sphere with center `(0,0,−1)` and radius 1, normal
`(0,0,1)`, matte white material; the area light `AreaLight.exampleUpward` lies above
it and emits upward, away from the hit; `std::rand()` returns 0, so the one sample is at
`(0,0,1)` and is not occluded.  Then `−L·direction = −1 < 0`, and
`AreaLight::Illuminate` returns `(−1, −1, −1)` where a clamped falloff gives
`(0, 0, 0)`. -/
theorem areaLight_unclamped_falloff :
    AreaLight.samplePosition 32767 AreaLight.exampleUpward ⟨0, 0, 1⟩ 0 0 = ⟨0, 0, 1⟩ ∧
    ((Surface.sphere ⟨0, 0, -1⟩ 1 AABB.default true : Surface ℚ).Hit CMath.rat.toMathFns
      ⟨⟨0, 0, 0⟩, (⟨0, 0, 1⟩ : Vec3r ℚ).sub ⟨0, 0, 0⟩⟩ kEpsilon 1
      HitRecord.default).1 = false ∧
    -((((⟨0, 0, 1⟩ : Vec3r ℚ).sub ⟨0, 0, 0⟩).normalized CMath.rat.toMathFns).dot
      AreaLight.exampleUpward.direction_) = -1 ∧
    AreaLight.Illuminate CMath.rat (fun _ => Material.phong PhongMaterial.exampleMatte)
      32767 (fun _ => 0) 0 AreaLight.exampleUpward
      ⟨1, ⟨0, 0, 0⟩, ⟨0, 0, 1⟩, true, Surface.sphere ⟨0, 0, -1⟩ 1 AABB.default true,
        ⟨0, ⟨0, 0⟩, ⟨0, 0⟩⟩⟩
      ⟨0, 0, 1⟩ (Surface.sphere ⟨0, 0, -1⟩ 1 AABB.default true) = some ⟨-1, -1, -1⟩ := by
  have hs : AreaLight.samplePosition 32767 AreaLight.exampleUpward ⟨0, 0, 1⟩ 0 0 =
      ⟨0, 0, 1⟩ := by
    simp only [AreaLight.samplePosition, AreaLight.exampleUpward, Vec3r.add, Vec3r.muls,
      Vec3r.sdiv]
    norm_num
  have hd : Sphere.discriminant (⟨0, 0, -1⟩ : Vec3r ℚ) 1
      ⟨⟨0, 0, 0⟩, (⟨0, 0, 1⟩ : Vec3r ℚ).sub ⟨0, 0, 0⟩⟩ = 2 * 2 := by
    simp only [Sphere.discriminant, Ray.GetOrigin, Ray.GetDirection, Vec3r.sub, Vec3r.dot,
      Vec3r.squaredNorm]
    norm_num
  have ht : Sphere.chosenT MathFns.rat (⟨0, 0, -1⟩ : Vec3r ℚ) 1
      ⟨⟨0, 0, 0⟩, (⟨0, 0, 1⟩ : Vec3r ℚ).sub ⟨0, 0, 0⟩⟩ kEpsilon = 0 := by
    simp only [Sphere.chosenT, hd, MathFns.rat_sqrt_sq 2 (by norm_num)]
    simp only [Ray.GetOrigin, Ray.GetDirection, Vec3r.sub, Vec3r.dot, Vec3r.squaredNorm,
      kEpsilon]
    norm_num
  have hu : ((Surface.sphere ⟨0, 0, -1⟩ 1 AABB.default true : Surface ℚ).Hit
      CMath.rat.toMathFns ⟨⟨0, 0, 0⟩, (⟨0, 0, 1⟩ : Vec3r ℚ).sub ⟨0, 0, 0⟩⟩ kEpsilon 1
      HitRecord.default).1 = false := by
    rw [← Bool.not_eq_true]
    show ¬ (Sphere.Hit MathFns.rat _ ⟨0, 0, -1⟩ 1 _ kEpsilon 1 HitRecord.default).1 = true
    rw [Sphere.hit_true_iff, ht]
    rintro ⟨_, h, _⟩
    simp only [kEpsilon] at h
    norm_num at h
  have hz : ((⟨0, 0, 1⟩ : Vec3r ℚ).sub ⟨0, 0, 0⟩).squaredNorm = 1 * 1 := by
    simp only [Vec3r.sub, Vec3r.squaredNorm]
    norm_num
  have hL : ((⟨0, 0, 1⟩ : Vec3r ℚ).sub ⟨0, 0, 0⟩).normalized CMath.rat.toMathFns =
      ⟨0, 0, 1⟩ := by
    simp only [Vec3r.normalized, hz, CMath.rat_toMathFns, MathFns.rat_sqrt_sq 1 (by norm_num)]
    simp only [Vec3r.sub, Vec3r.sdiv]
    norm_num
  have hE : PhongMaterial.Evaluate CMath.rat PhongMaterial.exampleMatte
      ⟨1, ⟨0, 0, 0⟩, ⟨0, 0, 1⟩, true, Surface.sphere ⟨0, 0, -1⟩ 1 AABB.default true,
        ⟨0, ⟨0, 0⟩, ⟨0, 0⟩⟩⟩ ⟨0, 0, 1⟩ ⟨0, 0, 1⟩ = ⟨1, 1, 1⟩ := by
    simp only [PhongMaterial.Evaluate, PhongMaterial.exampleMatte, SolidTexture.Create,
      Texture.isNull, Texture.Value, Vec3r.smul, Vec3r.add, Vec3r.cwiseProduct]
    norm_num
  refine ⟨hs, hu, ?_, ?_⟩
  · rw [hL]
    simp only [AreaLight.exampleUpward, Vec3r.dot]
    norm_num
  · have hlist : AreaLight.exampleUpward.strat_increments_ = [⟨0, 0, 1⟩] := rfl
    simp only [AreaLight.Illuminate, hlist, AreaLight.IlluminateLoop, hs, hu, Surface.isNull,
      Material.asPhong, Bool.false_eq_true, if_false, AreaLight.sampleContribution, hL, hE, hz]
    simp only [AreaLight.exampleUpward, Vec3r.muls, Vec3r.sdiv, Vec3r.cwiseProduct, Vec3r.dot,
      Vec3r.add, kEpsilon2]
    norm_num

/-! ## RayColor -/

theorem RayTracer.rayColor_depth (C : CMath K) (GetMaterial : Surface K → Material K)
    (RAND_MAX : Nat) (rand : Nat → Nat) (scene : Surface K) (lights : List (Light K))
    (max_ray_depth : Nat) (ray : Ray K) (ray_depth n : Nat) (h : ray_depth ≥ max_ray_depth) :
    RayTracer.RayColor C GetMaterial RAND_MAX rand scene lights max_ray_depth ray ray_depth n =
      some ⟨false, ⟨0, 0, 0⟩, n, 1, 0, 0⟩ := by
  rw [RayTracer.RayColor]
  simp only [h, dite_true]

theorem RayTracer.rayColor_hit (C : CMath K) (GetMaterial : Surface K → Material K)
    (RAND_MAX : Nat) (rand : Nat → Nat) (scene : Surface K) (lights : List (Light K))
    (max_ray_depth : Nat) (ray : Ray K) (ray_depth n : Nat) (h : ray_depth < max_ray_depth)
    (hscene : scene.isNull = false) :
    RayTracer.RayColor C GetMaterial RAND_MAX rand scene lights max_ray_depth ray ray_depth n =
      if !(scene.Hit C.toMathFns ray kEpsilon kInfinity HitRecord.default).1 then
        some ⟨false, ⟨0, 0, 0⟩, n, 1, 1, 0⟩
      else if (scene.Hit C.toMathFns ray kEpsilon kInfinity HitRecord.default).2.surface_.isNull
        then some ⟨false, ⟨0, 0, 0⟩, n, 1, 1, 0⟩
      else
        match GetMaterial
          (scene.Hit C.toMathFns ray kEpsilon kInfinity HitRecord.default).2.surface_ with
        | Material.null => some ⟨true, ⟨0, 0, 0⟩, n, 1, 1, 0⟩
        | Material.base => some ⟨true, ⟨0, 0, 0⟩, n, 1, 1, 0⟩
        | m => RayTracer.RayColor C GetMaterial RAND_MAX rand scene lights max_ray_depth ray
            ray_depth n := by
  have h1 : ¬ ray_depth ≥ max_ray_depth := by omega
  split_ifs with ha hb
  · rw [RayTracer.RayColor]
    simp only [h1, dite_false, hscene, Bool.false_eq_true, if_false, ha, if_true]
  · rw [RayTracer.RayColor]
    simp only [h1, dite_false, hscene, Bool.false_eq_true, if_false, ha, hb, if_true]
  · split
    · next hm =>
      rw [RayTracer.RayColor]
      simp only [h1, dite_false, hscene, Bool.false_eq_true, if_false, ha, hb, hm]
    · next hm =>
      rw [RayTracer.RayColor]
      simp only [h1, dite_false, hscene, Bool.false_eq_true, if_false, ha, hb, hm]
    · rfl

/-- The number of invocations of `RayColor` is at most `2^(k+1) − 1` for
`k = max_ray_depth − ray_depth`, and at most `k + 1` when no surface has a dielectric
material. -/
theorem RayTracer.rayColor_invocations (C : CMath K) (GetMaterial : Surface K → Material K)
    (RAND_MAX : Nat) (rand : Nat → Nat) (scene : Surface K) (lights : List (Light K))
    (max_ray_depth : Nat) :
    ∀ (k : Nat) (ray : Ray K) (ray_depth n : Nat) (res : RayColorResult K),
      max_ray_depth - ray_depth = k →
      RayTracer.RayColor C GetMaterial RAND_MAX rand scene lights max_ray_depth ray ray_depth n =
        some res →
      res.invocations + 1 ≤ 2 ^ (k + 1) ∧
        ((∀ s d, GetMaterial s ≠ Material.dielectric d) → res.invocations ≤ k + 1) := by
  intro k
  induction k with
  | zero =>
    intro ray ray_depth n res hk hres
    rw [RayTracer.rayColor_depth _ _ _ _ _ _ _ _ _ _ (by omega)] at hres
    cases hres
    exact ⟨by norm_num, fun _ => by norm_num⟩
  | succ k ih =>
    intro ray ray_depth n res hk hres
    have hlt : ¬ ray_depth ≥ max_ray_depth := by omega
    have hk1 : max_ray_depth - (ray_depth + 1) = k := by omega
    have hpow : 1 + 1 ≤ 2 ^ (k + 1 + 1) := by
      have : 1 ≤ 2 ^ (k + 1) := Nat.one_le_two_pow
      rw [pow_succ]
      omega
    rw [RayTracer.RayColor] at hres
    simp only [hlt, dite_false] at hres
    split at hres
    · cases hres
    · split at hres
      · cases hres
        exact ⟨hpow, fun _ => by simp⟩
      · split at hres
        · cases hres
          exact ⟨hpow, fun _ => by simp⟩
        · split at hres
          · cases hres
            exact ⟨hpow, fun _ => by simp⟩
          · cases hres
            exact ⟨hpow, fun _ => by simp⟩
          · next dielectric hm =>
            split at hres
            · cases hres
            · next sc hsc =>
              refine ⟨?_, fun hnd => absurd hm (hnd _ _)⟩
              have hP2 : 2 ^ (k + 1 + 1) = 2 * 2 ^ (k + 1) := by rw [pow_succ]; ring
              have hP1 : 1 ≤ 2 ^ (k + 1) := Nat.one_le_two_pow
              split at hres
              · cases hres
              · next s1 hs1 =>
                have hb1 : s1.invocations ≤ 2 ^ (k + 1) := by
                  split at hs1
                  · cases hs1
                    exact hP1
                  · split at hs1
                    · cases hs1
                    · next r hr =>
                      cases hs1
                      have := (ih _ _ _ _ hk1 hr).1
                      show 1 + r.invocations ≤ 2 ^ (k + 1)
                      omega
                split at hres
                · cases hres
                  omega
                · split at hres
                  · cases hres
                  · next r hr =>
                    cases hres
                    have := (ih _ _ _ _ hk1 hr).1
                    show s1.invocations + r.invocations + 1 ≤ 2 ^ (k + 1 + 1)
                    omega
          · next phong_material hm =>
            split at hres
            · cases hres
            · next lit_color n1 hl =>
              have hP2 : 2 ^ (k + 1 + 1) = 2 * 2 ^ (k + 1) := by rw [pow_succ]; ring
              split at hres
              · split at hres
                · cases hres
                · next r hr =>
                  cases hres
                  have hi := ih _ _ _ _ hk1 hr
                  refine ⟨?_, fun hnd => ?_⟩
                  · show 1 + r.invocations + 1 ≤ 2 ^ (k + 1 + 1)
                    omega
                  · have := hi.2 hnd
                    show 1 + r.invocations ≤ k + 1 + 1
                    omega
              · cases hres
                exact ⟨hpow, fun _ => by simp⟩

theorem PointLight.pointIlluminate_isSome (C : CMath K) (GetMaterial : Surface K → Material K)
    (light : PointLight K) (hit_record : HitRecord K) (view_vec : Vec3r K) (scene : Surface K)
    (hscene : scene.isNull = false) :
    ∃ color, PointLight.Illuminate C GetMaterial light hit_record view_vec scene = some color := by
  simp only [PointLight.Illuminate, hscene, Bool.false_eq_true, if_false]
  split_ifs
  · exact ⟨_, rfl⟩
  · exact ⟨_, rfl⟩
  · split
    · exact ⟨_, rfl⟩
    · exact ⟨_, rfl⟩

theorem AreaLight.illuminateLoop_ne_failed (C : CMath K) (GetMaterial : Surface K → Material K)
    (RAND_MAX : Nat) (rand : Nat → Nat) (light : AreaLight K) (hit_record : HitRecord K)
    (view_vec : Vec3r K) (scene : Surface K) (hscene : scene.isNull = false) :
    ∀ (l : List (Vec3r K)) (n : Nat) (total : Vec3r K),
      AreaLight.IlluminateLoop C GetMaterial RAND_MAX rand light hit_record view_vec scene
        l n total ≠ AreaLoopResult.failed := by
  intro l
  induction l with
  | nil =>
    intro n total h
    simp [AreaLight.IlluminateLoop] at h
  | cons i rest ih =>
    intro n total
    simp only [AreaLight.IlluminateLoop, hscene, Bool.false_eq_true, if_false]
    split_ifs
    · exact ih _ _
    · simp
    · split
      · simp
      · exact ih _ _

theorem AreaLight.areaIlluminate_isSome (C : CMath K) (GetMaterial : Surface K → Material K)
    (RAND_MAX : Nat) (rand : Nat → Nat) (n : Nat) (light : AreaLight K)
    (hit_record : HitRecord K) (view_vec : Vec3r K) (scene : Surface K)
    (hscene : scene.isNull = false) :
    ∃ color, AreaLight.Illuminate C GetMaterial RAND_MAX rand n light hit_record view_vec scene =
      some color := by
  have h := AreaLight.illuminateLoop_ne_failed C GetMaterial RAND_MAX rand light hit_record
    view_vec scene hscene light.strat_increments_ n ⟨0, 0, 0⟩
  simp only [AreaLight.Illuminate]
  split
  · next hf => exact absurd hf h
  · exact ⟨_, rfl⟩
  · exact ⟨_, rfl⟩

theorem Light.illuminate_isSome (C : CMath K) (GetMaterial : Surface K → Material K)
    (RAND_MAX : Nat) (rand : Nat → Nat) (n : Nat) (hit_record : HitRecord K)
    (view_vec : Vec3r K) (scene : Surface K) (hscene : scene.isNull = false)
    (light : Light K) (hl : light ≠ Light.null) :
    ∃ r, light.Illuminate C GetMaterial RAND_MAX rand n hit_record view_vec scene = some r := by
  cases light with
  | null => exact absurd rfl hl
  | base => exact ⟨_, rfl⟩
  | ambient a => exact ⟨_, rfl⟩
  | point p =>
    obtain ⟨c, hc⟩ := PointLight.pointIlluminate_isSome C GetMaterial p hit_record view_vec scene hscene
    exact ⟨(c, n), by simp only [Light.Illuminate, hc]⟩
  | area a =>
    obtain ⟨c, hc⟩ := AreaLight.areaIlluminate_isSome C GetMaterial RAND_MAX rand n a hit_record
      view_vec scene hscene
    exact ⟨(c, AreaLight.randCount C GetMaterial RAND_MAX rand a hit_record scene
      a.strat_increments_ n), by simp only [Light.Illuminate, hc]⟩

theorem RayTracer.lightsLoop_isSome (C : CMath K) (GetMaterial : Surface K → Material K)
    (RAND_MAX : Nat) (rand : Nat → Nat) (hit_record : HitRecord K) (view_vec : Vec3r K)
    (scene : Surface K) (hscene : scene.isNull = false) :
    ∀ (lights : List (Light K)), (∀ l ∈ lights, l ≠ Light.null) → ∀ (n : Nat) (color : Vec3r K),
      ∃ r, RayTracer.lightsLoop C GetMaterial RAND_MAX rand hit_record view_vec scene lights n
        color = some r := by
  intro lights
  induction lights with
  | nil => exact fun _ n color => ⟨_, rfl⟩
  | cons l rest ih =>
    intro hnn n color
    obtain ⟨⟨c, n1⟩, hc⟩ := Light.illuminate_isSome C GetMaterial RAND_MAX rand n hit_record
      view_vec scene hscene l (hnn l (List.mem_cons_self _ _))
    obtain ⟨r, hr⟩ := ih (fun x hx => hnn x (List.mem_cons_of_mem _ hx)) n1 (color.add c)
    exact ⟨r, by simp only [RayTracer.lightsLoop, hc, hr]⟩

/-- Function `RayColor` returns: on a non-null scene with non-null lights, every
dielectric having a `SolidTexture` as `diffuse_`, the code does not fail. -/
theorem RayTracer.rayColor_isSome (C : CMath K) (GetMaterial : Surface K → Material K)
    (RAND_MAX : Nat) (rand : Nat → Nat) (scene : Surface K) (lights : List (Light K))
    (max_ray_depth : Nat) (hscene : scene.isNull = false)
    (hlights : ∀ l ∈ lights, l ≠ Light.null)
    (hsolid : ∀ s d, GetMaterial s = Material.dielectric d →
      ∃ color gain bias, d.diffuse_ = Texture.solid color gain bias) :
    ∀ (k : Nat) (ray : Ray K) (ray_depth n : Nat), max_ray_depth - ray_depth = k →
      ∃ res, RayTracer.RayColor C GetMaterial RAND_MAX rand scene lights max_ray_depth ray
        ray_depth n = some res := by
  intro k
  induction k with
  | zero =>
    intro ray ray_depth n hk
    exact ⟨_, RayTracer.rayColor_depth _ _ _ _ _ _ _ _ _ _ (by omega)⟩
  | succ k ih =>
    intro ray ray_depth n hk
    have hlt : ¬ ray_depth ≥ max_ray_depth := by omega
    have hk1 : max_ray_depth - (ray_depth + 1) = k := by omega
    rw [RayTracer.RayColor]
    simp only [hlt, dite_false, hscene, Bool.false_eq_true, if_false]
    split_ifs with ha hb
    · exact ⟨_, rfl⟩
    · exact ⟨_, rfl⟩
    · split
      · exact ⟨_, rfl⟩
      · exact ⟨_, rfl⟩
      · next dielectric hm =>
        obtain ⟨c, g, b, hd⟩ := hsolid _ _ hm
        obtain ⟨sc, hsc⟩ : ∃ sc, PhongDielectric.Scatter C dielectric
            (scene.Hit C.toMathFns ray kEpsilon kInfinity HitRecord.default).2 ray none none 0 =
            some sc := ⟨_, PhongDielectric.scatter_solid C dielectric _ ray none none 0 c g b hd⟩
        simp only [hsc]
        have hstep : ∀ s1 : RayColorResult K, ∃ res,
            (match sc.reflect_ray with
              | none => some s1
              | some reflect_ray =>
                match RayTracer.RayColor C GetMaterial RAND_MAX rand scene lights max_ray_depth
                    reflect_ray (ray_depth + 1) s1.rand_calls with
                | none => none
                | some r =>
                  some ⟨true,
                    if r.ret then
                      s1.ray_color.add (sc.attenuation.cwiseProduct
                        (r.ray_color.muls sc.schlick_reflectance))
                    else s1.ray_color,
                    r.rand_calls, s1.invocations + r.invocations,
                    s1.hit_queries + r.hit_queries, s1.light_calls + r.light_calls⟩) =
              some res := by
          intro s1
          cases sc.reflect_ray with
          | none => exact ⟨_, rfl⟩
          | some rr =>
            obtain ⟨r2, hr2⟩ := ih rr (ray_depth + 1) s1.rand_calls hk1
            simp only [hr2]
            exact ⟨_, rfl⟩
        cases sc.refract_ray with
        | none => exact hstep _
        | some rf =>
          obtain ⟨r1, hr1⟩ := ih rf (ray_depth + 1) n hk1
          simp only [hr1]
          exact hstep _
      · next phong_material hm =>
        obtain ⟨⟨lit, n1⟩, hl⟩ := RayTracer.lightsLoop_isSome C GetMaterial RAND_MAX rand
          (scene.Hit C.toMathFns ray kEpsilon kInfinity HitRecord.default).2
          (ray.GetDirection.normalized C.toMathFns).neg scene hscene lights hlights n ⟨0, 0, 0⟩
        simp only [hl]
        split_ifs with hmir
        · split
          · next hnone =>
            obtain ⟨r2, hr2⟩ := ih _ (ray_depth + 1) n1 hk1
            rw [hr2] at hnone
            cases hnone
          · exact ⟨_, rfl⟩
        · exact ⟨_, rfl⟩

/-- C23: for every ray, scene and light list, `RayColor` called with
`ray_depth ≥ max_ray_depth` returns false with `ray_color = (0, 0, 0)`; it is the only
invocation (no recursive call), it makes no query `scene->Hit` and no call of
`Illuminate` or `std::rand()`.  Likewise, when `ray_depth < max_ray_depth` and
`scene->Hit(ray, kEpsilon, kInfinity, .)` reports no hit, it returns false with
`ray_color = (0, 0, 0)` after that one query, without recursing. -/
theorem rayColor_black_cases (C : CMath K) (GetMaterial : Surface K → Material K)
    (RAND_MAX : Nat) (rand : Nat → Nat) (scene : Surface K) (lights : List (Light K))
    (max_ray_depth : Nat) (ray : Ray K) (ray_depth n : Nat) :
    (ray_depth ≥ max_ray_depth →
      RayTracer.RayColor C GetMaterial RAND_MAX rand scene lights max_ray_depth ray ray_depth n =
        some ⟨false, ⟨0, 0, 0⟩, n, 1, 0, 0⟩) ∧
    (ray_depth < max_ray_depth → scene.isNull = false →
      (scene.Hit C.toMathFns ray kEpsilon kInfinity HitRecord.default).1 = false →
      RayTracer.RayColor C GetMaterial RAND_MAX rand scene lights max_ray_depth ray ray_depth n =
        some ⟨false, ⟨0, 0, 0⟩, n, 1, 1, 0⟩) := by
  refine ⟨fun h => RayTracer.rayColor_depth C GetMaterial RAND_MAX rand scene lights
    max_ray_depth ray ray_depth n h, fun h hscene hmiss => ?_⟩
  rw [RayTracer.rayColor_hit C GetMaterial RAND_MAX rand scene lights max_ray_depth ray
    ray_depth n h hscene, hmiss]
  rfl

/-- The ray from the origin along `+y` misses the unit sphere with center
`(0, 0, 5)`. -/
theorem Sphere.example_miss (M : MathFns ℚ) (tmin tmax : ℚ) (hit_record : HitRecord ℚ) :
    ((Surface.sphere ⟨0, 0, 5⟩ 1 AABB.default true : Surface ℚ).Hit M ⟨⟨0, 0, 0⟩, ⟨0, 1, 0⟩⟩
      tmin tmax hit_record).1 = false := by
  rw [← Bool.not_eq_true]
  show ¬ (Sphere.Hit M _ ⟨0, 0, 5⟩ 1 _ tmin tmax hit_record).1 = true
  rw [Sphere.hit_true_iff]
  rintro ⟨h, _⟩
  simp only [Sphere.discriminant, Ray.GetOrigin, Ray.GetDirection, Vec3r.sub, Vec3r.dot,
    Vec3r.squaredNorm] at h
  norm_num at h

theorem rayColor_black_cases_witness :
    RayTracer.RayColor CMath.rat (fun _ => Material.phong PhongMaterial.exampleMatte) 32767
        (fun _ => 0) (Surface.sphere ⟨0, 0, 5⟩ 1 AABB.default true) [] 5
        ⟨⟨0, 0, 0⟩, ⟨0, 0, 1⟩⟩ 5 0 = some ⟨false, ⟨0, 0, 0⟩, 0, 1, 0, 0⟩ ∧
    RayTracer.RayColor CMath.rat (fun _ => Material.phong PhongMaterial.exampleMatte) 32767
        (fun _ => 0) (Surface.sphere ⟨0, 0, 5⟩ 1 AABB.default true) [] 5
        ⟨⟨0, 0, 0⟩, ⟨0, 1, 0⟩⟩ 0 0 = some ⟨false, ⟨0, 0, 0⟩, 0, 1, 1, 0⟩ :=
  ⟨(rayColor_black_cases CMath.rat (fun _ => Material.phong PhongMaterial.exampleMatte) 32767
      (fun _ => 0) (Surface.sphere ⟨0, 0, 5⟩ 1 AABB.default true) [] 5
      ⟨⟨0, 0, 0⟩, ⟨0, 0, 1⟩⟩ 5 0).1 (by decide),
   (rayColor_black_cases CMath.rat (fun _ => Material.phong PhongMaterial.exampleMatte) 32767
      (fun _ => 0) (Surface.sphere ⟨0, 0, 5⟩ 1 AABB.default true) [] 5
      ⟨⟨0, 0, 0⟩, ⟨0, 1, 0⟩⟩ 0 0).2 (by decide) rfl (Sphere.example_miss _ _ _ _)⟩

/-- C24: `RayColor` terminates.  The model recurses on `max_ray_depth − ray_depth`,
which decreases by one at every recursive call, and a call with
`max_ray_depth − ray_depth = 0` does not recurse.  On a non-null scene with non-null
lights (every dielectric having a `SolidTexture`) the call returns; whenever it
returns it has made at most `2^(k+1) − 1` invocations of `RayColor` for
`k = max_ray_depth − ray_depth`, and at most `k + 1` when no surface of the scene has
a dielectric material (so at most `k + 1` for `ray_depth = 0`, `max_ray_depth = k`). -/
theorem rayColor_terminates (C : CMath K) (GetMaterial : Surface K → Material K)
    (RAND_MAX : Nat) (rand : Nat → Nat) (scene : Surface K) (lights : List (Light K))
    (max_ray_depth : Nat) (ray : Ray K) (ray_depth n : Nat) :
    (scene.isNull = false → (∀ l ∈ lights, l ≠ Light.null) →
      (∀ s d, GetMaterial s = Material.dielectric d →
        ∃ color gain bias, d.diffuse_ = Texture.solid color gain bias) →
      ∃ res, RayTracer.RayColor C GetMaterial RAND_MAX rand scene lights max_ray_depth ray
        ray_depth n = some res) ∧
    (∀ res, RayTracer.RayColor C GetMaterial RAND_MAX rand scene lights max_ray_depth ray
        ray_depth n = some res →
      res.invocations + 1 ≤ 2 ^ (max_ray_depth - ray_depth + 1) ∧
        ((∀ s d, GetMaterial s ≠ Material.dielectric d) →
          res.invocations ≤ max_ray_depth - ray_depth + 1)) :=
  ⟨fun hscene hlights hsolid =>
    RayTracer.rayColor_isSome C GetMaterial RAND_MAX rand scene lights max_ray_depth hscene
      hlights hsolid (max_ray_depth - ray_depth) ray ray_depth n rfl,
   fun res hres =>
    RayTracer.rayColor_invocations C GetMaterial RAND_MAX rand scene lights max_ray_depth
      (max_ray_depth - ray_depth) ray ray_depth n res rfl hres⟩

theorem rayColor_terminates_witness :
    ∃ res, RayTracer.RayColor CMath.rat
        (fun _ => Material.phong ⟨⟨0, 0, 0⟩, SolidTexture.Create ⟨0, 0, 0⟩, ⟨0, 0, 0⟩, 1,
          ⟨1, 1, 1⟩⟩) 32767
        (fun _ => 0)
        (Surface.bvhNode (Surface.sphere ⟨0, 0, 2⟩ 1 AABB.default true)
          (Surface.sphere ⟨0, 0, -2⟩ 1 AABB.default true) ⟨⟨-1, -1, -3⟩, ⟨1, 1, 3⟩⟩ false)
        [Light.point ⟨⟨0, 5, 0⟩, ⟨1, 1, 1⟩⟩] 7 ⟨⟨0, 0, 0⟩, ⟨0, 0, 1⟩⟩ 0 0 = some res ∧
      res.invocations ≤ 7 + 1 := by
  obtain ⟨h1, h2⟩ := rayColor_terminates CMath.rat
    (fun _ => Material.phong ⟨⟨0, 0, 0⟩, SolidTexture.Create ⟨0, 0, 0⟩, ⟨0, 0, 0⟩, 1,
      ⟨1, 1, 1⟩⟩) 32767
    (fun _ => 0)
    (Surface.bvhNode (Surface.sphere ⟨0, 0, 2⟩ 1 AABB.default true)
      (Surface.sphere ⟨0, 0, -2⟩ 1 AABB.default true) ⟨⟨-1, -1, -3⟩, ⟨1, 1, 3⟩⟩ false)
    [Light.point ⟨⟨0, 5, 0⟩, ⟨1, 1, 1⟩⟩] 7 ⟨⟨0, 0, 0⟩, ⟨0, 0, 1⟩⟩ 0 0
  obtain ⟨res, hres⟩ := h1 rfl (by simp) (by simp)
  exact ⟨res, hres, (h2 res hres).2 (by simp)⟩

/-- C25: when `ray_depth < max_ray_depth` and the ray hits a surface whose material is
null, `RayColor` does not fail: it returns true with `ray_color = (0, 0, 0)`; it is
the only invocation (no recursion), after its one query `scene->Hit`, and it calls
no light. -/
theorem rayColor_null_material (C : CMath K) (GetMaterial : Surface K → Material K)
    (RAND_MAX : Nat) (rand : Nat → Nat) (scene : Surface K) (lights : List (Light K))
    (max_ray_depth : Nat) (ray : Ray K) (ray_depth n : Nat)
    (hdepth : ray_depth < max_ray_depth) (hscene : scene.isNull = false)
    (hhit : (scene.Hit C.toMathFns ray kEpsilon kInfinity HitRecord.default).1 = true)
    (hsurf : (scene.Hit C.toMathFns ray kEpsilon kInfinity HitRecord.default).2.surface_.isNull =
      false)
    (hmat : GetMaterial
      (scene.Hit C.toMathFns ray kEpsilon kInfinity HitRecord.default).2.surface_ =
        Material.null) :
    RayTracer.RayColor C GetMaterial RAND_MAX rand scene lights max_ray_depth ray ray_depth n =
      some ⟨true, ⟨0, 0, 0⟩, n, 1, 1, 0⟩ := by
  rw [RayTracer.rayColor_hit C GetMaterial RAND_MAX rand scene lights max_ray_depth ray
    ray_depth n hdepth hscene, hhit, hsurf, hmat]
  rfl

/-- The ray from the origin along `+z` hits the unit sphere with center `(0, 0, 5)`
at `t = 4`; the record names the sphere. -/
theorem Sphere.example_hit (hit_record : HitRecord ℚ) :
    ((Surface.sphere ⟨0, 0, 5⟩ 1 AABB.default true : Surface ℚ).Hit MathFns.rat
        ⟨⟨0, 0, 0⟩, ⟨0, 0, 1⟩⟩ kEpsilon kInfinity hit_record).1 = true ∧
      ((Surface.sphere ⟨0, 0, 5⟩ 1 AABB.default true : Surface ℚ).Hit MathFns.rat
        ⟨⟨0, 0, 0⟩, ⟨0, 0, 1⟩⟩ kEpsilon kInfinity hit_record).2.surface_ =
        Surface.sphere ⟨0, 0, 5⟩ 1 AABB.default true := by
  have hd : Sphere.discriminant (⟨0, 0, 5⟩ : Vec3r ℚ) 1 ⟨⟨0, 0, 0⟩, ⟨0, 0, 1⟩⟩ = 2 * 2 := by
    simp only [Sphere.discriminant, Ray.GetOrigin, Ray.GetDirection, Vec3r.sub, Vec3r.dot,
      Vec3r.squaredNorm]
    norm_num
  have ht : Sphere.chosenT MathFns.rat (⟨0, 0, 5⟩ : Vec3r ℚ) 1 ⟨⟨0, 0, 0⟩, ⟨0, 0, 1⟩⟩
      kEpsilon = 4 := by
    simp only [Sphere.chosenT, hd, MathFns.rat_sqrt_sq 2 (by norm_num)]
    simp only [Ray.GetOrigin, Ray.GetDirection, Vec3r.sub, Vec3r.dot, Vec3r.squaredNorm,
      kEpsilon]
    norm_num
  have h1 : (Sphere.Hit MathFns.rat (Surface.sphere ⟨0, 0, 5⟩ 1 AABB.default true)
      ⟨0, 0, 5⟩ 1 ⟨⟨0, 0, 0⟩, ⟨0, 0, 1⟩⟩ kEpsilon kInfinity hit_record).1 = true := by
    rw [Sphere.hit_true_iff, ht, hd]
    have hk : (10 : ℚ) ^ 6 < kInfinity := kInfinity_gt
    refine ⟨by norm_num, ?_, by linarith⟩
    simp only [kEpsilon]
    norm_num
  refine ⟨h1, ?_⟩
  show (Sphere.Hit MathFns.rat (Surface.sphere ⟨0, 0, 5⟩ 1 AABB.default true)
      ⟨0, 0, 5⟩ 1 ⟨⟨0, 0, 0⟩, ⟨0, 0, 1⟩⟩ kEpsilon kInfinity hit_record).2.surface_ = _
  rw [Sphere.hit_true_record _ _ _ _ _ _ _ _ h1]
  rfl

theorem rayColor_null_material_witness :
    RayTracer.RayColor CMath.rat (fun _ => Material.null) 32767 (fun _ => 0)
      (Surface.sphere ⟨0, 0, 5⟩ 1 AABB.default true) [Light.point ⟨⟨0, 5, 0⟩, ⟨1, 1, 1⟩⟩] 5
      ⟨⟨0, 0, 0⟩, ⟨0, 0, 1⟩⟩ 0 0 = some ⟨true, ⟨0, 0, 0⟩, 0, 1, 1, 0⟩ :=
  rayColor_null_material CMath.rat (fun _ => Material.null) 32767 (fun _ => 0)
    (Surface.sphere ⟨0, 0, 5⟩ 1 AABB.default true) [Light.point ⟨⟨0, 5, 0⟩, ⟨1, 1, 1⟩⟩] 5
    ⟨⟨0, 0, 0⟩, ⟨0, 0, 1⟩⟩ 0 0 (by decide) rfl (Sphere.example_hit _).1
    (by rw [CMath.rat_toMathFns, (Sphere.example_hit _).2]; rfl) rfl

/-! ## AreaLight: the sample grid -/

theorem realToInt_rat_one : realToInt (CMath.rat.sqrt ((1 : Int) : ℚ)) = some 1 := by
  have h : CMath.rat.sqrt ((1 : Int) : ℚ) = 1 := by
    rw [CMath.rat_sqrt]
    simpa using MathFns.rat_sqrt_one
  rw [h]
  simp [realToInt]

/-- Function `SetSamples` puts the new grid behind the entries that
`strat_increments_` already has. -/
theorem AreaLight.setSamples_increments [FloorRing K] (C : CMath K) (light light1 : AreaLight K)
    (samples : Int) (h : AreaLight.SetSamples C light samples = some light1) :
    light1.samples_ = samples ∧
    realToInt (C.sqrt (samples : K)) = some light1.strat_samples_ ∧
    light1.strat_increments_ = light.strat_increments_ ++
      (List.range light1.strat_samples_.toNat).flatMap
        (fun i => (List.range light1.strat_samples_.toNat).map
          (fun j => light1.currentCorner i j)) := by
  simp only [AreaLight.SetSamples, AreaLight.SetStratSamples] at h
  split at h
  · cases h
  · next s hs =>
    simp only [Option.some.injEq] at h
    rw [← h]
    exact ⟨rfl, hs, rfl⟩

/-- C22: `SetStratIncrements` pushes the grid onto `strat_increments_` without
clearing it.  On the light `AreaLight((0,0,0), (0,0,−1), (1,0,0), (1,1,1), 1)` the first
`SetSamples(1)` leaves `strat_samples_ = 1` and the one origin `(−1/2, −1/2, 0)`; a
second `SetSamples(1)` leaves `strat_samples_ = 1` and two entries, not `⌊√1⌋² = 1`. -/
theorem areaLight_setSamples_twice :
    AreaLight.SetSamples CMath.rat
        (AreaLight.Create ⟨0, 0, 0⟩ ⟨0, 0, -1⟩ ⟨1, 0, 0⟩ ⟨1, 1, 1⟩ 1) 1 =
      some ⟨⟨0, 0, 0⟩, ⟨0, 0, -1⟩, ⟨1, 0, 0⟩, ⟨0, 1, 0⟩, ⟨1, 1, 1⟩,
        [⟨-1 / 2, -1 / 2, 0⟩], 1, 1, 1⟩ ∧
    AreaLight.SetSamples CMath.rat
        ⟨⟨0, 0, 0⟩, ⟨0, 0, -1⟩, ⟨1, 0, 0⟩, ⟨0, 1, 0⟩, ⟨1, 1, 1⟩,
        [⟨-1 / 2, -1 / 2, 0⟩], 1, 1, 1⟩ 1 =
      some ⟨⟨0, 0, 0⟩, ⟨0, 0, -1⟩, ⟨1, 0, 0⟩, ⟨0, 1, 0⟩, ⟨1, 1, 1⟩,
        [⟨-1 / 2, -1 / 2, 0⟩, ⟨-1 / 2, -1 / 2, 0⟩], 1, 1, 1⟩ := by
  constructor
  · simp only [AreaLight.SetSamples, AreaLight.SetStratSamples, realToInt_rat_one,
      AreaLight.SetStratIncrements, AreaLight.Create, AreaLight.currentCorner,
      AreaLight.upperLeft, Vec3r.cross, Vec3r.smul, Vec3r.sub, Vec3r.add, Vec3r.sdiv]
    norm_num [List.range_succ, List.flatMap]
  · simp only [AreaLight.SetSamples, AreaLight.SetStratSamples, realToInt_rat_one,
      AreaLight.SetStratIncrements, AreaLight.currentCorner,
      AreaLight.upperLeft, Vec3r.smul, Vec3r.sub, Vec3r.add, Vec3r.sdiv]
    norm_num [List.range_succ, List.flatMap]

/-- C21: the jitter of `AreaLight::Illuminate` is `xoffset·u/n` and `yoffset·v/n`,
without the factor `len` of the grid of `SetStratIncrements`.  On the light
`AreaLight((0,0,0), (0,0,−1), (1,0,0), (1,1,1), 1/2)` after `SetSamples(1)` the one
stratum origin is `o = (−1/4, −1/4, 0)`; with `std::rand()` returning `RAND_MAX` (both
offsets 1) the sample position is `(3/4, 3/4, 0)`, which is `o + a·(len/n)·u +
b·(len/n)·v` for `a = b = 2` only: it lies outside the sub-cell, and outside the
light. -/
theorem areaLight_sample_outside_cell :
    AreaLight.SetSamples CMath.rat
        (AreaLight.Create ⟨0, 0, 0⟩ ⟨0, 0, -1⟩ ⟨1, 0, 0⟩ ⟨1, 1, 1⟩ (1 / 2)) 1 =
      some ⟨⟨0, 0, 0⟩, ⟨0, 0, -1⟩, ⟨1, 0, 0⟩, ⟨0, 1, 0⟩, ⟨1, 1, 1⟩,
        [⟨-1 / 4, -1 / 4, 0⟩], 1 / 2, 1, 1⟩ ∧
    AreaLight.samplePosition 32767
        (⟨⟨0, 0, 0⟩, ⟨0, 0, -1⟩, ⟨1, 0, 0⟩, ⟨0, 1, 0⟩, ⟨1, 1, 1⟩,
        [⟨-1 / 4, -1 / 4, 0⟩], 1 / 2, 1, 1⟩ : AreaLight ℚ)
        ⟨-1 / 4, -1 / 4, 0⟩ 32767 32767 = ⟨3 / 4, 3 / 4, 0⟩ ∧
    ¬ ∃ a b : ℚ, 0 ≤ a ∧ a ≤ 1 ∧ 0 ≤ b ∧ b ≤ 1 ∧
      AreaLight.samplePosition 32767
        (⟨⟨0, 0, 0⟩, ⟨0, 0, -1⟩, ⟨1, 0, 0⟩, ⟨0, 1, 0⟩, ⟨1, 1, 1⟩,
        [⟨-1 / 4, -1 / 4, 0⟩], 1 / 2, 1, 1⟩ : AreaLight ℚ)
        ⟨-1 / 4, -1 / 4, 0⟩ 32767 32767 =
      AreaLight.subCellPoint
        (⟨⟨0, 0, 0⟩, ⟨0, 0, -1⟩, ⟨1, 0, 0⟩, ⟨0, 1, 0⟩, ⟨1, 1, 1⟩,
        [⟨-1 / 4, -1 / 4, 0⟩], 1 / 2, 1, 1⟩ : AreaLight ℚ)
        ⟨-1 / 4, -1 / 4, 0⟩ a b := by
  have hs : AreaLight.samplePosition 32767
        (⟨⟨0, 0, 0⟩, ⟨0, 0, -1⟩, ⟨1, 0, 0⟩, ⟨0, 1, 0⟩, ⟨1, 1, 1⟩,
        [⟨-1 / 4, -1 / 4, 0⟩], 1 / 2, 1, 1⟩ : AreaLight ℚ)
        ⟨-1 / 4, -1 / 4, 0⟩ 32767 32767 = ⟨3 / 4, 3 / 4, 0⟩ := by
    simp only [AreaLight.samplePosition, Vec3r.add, Vec3r.muls, Vec3r.sdiv]
    norm_num
  refine ⟨?_, hs, ?_⟩
  · simp only [AreaLight.SetSamples, AreaLight.SetStratSamples, realToInt_rat_one,
      AreaLight.SetStratIncrements, AreaLight.Create, AreaLight.currentCorner,
      AreaLight.upperLeft, Vec3r.cross, Vec3r.smul, Vec3r.sub, Vec3r.add, Vec3r.sdiv]
    norm_num [List.range_succ, List.flatMap]
  · rintro ⟨a, b, _, ha, _, _, h⟩
    rw [hs] at h
    simp only [AreaLight.subCellPoint, Vec3r.add, Vec3r.smul] at h
    have hx := congrArg Vec3r.x h
    norm_num at hx
    linarith

/-! ## PhongMaterial::Evaluate -/

/-- C28: for a material with a diffuse texture (`diffuse_` not null) and all light
and view vectors: on a back-facing hit record `PhongMaterial::Evaluate` returns exactly
`(1, 1, 0)` (zero specular term, the texture ignored); on a front-facing one it returns
`pow(max(0, half·normal), shininess) · specular + diffuse_->Value(uv, point)` with
`half = normalized(view + light)`. -/
theorem phong_evaluate_spec (C : CMath K) (m : PhongMaterial K) (hit_record : HitRecord K)
    (light_vec view_vec : Vec3r K) (hdiff : m.diffuse_.isNull = false) :
    (hit_record.front_face_ = false →
      m.Evaluate C hit_record light_vec view_vec = ⟨1, 1, 0⟩) ∧
    (hit_record.front_face_ = true →
      m.Evaluate C hit_record light_vec view_vec =
        (Vec3r.smul
          (C.pow (max 0 (((view_vec.add light_vec).normalized C.toMathFns).dot
            hit_record.normal_)) m.shininess_) m.specular_).add
          (m.diffuse_.Value hit_record.face_geouv_.global_uv_ hit_record.point_)) := by
  constructor
  · intro hf
    simp only [PhongMaterial.Evaluate, hdiff, hf, Bool.false_eq_true, if_false, Bool.not_false,
      if_true, Vec3r.add]
    norm_num
  · intro hf
    simp only [PhongMaterial.Evaluate, hdiff, hf, Bool.false_eq_true, if_false, Bool.not_true]

theorem phong_evaluate_spec_witness :
    PhongMaterial.Evaluate CMath.rat
      ⟨⟨0, 0, 0⟩, SolidTexture.Create ⟨1 / 2, 1 / 3, 1 / 4⟩, ⟨1, 1, 1⟩, 5, ⟨0, 0, 0⟩⟩
      ⟨1, ⟨0, 0, 0⟩, ⟨0, 0, 1⟩, false, Surface.null, ⟨0, ⟨0, 0⟩, ⟨0, 0⟩⟩⟩ ⟨0, 0, 1⟩ ⟨0, 0, 1⟩ =
        ⟨1, 1, 0⟩ :=
  (phong_evaluate_spec CMath.rat
    ⟨⟨0, 0, 0⟩, SolidTexture.Create ⟨1 / 2, 1 / 3, 1 / 4⟩, ⟨1, 1, 1⟩, 5, ⟨0, 0, 0⟩⟩
    ⟨1, ⟨0, 0, 0⟩, ⟨0, 0, 1⟩, false, Surface.null, ⟨0, ⟨0, 0⟩, ⟨0, 0⟩⟩⟩ ⟨0, 0, 1⟩ ⟨0, 0, 1⟩
    rfl).1 rfl

/-! ## TriMesh::RayFaceHit -/

/-- C27: the code stores the `FaceGeoUV` it builds only when the mesh has texture
coordinates (`SetFaceGeoUV` is inside the `else` branch).  For a mesh without vertex
texture coordinates, a successful `RayFaceHit` leaves the `FaceGeoUV` of the hit
record as it was before the call: it does not store the face id, the barycentric
`(β, γ)` or the global uv `(−1, −1)`. -/
theorem triMesh_rayFaceHit_keeps_faceGeoUV
    (RayTriangleHit : Vec3r K → Vec3r K → Vec3r K → Ray K → K → K → Option (K × Vec2r K))
    (mesh : TriMesh K) (self : Surface K) (fh : Nat) (ray : Ray K) (tmin tmax : K)
    (hit_record res : HitRecord K) (htex : mesh.texcoord2D = none)
    (hhit : TriMesh.RayFaceHit RayTriangleHit mesh self fh ray tmin tmax hit_record =
      some (true, res)) :
    res.face_geouv_ = hit_record.face_geouv_ := by
  simp only [TriMesh.RayFaceHit, htex] at hhit
  split at hhit
  · cases hhit
  · split at hhit
    · cases hhit
    · simp only [Option.some.injEq, Prod.mk.injEq, true_and] at hhit
      rw [← hhit]
      simp only [HitRecord.SetSurface, HitRecord.SetNormal, HitRecord.SetPoint,
        HitRecord.SetRayT]
      split_ifs <;> rfl

theorem triMesh_rayFaceHit_keeps_faceGeoUV_witness :
    TriMesh.RayFaceHit (fun _ _ _ _ _ _ => some ((1 : ℚ), ⟨1 / 4, 1 / 4⟩))
        ⟨[(0, 1, 2)], fun v => if v = 1 then ⟨1, 0, 0⟩ else if v = 2 then ⟨0, 1, 0⟩ else ⟨0, 0, 0⟩,
          fun _ => ⟨0, 0, 1⟩, none⟩
        (Surface.base AABB.default true) 0 ⟨⟨1 / 4, 1 / 4, 1⟩, ⟨0, 0, -1⟩⟩ kEpsilon kInfinity
        ⟨5, ⟨0, 0, 0⟩, ⟨0, 1, 0⟩, false, Surface.null, ⟨7, ⟨1 / 3, 1 / 3⟩, ⟨1 / 2, 1 / 2⟩⟩⟩ =
      some (true, ⟨1, ⟨1 / 4, 1 / 4, 0⟩, ⟨0, 0, 1⟩, true, Surface.base AABB.default true,
        ⟨7, ⟨1 / 3, 1 / 3⟩, ⟨1 / 2, 1 / 2⟩⟩⟩) ∧
    (⟨1, ⟨1 / 4, 1 / 4, 0⟩, ⟨0, 0, 1⟩, true, Surface.base AABB.default true,
        ⟨7, ⟨1 / 3, 1 / 3⟩, ⟨1 / 2, 1 / 2⟩⟩⟩ : HitRecord ℚ).face_geouv_ =
      (⟨5, ⟨0, 0, 0⟩, ⟨0, 1, 0⟩, false, Surface.null, ⟨7, ⟨1 / 3, 1 / 3⟩, ⟨1 / 2, 1 / 2⟩⟩⟩ :
        HitRecord ℚ).face_geouv_ := by
  have h : TriMesh.RayFaceHit (fun _ _ _ _ _ _ => some ((1 : ℚ), ⟨1 / 4, 1 / 4⟩))
        ⟨[(0, 1, 2)], fun v => if v = 1 then ⟨1, 0, 0⟩ else if v = 2 then ⟨0, 1, 0⟩ else ⟨0, 0, 0⟩,
          fun _ => ⟨0, 0, 1⟩, none⟩
        (Surface.base AABB.default true) 0 ⟨⟨1 / 4, 1 / 4, 1⟩, ⟨0, 0, -1⟩⟩ kEpsilon kInfinity
        ⟨5, ⟨0, 0, 0⟩, ⟨0, 1, 0⟩, false, Surface.null, ⟨7, ⟨1 / 3, 1 / 3⟩, ⟨1 / 2, 1 / 2⟩⟩⟩ =
      some (true, ⟨1, ⟨1 / 4, 1 / 4, 0⟩, ⟨0, 0, 1⟩, true, Surface.base AABB.default true,
        ⟨7, ⟨1 / 3, 1 / 3⟩, ⟨1 / 2, 1 / 2⟩⟩⟩) := by
    simp only [TriMesh.RayFaceHit, List.get?, HitRecord.SetSurface, HitRecord.SetNormal,
      HitRecord.SetPoint, HitRecord.SetRayT, Ray.At, Ray.GetDirection, Vec3r.smul, Vec3r.add,
      Vec3r.dot]
    norm_num
  exact ⟨h, triMesh_rayFaceHit_keeps_faceGeoUV _ _ _ _ _ _ _ _ _ rfl h⟩

/-! ## BuildBVH: null results -/

/-- A node returned by the recursive `BuildBVH` is not null. -/
theorem BVHNode.buildBVHRange_isNull (S : StdSort) (surfaces : List (Surface K))
    (start end_ split_axis : Nat) (node : Surface K)
    (h : BVHNode.BuildBVHRange S surfaces start end_ split_axis = some node) :
    node.isNull = false := by
  unfold BVHNode.BuildBVHRange at h
  simp only at h
  split_ifs at h with h1 h2 h0 hany
  · split at h
    · split_ifs at h
      cases h
      rfl
    · cases h
  · split at h
    · split_ifs at h
      cases h
      rfl
    · cases h
  all_goals
    split at h
    · cases h
    · split at h
      · cases h
      · cases h
        rfl

/-- The recursive `BuildBVH` returns a node on every non-empty list of non-null
surfaces. -/
theorem BVHNode.buildBVHRange_isSome (S : StdSort) :
    ∀ (n : Nat) (surfaces : List (Surface K)) (start end_ split_axis : Nat),
      surfaces.length = n → 0 < n → (∀ s ∈ surfaces, s.isNull = false) →
      ∃ node, BVHNode.BuildBVHRange S surfaces start end_ split_axis = some node := by
  intro n
  induction n using Nat.strong_induction_on with
  | _ n ih =>
    intro surfaces start end_ split_axis hlen hpos hnn
    match surfaces, hlen, hnn with
    | [], hlen, _ =>
      simp at hlen
      omega
    | [s0], _, hnn =>
      rw [BVHNode.buildBVHRange_one, hnn s0 (List.mem_cons_self _ _)]
      exact ⟨_, rfl⟩
    | [s0, s1], _, hnn =>
      rw [BVHNode.buildBVHRange_two, hnn s0 (List.mem_cons_self _ _),
        hnn s1 (List.mem_cons_of_mem _ (List.mem_cons_self _ _))]
      exact ⟨_, rfl⟩
    | s0 :: s1 :: s2 :: rest, hlen, hnn =>
      have h3 : 3 ≤ (s0 :: s1 :: s2 :: rest).length := by simp
      rw [BVHNode.buildBVHRange_many S _ start end_ split_axis h3 hnn]
      set sorted := S.sort (BVHNode.sortComp
        (if split_axis = 0 then 0 else if split_axis = 1 then 1 else 2))
        ((s0 :: s1 :: s2 :: rest).map Surface.touch) with hsorted
      have hsl : sorted.length = n := by
        rw [hsorted, StdSort.length_sort, List.length_map, hlen]
      have hsn : ∀ s ∈ sorted, s.isNull = false := by
        intro s hs
        rw [hsorted, StdSort.mem_sort, List.mem_map] at hs
        obtain ⟨t, ht, rfl⟩ := hs
        rw [Surface.isNull_touch]
        exact hnn t ht
      have hn3 : 3 ≤ n := by rw [← hlen]; exact h3
      rw [hlen]
      obtain ⟨left, hleft⟩ := ih (sorted.take (n / 2)).length
        (by rw [List.length_take, hsl]; omega) (sorted.take (n / 2)) 0 (n / 2)
        ((split_axis + 1) % 3) rfl (by rw [List.length_take, hsl]; omega)
        (fun s hs => hsn s (List.mem_of_mem_take hs))
      obtain ⟨right, hright⟩ := ih (sorted.drop (n / 2)).length
        (by rw [List.length_drop, hsl]; omega) (sorted.drop (n / 2)) (n / 2) (n - 1)
        ((split_axis + 1) % 3) rfl (by rw [List.length_drop, hsl]; omega)
        (fun s hs => hsn s (List.mem_of_mem_drop hs))
      rw [hleft]
      simp only
      rw [hright]
      exact ⟨_, rfl⟩

/-- C29: `BVHNode::BuildBVH(surfaces)` returns a null node if and only if the input
list is empty (on the empty list it returns `nullptr`, and whenever it returns on a
non-empty list the node is not null); for every non-empty list of non-null surfaces
it returns, with a non-null node. -/
theorem buildBVH_null_iff_empty (S : StdSort) (surfaces : List (Surface K)) :
    (surfaces = [] → BVHNode.BuildBVH S surfaces = some Surface.null) ∧
    (∀ node, BVHNode.BuildBVH S surfaces = some node →
      (node.isNull = true ↔ surfaces = [])) ∧
    (surfaces ≠ [] → (∀ s ∈ surfaces, s.isNull = false) →
      ∃ node, BVHNode.BuildBVH S surfaces = some node ∧ node.isNull = false) := by
  have hempty : surfaces = [] → BVHNode.BuildBVH S surfaces = some Surface.null := by
    intro h
    rw [h]
    rfl
  have hne : surfaces ≠ [] → ∀ node, BVHNode.BuildBVH S surfaces = some node →
      node.isNull = false := by
    intro hne node h
    rw [BVHNode.buildBVH_eq S surfaces hne] at h
    split at h
    · cases h
    · next bvh_node hb =>
      cases h
      rw [Surface.isNull_touch]
      exact BVHNode.buildBVHRange_isNull S _ _ _ _ _ hb
  refine ⟨hempty, fun node h => ?_, fun hn hnn => ?_⟩
  · constructor
    · intro hnull
      by_contra hn
      rw [hne hn node h] at hnull
      cases hnull
    · intro he
      rw [hempty he] at h
      cases h
      rfl
  · obtain ⟨bvh_node, hb⟩ := BVHNode.buildBVHRange_isSome S (surfaces.map Surface.touch).length
      (surfaces.map Surface.touch) 0 surfaces.length 0 rfl
      (by rw [List.length_map]; exact List.length_pos.mpr hn)
      (by
        intro s hs
        rw [List.mem_map] at hs
        obtain ⟨t, ht, rfl⟩ := hs
        rw [Surface.isNull_touch]
        exact hnn t ht)
    have h : BVHNode.BuildBVH S surfaces = some bvh_node.touch := by
      rw [BVHNode.buildBVH_eq S surfaces hn, hb]
    exact ⟨_, h, hne hn _ h⟩

theorem buildBVH_null_iff_empty_witness :
    BVHNode.BuildBVH StdSort.insertion ([] : List (Surface ℚ)) = some Surface.null ∧
    ∃ node, BVHNode.BuildBVH StdSort.insertion Surface.exampleSpheres = some node ∧
      node.isNull = false :=
  ⟨(buildBVH_null_iff_empty StdSort.insertion ([] : List (Surface ℚ))).1 rfl,
   (buildBVH_null_iff_empty StdSort.insertion Surface.exampleSpheres).2.2
    (by simp [Surface.exampleSpheres]) (by simp [Surface.exampleSpheres, Surface.isNull])⟩

/-! ## BuildBVH: the sort comparator -/

/-- C30: the comparator of the recursive `BuildBVH` compares the midpoint of `lhs`
with `rhs.max + (rhs.max − rhs.min)/2`, not with the midpoint of `rhs`.  For the three
unit spheres with centers `(0,0,0)`, `(1,0,0)`, `(2,0,0)` (midpoints 0, 1, 2 along
x), as `BuildBVH` passes them on after `GetBoundingBox()`, the comparator is false on
every pair, also on the third against the first although its midpoint is greater;
the insertion sort that `std::sort` runs on a short range leaves the list as it is, in
ascending and not in descending order of midpoint. -/
theorem buildBVH_sort_comparator_not_midpoint :
    ([Sphere.Create ⟨0, 0, 0⟩ 1, Sphere.Create ⟨1, 0, 0⟩ 1, Sphere.Create ⟨2, 0, 0⟩ 1].map
      Surface.touch : List (Surface ℚ)) =
      [Surface.sphere ⟨0, 0, 0⟩ 1 ⟨⟨-1, -1, -1⟩, ⟨1, 1, 1⟩⟩ false,
       Surface.sphere ⟨1, 0, 0⟩ 1 ⟨⟨0, -1, -1⟩, ⟨2, 1, 1⟩⟩ false,
       Surface.sphere ⟨2, 0, 0⟩ 1 ⟨⟨1, -1, -1⟩, ⟨3, 1, 1⟩⟩ false] ∧
    ((Surface.sphere ⟨0, 0, 0⟩ 1 ⟨⟨-1, -1, -1⟩, ⟨1, 1, 1⟩⟩ false : Surface ℚ).box.midpoint 0 = 0 ∧
      (Surface.sphere ⟨1, 0, 0⟩ 1 ⟨⟨0, -1, -1⟩, ⟨2, 1, 1⟩⟩ false : Surface ℚ).box.midpoint 0 = 1 ∧
      (Surface.sphere ⟨2, 0, 0⟩ 1 ⟨⟨1, -1, -1⟩, ⟨3, 1, 1⟩⟩ false : Surface ℚ).box.midpoint 0 = 2) ∧
    BVHNode.sortComp 0 (Surface.sphere ⟨2, 0, 0⟩ 1 ⟨⟨1, -1, -1⟩, ⟨3, 1, 1⟩⟩ false : Surface ℚ)
      (Surface.sphere ⟨0, 0, 0⟩ 1 ⟨⟨-1, -1, -1⟩, ⟨1, 1, 1⟩⟩ false) = false ∧
    (∀ x ∈ ([Surface.sphere ⟨0, 0, 0⟩ 1 ⟨⟨-1, -1, -1⟩, ⟨1, 1, 1⟩⟩ false,
        Surface.sphere ⟨1, 0, 0⟩ 1 ⟨⟨0, -1, -1⟩, ⟨2, 1, 1⟩⟩ false,
        Surface.sphere ⟨2, 0, 0⟩ 1 ⟨⟨1, -1, -1⟩, ⟨3, 1, 1⟩⟩ false] : List (Surface ℚ)),
      ∀ y ∈ ([Surface.sphere ⟨0, 0, 0⟩ 1 ⟨⟨-1, -1, -1⟩, ⟨1, 1, 1⟩⟩ false,
        Surface.sphere ⟨1, 0, 0⟩ 1 ⟨⟨0, -1, -1⟩, ⟨2, 1, 1⟩⟩ false,
        Surface.sphere ⟨2, 0, 0⟩ 1 ⟨⟨1, -1, -1⟩, ⟨3, 1, 1⟩⟩ false] : List (Surface ℚ)),
      BVHNode.sortComp 0 x y = false) ∧
    StdSort.linear.sort (BVHNode.sortComp 0)
      ([Surface.sphere ⟨0, 0, 0⟩ 1 ⟨⟨-1, -1, -1⟩, ⟨1, 1, 1⟩⟩ false,
        Surface.sphere ⟨1, 0, 0⟩ 1 ⟨⟨0, -1, -1⟩, ⟨2, 1, 1⟩⟩ false,
        Surface.sphere ⟨2, 0, 0⟩ 1 ⟨⟨1, -1, -1⟩, ⟨3, 1, 1⟩⟩ false] : List (Surface ℚ)) =
      [Surface.sphere ⟨0, 0, 0⟩ 1 ⟨⟨-1, -1, -1⟩, ⟨1, 1, 1⟩⟩ false,
       Surface.sphere ⟨1, 0, 0⟩ 1 ⟨⟨0, -1, -1⟩, ⟨2, 1, 1⟩⟩ false,
       Surface.sphere ⟨2, 0, 0⟩ 1 ⟨⟨1, -1, -1⟩, ⟨3, 1, 1⟩⟩ false] := by
  have htouch : ∀ c : ℚ, -(10 ^ 5) < c → c < 10 ^ 5 →
      (Sphere.Create (⟨c, 0, 0⟩ : Vec3r ℚ) 1).touch =
        Surface.sphere ⟨c, 0, 0⟩ 1 ⟨⟨c - 1, -1, -1⟩, ⟨c + 1, 1, 1⟩⟩ false := by
    intro c h1 h2
    have hp : (⟨(⟨c, 0, 0⟩ : Vec3r ℚ).sub ⟨1, 1, 1⟩, (⟨c, 0, 0⟩ : Vec3r ℚ).add ⟨1, 1, 1⟩⟩ :
        AABB ℚ).Proper := by
      apply AABB.proper_small
      rw [Vec3r.forall_fin3]
      simp only [Vec3r.get_zero, Vec3r.get_one, Vec3r.get_two, Vec3r.sub, Vec3r.add]
      refine ⟨⟨by linarith, by linarith, by linarith⟩, ⟨by norm_num, by norm_num, by norm_num⟩,
        ⟨by norm_num, by norm_num, by norm_num⟩⟩
    rw [Sphere.Create, Surface.touch_sphere, Surface.box_sphere_dirty,
      AABB.reset_expandBy _ _ hp]
    simp only [Vec3r.sub, Vec3r.add]
    norm_num
  have hc : ∀ (c1 c2 : ℚ), c1 ≤ c2 + 2 →
      BVHNode.sortComp 0
        (Surface.sphere ⟨c1, 0, 0⟩ 1 ⟨⟨c1 - 1, -1, -1⟩, ⟨c1 + 1, 1, 1⟩⟩ false : Surface ℚ)
        (Surface.sphere ⟨c2, 0, 0⟩ 1 ⟨⟨c2 - 1, -1, -1⟩, ⟨c2 + 1, 1, 1⟩⟩ false) = false := by
    intro c1 c2 h
    simp only [BVHNode.sortComp, Surface.GetBoundingBox, AABB.GetMin, AABB.GetMax,
      Vec3r.get_zero, Bool.not_false, Bool.and_true, Bool.not_true, Bool.false_eq_true,
      if_false, if_true, decide_eq_false_iff_not, not_lt, gt_iff_lt]
    linarith
  have h00 := hc 0 0 (by norm_num)
  have h01 := hc 0 1 (by norm_num)
  have h02 := hc 0 2 (by norm_num)
  have h10 := hc 1 0 (by norm_num)
  have h11 := hc 1 1 (by norm_num)
  have h12 := hc 1 2 (by norm_num)
  have h20 := hc 2 0 (by norm_num)
  have h21 := hc 2 1 (by norm_num)
  have h22 := hc 2 2 (by norm_num)
  norm_num at h00 h01 h02 h10 h11 h12 h20 h21 h22
  refine ⟨?_, ⟨?_, ?_, ?_⟩, h20, ?_, ?_⟩
  · have e0 := htouch 0 (by norm_num) (by norm_num)
    have e1 := htouch 1 (by norm_num) (by norm_num)
    have e2 := htouch 2 (by norm_num) (by norm_num)
    norm_num at e0 e1 e2
    simp only [List.map, e0, e1, e2]
  · simp only [Surface.box_sphere_clean, AABB.midpoint, Vec3r.get_zero]
    norm_num
  · simp only [Surface.box_sphere_clean, AABB.midpoint, Vec3r.get_zero]
    norm_num
  · simp only [Surface.box_sphere_clean, AABB.midpoint, Vec3r.get_zero]
    norm_num
  · intro x hx y hy
    simp only [List.mem_cons, List.mem_singleton, List.not_mem_nil, or_false] at hx hy
    rcases hx with rfl | rfl | rfl <;> rcases hy with rfl | rfl | rfl <;> assumption
  · show StdSort.linearInsertionSort _ _ = _
    simp only [StdSort.linearInsertionSort, List.foldl, StdSort.linearInsert, h10, h20, h21,
      Bool.false_eq_true, if_false, List.reverse_cons, List.reverse_nil, List.nil_append,
      List.cons_append, List.dropWhile, List.takeWhile, List.append_nil]

/-! ## Render -/

theorem Image.set_rows (image : Image K) (row col : Nat) (color : Vec3r K) :
    (image.set row col color).rows = image.rows ∧ (image.set row col color).cols = image.cols :=
  ⟨rfl, rfl⟩

/-- The loop over `x` keeps the dimensions of the image. -/
theorem RayTracer.renderRow_dims (C : CMath K) (GetMaterial : Surface K → Material K)
    (RAND_MAX : Nat) (rand : Nat → Nat) (uninit : Vec3r K) (samples_per_pixel : Int)
    (scene : Surface K) (lights : List (Light K)) (max_ray_depth : Nat) (camera : Camera K)
    (xscale yscale : K) (height y : Nat) :
    ∀ (xs : List Nat) (image : Image K) (n : Nat) (image1 : Image K) (n1 : Nat),
      RayTracer.renderRow C GetMaterial RAND_MAX rand uninit samples_per_pixel scene lights
        max_ray_depth camera xscale yscale height y xs image n = some (image1, n1) →
      image1.rows = image.rows ∧ image1.cols = image.cols := by
  intro xs
  induction xs with
  | nil =>
    intro image n image1 n1 h
    simp only [RayTracer.renderRow, Option.some.injEq, Prod.mk.injEq] at h
    rw [← h.1]
    exact ⟨rfl, rfl⟩
  | cons x xs ih =>
    intro image n image1 n1 h
    simp only [RayTracer.renderRow] at h
    split at h
    · cases h
    · have h3 := ih _ _ _ _ h
      exact h3

/-- The loop over `y` keeps the dimensions of the image. -/
theorem RayTracer.renderRows_dims (C : CMath K) (GetMaterial : Surface K → Material K)
    (RAND_MAX : Nat) (rand : Nat → Nat) (uninit : Vec3r K) (samples_per_pixel : Int)
    (scene : Surface K) (lights : List (Light K)) (max_ray_depth : Nat) (camera : Camera K)
    (xscale yscale : K) (height width : Nat) :
    ∀ (ys : List Nat) (image : Image K) (n : Nat) (image1 : Image K) (n1 : Nat),
      RayTracer.renderRows C GetMaterial RAND_MAX rand uninit samples_per_pixel scene lights
        max_ray_depth camera xscale yscale height width ys image n = some (image1, n1) →
      image1.rows = image.rows ∧ image1.cols = image.cols := by
  intro ys
  induction ys with
  | nil =>
    intro image n image1 n1 h
    simp only [RayTracer.renderRows, Option.some.injEq, Prod.mk.injEq] at h
    rw [← h.1]
    exact ⟨rfl, rfl⟩
  | cons y ys ih =>
    intro image n image1 n1 h
    simp only [RayTracer.renderRows] at h
    split at h
    · cases h
    · next image2 n2 h2 =>
      obtain ⟨h3, h4⟩ := ih _ _ _ _ h
      obtain ⟨h5, h6⟩ := RayTracer.renderRow_dims C GetMaterial RAND_MAX rand uninit
        samples_per_pixel scene lights max_ray_depth camera xscale yscale height y _ _ _ _ _ h2
      exact ⟨h3.trans h5, h4.trans h6⟩

theorem RayTracer.sampleLoop_isSome (C : CMath K) (GetMaterial : Surface K → Material K)
    (RAND_MAX : Nat) (rand : Nat → Nat) (scene : Surface K) (lights : List (Light K))
    (max_ray_depth : Nat) (camera : Camera K) (x y : Nat) (xscale yscale : K)
    (hray : ∀ ray n, ∃ r, RayTracer.RayColor C GetMaterial RAND_MAX rand scene lights
      max_ray_depth ray 0 n = some r) :
    ∀ (m n : Nat) (ray_color : Vec3r K),
      ∃ r, RayTracer.sampleLoop C GetMaterial RAND_MAX rand scene lights max_ray_depth camera
        x y xscale yscale m n ray_color = some r := by
  intro m
  induction m with
  | zero => exact fun n ray_color => ⟨_, rfl⟩
  | succ m ih =>
    intro n ray_color
    simp only [RayTracer.sampleLoop]
    split
    · next hnone =>
      obtain ⟨r, hr⟩ := hray _ (n + 2)
      rw [hr] at hnone
      cases hnone
    · exact ih _ _

theorem RayTracer.renderPixel_isSome (C : CMath K) (GetMaterial : Surface K → Material K)
    (RAND_MAX : Nat) (rand : Nat → Nat) (uninit : Vec3r K) (samples_per_pixel : Int)
    (scene : Surface K) (lights : List (Light K)) (max_ray_depth : Nat) (camera : Camera K)
    (xscale yscale : K) (x y n : Nat)
    (hray : ∀ ray n, ∃ r, RayTracer.RayColor C GetMaterial RAND_MAX rand scene lights
      max_ray_depth ray 0 n = some r) :
    ∃ r, RayTracer.renderPixel C GetMaterial RAND_MAX rand uninit samples_per_pixel scene
      lights max_ray_depth camera xscale yscale x y n = some r := by
  simp only [RayTracer.renderPixel]
  split_ifs
  · split
    · next hnone =>
      obtain ⟨r, hr⟩ := hray _ n
      rw [hr] at hnone
      cases hnone
    · exact ⟨_, rfl⟩
  · split
    · next hnone =>
      obtain ⟨r, hr⟩ := RayTracer.sampleLoop_isSome C GetMaterial RAND_MAX rand scene lights
        max_ray_depth camera x y xscale yscale hray samples_per_pixel.toNat n uninit
      rw [hr] at hnone
      cases hnone
    · exact ⟨_, rfl⟩

theorem RayTracer.renderRow_isSome (C : CMath K) (GetMaterial : Surface K → Material K)
    (RAND_MAX : Nat) (rand : Nat → Nat) (uninit : Vec3r K) (samples_per_pixel : Int)
    (scene : Surface K) (lights : List (Light K)) (max_ray_depth : Nat) (camera : Camera K)
    (xscale yscale : K) (height y : Nat)
    (hray : ∀ ray n, ∃ r, RayTracer.RayColor C GetMaterial RAND_MAX rand scene lights
      max_ray_depth ray 0 n = some r) :
    ∀ (xs : List Nat) (image : Image K) (n : Nat),
      ∃ r, RayTracer.renderRow C GetMaterial RAND_MAX rand uninit samples_per_pixel scene lights
        max_ray_depth camera xscale yscale height y xs image n = some r := by
  intro xs
  induction xs with
  | nil => exact fun image n => ⟨_, rfl⟩
  | cons x xs ih =>
    intro image n
    simp only [RayTracer.renderRow]
    split
    · next hnone =>
      obtain ⟨r, hr⟩ := RayTracer.renderPixel_isSome C GetMaterial RAND_MAX rand uninit
        samples_per_pixel scene lights max_ray_depth camera xscale yscale x y n hray
      rw [hr] at hnone
      cases hnone
    · exact ih _ _

theorem RayTracer.renderRows_isSome (C : CMath K) (GetMaterial : Surface K → Material K)
    (RAND_MAX : Nat) (rand : Nat → Nat) (uninit : Vec3r K) (samples_per_pixel : Int)
    (scene : Surface K) (lights : List (Light K)) (max_ray_depth : Nat) (camera : Camera K)
    (xscale yscale : K) (height width : Nat)
    (hray : ∀ ray n, ∃ r, RayTracer.RayColor C GetMaterial RAND_MAX rand scene lights
      max_ray_depth ray 0 n = some r) :
    ∀ (ys : List Nat) (image : Image K) (n : Nat),
      ∃ r, RayTracer.renderRows C GetMaterial RAND_MAX rand uninit samples_per_pixel scene
        lights max_ray_depth camera xscale yscale height width ys image n = some r := by
  intro ys
  induction ys with
  | nil => exact fun image n => ⟨_, rfl⟩
  | cons y ys ih =>
    intro image n
    simp only [RayTracer.renderRows]
    split
    · next hnone =>
      obtain ⟨r, hr⟩ := RayTracer.renderRow_isSome C GetMaterial RAND_MAX rand uninit
        samples_per_pixel scene lights max_ray_depth camera xscale yscale height y hray
        (List.range width) image n
      rw [hr] at hnone
      cases hnone
    · exact ih _ _

/-- Function `Render` past its guards: the steps after the dimension test. -/
theorem RayTracer.render_eq [FloorRing K] (C : CMath K) (GetMaterial : Surface K → Material K)
    (RAND_MAX : Nat) (rand : Nat → Nat) (uninit : Vec3r K) (rt : RayTracer K)
    (scene : Surface K) (lights : List (Light K)) (cam : Camera K) (n : Nat) (width : Int)
    (hscene : scene.isNull = false)
    (hw : realToInt (cam.GetAspectRatio * ((uintToInt rt.image_height_ : Int) : K) + 1 / 2) =
      some width) :
    RayTracer.Render C GetMaterial RAND_MAX rand uninit rt scene lights (some cam) n =
      if uintToInt rt.image_height_ ≤ 0 ∨ width ≤ 0 then some (false, rt, n)
      else if width * uintToInt rt.image_height_ ≥ 2 ^ 31 then none
      else
        match RayTracer.renderRows C GetMaterial RAND_MAX rand uninit rt.samples_per_pixel_
            scene lights rt.max_ray_depth_ cam (1 / (width : K))
            (1 / ((uintToInt rt.image_height_ : Int) : K)) (uintToInt rt.image_height_).toNat
            width.toNat (List.range (uintToInt rt.image_height_).toNat)
            (Image.zeros width.toNat (uintToInt rt.image_height_).toNat) n with
        | none => none
        | some (image1, n1) => some (true, { rt with rendered_image_ := image1 }, n1) := by
  simp only [RayTracer.Render, hscene, Bool.false_eq_true, if_false, hw]

/-- C26: `RayTracer::Render` returns false and leaves the ray tracer (so the stored
image) unchanged whenever the scene is null, the camera is null, or the height
`static_cast<int>(image_height_)` or the width
`static_cast<int>(aspect · height + 0.5)` is `≤ 0`.  Otherwise, whenever it returns,
it returns true and the stored image has exactly `height` rows and `width` columns;
and it does return when `width · height` is an `int`, no light is null and every
dielectric has a `SolidTexture`. -/
theorem render_guards [FloorRing K] (C : CMath K) (GetMaterial : Surface K → Material K)
    (RAND_MAX : Nat) (rand : Nat → Nat) (uninit : Vec3r K) (rt : RayTracer K)
    (scene : Surface K) (lights : List (Light K)) (camera : Option (Camera K)) (n : Nat) :
    ((scene.isNull = true ∨ camera = none) →
      RayTracer.Render C GetMaterial RAND_MAX rand uninit rt scene lights camera n =
        some (false, rt, n)) ∧
    (∀ (cam : Camera K) (width : Int), scene.isNull = false → camera = some cam →
      realToInt (cam.GetAspectRatio * ((uintToInt rt.image_height_ : Int) : K) + 1 / 2) =
        some width →
      ((uintToInt rt.image_height_ ≤ 0 ∨ width ≤ 0) →
        RayTracer.Render C GetMaterial RAND_MAX rand uninit rt scene lights camera n =
          some (false, rt, n)) ∧
      (0 < uintToInt rt.image_height_ → 0 < width →
        (∀ (b : Bool) (rt1 : RayTracer K) (n1 : Nat),
          RayTracer.Render C GetMaterial RAND_MAX rand uninit rt scene lights camera n =
            some (b, rt1, n1) →
          b = true ∧ (rt1.rendered_image_.rows : Int) = uintToInt rt.image_height_ ∧
            (rt1.rendered_image_.cols : Int) = width) ∧
        (width * uintToInt rt.image_height_ < 2 ^ 31 → (∀ l ∈ lights, l ≠ Light.null) →
          (∀ s d, GetMaterial s = Material.dielectric d →
            ∃ color gain bias, d.diffuse_ = Texture.solid color gain bias) →
          ∃ rt1 n1, RayTracer.Render C GetMaterial RAND_MAX rand uninit rt scene lights
            camera n = some (true, rt1, n1)))) := by
  constructor
  · rintro (h | h)
    · cases camera with
      | none => rfl
      | some cam => simp only [RayTracer.Render, h, if_true]
    · rw [h]
      rfl
  · intro cam width hscene hcam hw
    rw [hcam, RayTracer.render_eq C GetMaterial RAND_MAX rand uninit rt scene lights cam n width
      hscene hw]
    constructor
    · intro h
      rw [if_pos h]
    · intro hh hwd
      have hguard : ¬ (uintToInt rt.image_height_ ≤ 0 ∨ width ≤ 0) := by
        rintro (h | h) <;> omega
      rw [if_neg hguard]
      constructor
      · intro b rt1 n1 h
        split_ifs at h
        split at h
        · cases h
        · next image1 n2 hrows =>
          simp only [Option.some.injEq, Prod.mk.injEq] at h
          obtain ⟨hb, hrt, _⟩ := h
          obtain ⟨h1, h2⟩ := RayTracer.renderRows_dims C GetMaterial RAND_MAX rand uninit
            rt.samples_per_pixel_ scene lights rt.max_ray_depth_ cam _ _ _ _ _ _ _ _ _ hrows
          rw [← hrt]
          refine ⟨hb.symm, ?_, ?_⟩
          · show (image1.rows : Int) = _
            rw [h1]
            exact Int.toNat_of_nonneg (le_of_lt hh)
          · show (image1.cols : Int) = _
            rw [h2]
            exact Int.toNat_of_nonneg (le_of_lt hwd)
      · intro hprod hlights hsolid
        have hp : ¬ width * uintToInt rt.image_height_ ≥ 2 ^ 31 := not_le.mpr hprod
        rw [if_neg hp]
        have hray : ∀ ray n, ∃ r, RayTracer.RayColor C GetMaterial RAND_MAX rand scene lights
            rt.max_ray_depth_ ray 0 n = some r := fun ray n =>
          RayTracer.rayColor_isSome C GetMaterial RAND_MAX rand scene lights rt.max_ray_depth_
            hscene hlights hsolid (rt.max_ray_depth_ - 0) ray 0 n rfl
        obtain ⟨⟨image1, n2⟩, hr⟩ := RayTracer.renderRows_isSome C GetMaterial RAND_MAX rand
          uninit rt.samples_per_pixel_ scene lights rt.max_ray_depth_ cam (1 / (width : K))
          (1 / ((uintToInt rt.image_height_ : Int) : K)) (uintToInt rt.image_height_).toNat
          width.toNat hray (List.range (uintToInt rt.image_height_).toNat)
          (Image.zeros width.toNat (uintToInt rt.image_height_).toNat) n
        rw [hr]
        exact ⟨_, _, rfl⟩

theorem render_guards_witness :
    RayTracer.Render CMath.rat (fun _ => Material.phong PhongMaterial.exampleMatte) 32767
        (fun _ => 0) ⟨0, 0, 0⟩ ⟨2, Image.empty, 5, 1⟩ Surface.null
        [Light.point ⟨⟨0, 5, 0⟩, ⟨1, 1, 1⟩⟩] (some ⟨1, ⟨0, 0, 0⟩, ⟨-1, -1, -1⟩, ⟨2, 0, 0⟩, ⟨0, 2, 0⟩⟩)
        0 = some (false, ⟨2, Image.empty, 5, 1⟩, 0) ∧
    ∃ rt1 n1, RayTracer.Render CMath.rat (fun _ => Material.phong PhongMaterial.exampleMatte)
        32767 (fun _ => 0) ⟨0, 0, 0⟩ ⟨2, Image.empty, 5, 1⟩
        (Surface.sphere ⟨0, 0, -5⟩ 1 AABB.default true) [Light.point ⟨⟨0, 5, 0⟩, ⟨1, 1, 1⟩⟩]
        (some ⟨1, ⟨0, 0, 0⟩, ⟨-1, -1, -1⟩, ⟨2, 0, 0⟩, ⟨0, 2, 0⟩⟩) 0 = some (true, rt1, n1) ∧
      rt1.rendered_image_.rows = 2 ∧ rt1.rendered_image_.cols = 2 := by
  have hw : realToInt ((⟨1, ⟨0, 0, 0⟩, ⟨-1, -1, -1⟩, ⟨2, 0, 0⟩, ⟨0, 2, 0⟩⟩ :
      Camera ℚ).GetAspectRatio *
      ((uintToInt (⟨2, Image.empty, 5, 1⟩ : RayTracer ℚ).image_height_ : Int) : ℚ) + 1 / 2) =
      some 2 := by
    have hf : ⌊(5 / 2 : ℚ)⌋ = 2 := by
      rw [Int.floor_eq_iff]
      norm_num
    have hu : uintToInt 2 = 2 := by decide
    simp only [Camera.GetAspectRatio, hu]
    norm_num [realToInt, hf]
  have hu : uintToInt (⟨2, Image.empty, 5, 1⟩ : RayTracer ℚ).image_height_ = 2 := by decide
  refine ⟨(render_guards CMath.rat (fun _ => Material.phong PhongMaterial.exampleMatte) 32767
    (fun _ => 0) ⟨0, 0, 0⟩ ⟨2, Image.empty, 5, 1⟩ Surface.null
    [Light.point ⟨⟨0, 5, 0⟩, ⟨1, 1, 1⟩⟩]
    (some ⟨1, ⟨0, 0, 0⟩, ⟨-1, -1, -1⟩, ⟨2, 0, 0⟩, ⟨0, 2, 0⟩⟩) 0).1 (Or.inl rfl), ?_⟩
  obtain ⟨hdims, hret⟩ := ((render_guards CMath.rat
    (fun _ => Material.phong PhongMaterial.exampleMatte) 32767
    (fun _ => 0) ⟨0, 0, 0⟩ ⟨2, Image.empty, 5, 1⟩ (Surface.sphere ⟨0, 0, -5⟩ 1 AABB.default true)
    [Light.point ⟨⟨0, 5, 0⟩, ⟨1, 1, 1⟩⟩]
    (some ⟨1, ⟨0, 0, 0⟩, ⟨-1, -1, -1⟩, ⟨2, 0, 0⟩, ⟨0, 2, 0⟩⟩) 0).2 _ 2 rfl rfl hw).2
    (by rw [hu]; norm_num) (by norm_num)
  obtain ⟨rt1, n1, h⟩ := hret (by rw [hu]; norm_num) (by simp) (by simp)
  obtain ⟨_, h1, h2⟩ := hdims true rt1 n1 h
  rw [hu] at h1
  exact ⟨rt1, n1, h, by exact_mod_cast h1, by exact_mod_cast h2⟩

/-! ## IntersectWith and IsPointInside -/

theorem AABB.default_no_point (p : Vec3r K) : (AABB.default : AABB K).IsPointInside p = false := by
  rw [← Bool.not_eq_true, AABB.isPointInside_iff]
  rintro ⟨⟨h1, h2⟩, _⟩
  have hk : (0 : K) < kInfinity := kInfinity_pos
  simp only [AABB.default] at h1 h2
  linarith

/-- C37: for all valid boxes `A` and `B` (`IsValid()`) and every point `p`,
`IsPointInside(A.IntersectWith(B), p)` holds iff `IsPointInside(A, p)` and
`IsPointInside(B, p)` both hold; and when the operands are disjoint on some axis no
point is inside the box that `IntersectWith` returns. -/
theorem aabb_intersectWith_pointInside (A B : AABB K) (p : Vec3r K)
    (hA : A.IsValid = true) (hB : B.IsValid = true) :
    ((A.IntersectWith B).IsPointInside p = true ↔
      (A.IsPointInside p = true ∧ B.IsPointInside p = true)) ∧
    ((∃ i : Fin 3, A.max_.get i < B.min_.get i ∨ A.min_.get i > B.max_.get i) →
      (A.IntersectWith B).IsPointInside p = false) := by
  have hdisj : (∃ i : Fin 3, A.max_.get i < B.min_.get i ∨ A.min_.get i > B.max_.get i) →
      A.IntersectWith B = AABB.default := by
    intro h
    have hc : (decide (A.max_.get 0 < B.min_.get 0) || decide (A.min_.get 0 > B.max_.get 0) ||
        decide (A.max_.get 1 < B.min_.get 1) || decide (A.min_.get 1 > B.max_.get 1) ||
        decide (A.max_.get 2 < B.min_.get 2) || decide (A.min_.get 2 > B.max_.get 2)) = true := by
      obtain ⟨i, hi⟩ := h
      simp only [Bool.or_eq_true, decide_eq_true_eq]
      revert hi
      revert i
      rw [Vec3r.forall_fin3]
      refine ⟨?_, ?_, ?_⟩ <;> intro hi <;> tauto
    simp only [AABB.IntersectWith, hA, hB, Bool.not_true, Bool.or_self, Bool.false_eq_true,
      if_false, hc, if_true]
  have hmeet : (¬ ∃ i : Fin 3, A.max_.get i < B.min_.get i ∨ A.min_.get i > B.max_.get i) →
      A.IntersectWith B =
        ⟨⟨max (A.min_.get 0) (B.min_.get 0), max (A.min_.get 1) (B.min_.get 1),
          max (A.min_.get 2) (B.min_.get 2)⟩,
         ⟨min (A.max_.get 0) (B.max_.get 0), min (A.max_.get 1) (B.max_.get 1),
          min (A.max_.get 2) (B.max_.get 2)⟩⟩ := by
    intro h
    have hc : (decide (A.max_.get 0 < B.min_.get 0) || decide (A.min_.get 0 > B.max_.get 0) ||
        decide (A.max_.get 1 < B.min_.get 1) || decide (A.min_.get 1 > B.max_.get 1) ||
        decide (A.max_.get 2 < B.min_.get 2) || decide (A.min_.get 2 > B.max_.get 2)) = false := by
      rw [← Bool.not_eq_true]
      intro hc
      apply h
      simp only [Bool.or_eq_true, decide_eq_true_eq] at hc
      rcases hc with ((((hc | hc) | hc) | hc) | hc) | hc
      · exact ⟨0, Or.inl hc⟩
      · exact ⟨0, Or.inr hc⟩
      · exact ⟨1, Or.inl hc⟩
      · exact ⟨1, Or.inr hc⟩
      · exact ⟨2, Or.inl hc⟩
      · exact ⟨2, Or.inr hc⟩
    simp only [AABB.IntersectWith, hA, hB, Bool.not_true, Bool.or_self, Bool.false_eq_true,
      if_false, hc]
  by_cases hd : ∃ i : Fin 3, A.max_.get i < B.min_.get i ∨ A.min_.get i > B.max_.get i
  · refine ⟨?_, fun _ => by rw [hdisj hd]; exact AABB.default_no_point p⟩
    rw [hdisj hd, AABB.default_no_point p]
    constructor
    · intro h
      cases h
    · rintro ⟨h1, h2⟩
      exfalso
      rw [AABB.isPointInside_iff] at h1 h2
      obtain ⟨i, hi⟩ := hd
      revert hi
      revert i
      rw [Vec3r.forall_fin3]
      simp only [Vec3r.get_zero, Vec3r.get_one, Vec3r.get_two]
      obtain ⟨⟨a1, a2⟩, ⟨a3, a4⟩, a5, a6⟩ := h1
      obtain ⟨⟨b1, b2⟩, ⟨b3, b4⟩, b5, b6⟩ := h2
      refine ⟨?_, ?_, ?_⟩ <;> rintro (h | h) <;> linarith
  · refine ⟨?_, fun h => absurd h hd⟩
    rw [hmeet hd, AABB.isPointInside_iff, AABB.isPointInside_iff, AABB.isPointInside_iff]
    simp only [Vec3r.get_zero, Vec3r.get_one, Vec3r.get_two, max_le_iff, le_min_iff]
    tauto

theorem aabb_intersectWith_pointInside_witness :
    ((⟨⟨0, 0, 0⟩, ⟨2, 2, 2⟩⟩ : AABB ℚ).IntersectWith ⟨⟨1, 1, 1⟩, ⟨3, 3, 3⟩⟩).IsPointInside
        ⟨3 / 2, 3 / 2, 3 / 2⟩ = true ↔
      ((⟨⟨0, 0, 0⟩, ⟨2, 2, 2⟩⟩ : AABB ℚ).IsPointInside ⟨3 / 2, 3 / 2, 3 / 2⟩ = true ∧
        (⟨⟨1, 1, 1⟩, ⟨3, 3, 3⟩⟩ : AABB ℚ).IsPointInside ⟨3 / 2, 3 / 2, 3 / 2⟩ = true) :=
  (aabb_intersectWith_pointInside (⟨⟨0, 0, 0⟩, ⟨2, 2, 2⟩⟩ : AABB ℚ) ⟨⟨1, 1, 1⟩, ⟨3, 3, 3⟩⟩
    ⟨3 / 2, 3 / 2, 3 / 2⟩
    (AABB.isValid_small _ ⟨by norm_num, by norm_num, by norm_num⟩
      ⟨by norm_num, by norm_num, by norm_num⟩)
    (AABB.isValid_small _ ⟨by norm_num, by norm_num, by norm_num⟩
      ⟨by norm_num, by norm_num, by norm_num⟩)).1

/-! ## Ray::Reflect -/

theorem AABB.union_default_right (A : AABB K)
    (h : ∀ i : Fin 3, A.min_.get i ≤ kInfinity ∧ -kInfinity ≤ A.max_.get i) :
    AABB.union A AABB.default = A := by
  rw [Vec3r.forall_fin3] at h
  simp only [Vec3r.get_zero, Vec3r.get_one, Vec3r.get_two] at h
  obtain ⟨⟨h1, h2⟩, ⟨h3, h4⟩, h5, h6⟩ := h
  obtain ⟨⟨a1, a2, a3⟩, ⟨b1, b2, b3⟩⟩ := A
  simp only [AABB.union, AABB.default, AABB.mk.injEq, Vec3r.mk.injEq]
  exact ⟨⟨min_eq_left h1, min_eq_left h3, min_eq_left h5⟩,
    ⟨max_eq_left h2, max_eq_left h4, max_eq_left h6⟩⟩

theorem AABB.proper_or_default_bounds (A : AABB K) (hA : A.Proper ∨ A = AABB.default) :
    ∀ i : Fin 3, A.min_.get i ≤ kInfinity ∧ -kInfinity ≤ A.max_.get i := by
  intro i
  rcases hA with hA | hA
  · obtain ⟨h1, h2, h3⟩ := hA.2 i
    exact ⟨le_trans h1 h3, le_trans h2 h1⟩
  · rw [hA]
    revert i
    rw [Vec3r.forall_fin3]
    simp [AABB.default]

/-- C32: for all boxes `A` and `B` that are each either well-formed (`IsValid()`,
`min ≤ max` on every axis, finite coordinates) or fully reset,
`BVHNode::BBoxCombine(A, B)` equals the box obtained by `A.ExpandBy(B)`; and for all
boxes `BBoxCombine(A, B) = BBoxCombine(B, A)` and `BBoxCombine(A, A) = A`. -/
theorem bboxCombine_eq_expandBy (A B : AABB K) :
    ((A.Proper ∨ A = AABB.default) → (B.Proper ∨ B = AABB.default) →
      BVHNode.BBoxCombine A B = A.ExpandBy B) ∧
    BVHNode.BBoxCombine A B = BVHNode.BBoxCombine B A ∧
    BVHNode.BBoxCombine A A = A := by
  refine ⟨fun hA hB => ?_, ?_, ?_⟩
  · rw [BVHNode.bboxCombine_eq_union]
    rcases hB with hB | hB
    · rw [AABB.expandBy_eq_union A B hB]
    · rw [hB, AABB.expandBy_invalid A AABB.default AABB.default_not_valid]
      exact AABB.union_default_right A (AABB.proper_or_default_bounds A hA)
  · rw [BVHNode.bboxCombine_eq_union, BVHNode.bboxCombine_eq_union, AABB.union_comm]
  · obtain ⟨⟨a1, a2, a3⟩, ⟨b1, b2, b3⟩⟩ := A
    simp [BVHNode.BBoxCombine, AABB.GetMin, AABB.GetMax]

theorem bboxCombine_eq_expandBy_witness :
    BVHNode.BBoxCombine (⟨⟨0, 0, 0⟩, ⟨1, 1, 1⟩⟩ : AABB ℚ) AABB.default =
      (⟨⟨0, 0, 0⟩, ⟨1, 1, 1⟩⟩ : AABB ℚ).ExpandBy AABB.default :=
  (bboxCombine_eq_expandBy (⟨⟨0, 0, 0⟩, ⟨1, 1, 1⟩⟩ : AABB ℚ) AABB.default).1
    (Or.inl (AABB.proper_small _ (by rw [Vec3r.forall_fin3]; norm_num)))
    (Or.inr rfl)

/-! ## RandomReal -/

theorem RayTracer.randomReal_lt (RAND_MAX : Nat) (rand : Nat → Nat) (n : Nat)
    (h : rand n < RAND_MAX) : (RayTracer.RandomReal RAND_MAX rand n : K) = 0 := by
  simp only [RayTracer.RandomReal, Nat.div_eq_of_lt h, Nat.cast_zero]

theorem RayTracer.randomReal_eq (RAND_MAX : Nat) (rand : Nat → Nat) (n : Nat)
    (hpos : 0 < RAND_MAX) (h : rand n = RAND_MAX) :
    (RayTracer.RandomReal RAND_MAX rand n : K) = 1 := by
  simp only [RayTracer.RandomReal, h, Nat.div_self hpos, Nat.cast_one]

/-- C38: `RandomReal` divides two integers: for `RAND_MAX > 0` and an outcome
`r` of `std::rand()`, it returns exactly 0 when `r < RAND_MAX` and exactly 1 when
`r = RAND_MAX`.  The two jitter offsets of each iteration of the multi-sample loop of
`Render` are values of `RandomReal`, so with every outcome in `[0, RAND_MAX]` each of
them is 0 or 1. -/
theorem randomReal_zero_or_one (C : CMath K) (GetMaterial : Surface K → Material K)
    (RAND_MAX : Nat) (rand : Nat → Nat) (scene : Surface K) (lights : List (Light K))
    (max_ray_depth : Nat) (camera : Camera K) (x y : Nat) (xscale yscale : K) (m n : Nat)
    (ray_color : Vec3r K) (hpos : 0 < RAND_MAX) :
    (rand n < RAND_MAX → (RayTracer.RandomReal RAND_MAX rand n : K) = 0) ∧
    (rand n = RAND_MAX → (RayTracer.RandomReal RAND_MAX rand n : K) = 1) ∧
    RayTracer.sampleLoop C GetMaterial RAND_MAX rand scene lights max_ray_depth camera x y
        xscale yscale (m + 1) n ray_color =
      (match RayTracer.RayColor C GetMaterial RAND_MAX rand scene lights max_ray_depth
          (camera.GetRay (((x : K) + RayTracer.RandomReal RAND_MAX rand n) * xscale)
            (((y : K) + RayTracer.RandomReal RAND_MAX rand (n + 1)) * yscale)) 0 (n + 2) with
        | none => none
        | some r =>
          RayTracer.sampleLoop C GetMaterial RAND_MAX rand scene lights max_ray_depth camera
            x y xscale yscale m r.rand_calls (ray_color.add r.ray_color)) ∧
    ((∀ k, rand k ≤ RAND_MAX) →
      ((RayTracer.RandomReal RAND_MAX rand n : K) = 0 ∨
        (RayTracer.RandomReal RAND_MAX rand n : K) = 1) ∧
      ((RayTracer.RandomReal RAND_MAX rand (n + 1) : K) = 0 ∨
        (RayTracer.RandomReal RAND_MAX rand (n + 1) : K) = 1)) := by
  have h01 : ∀ k, rand k ≤ RAND_MAX →
      ((RayTracer.RandomReal RAND_MAX rand k : K) = 0 ∨
        (RayTracer.RandomReal RAND_MAX rand k : K) = 1) := by
    intro k hk
    rcases Nat.lt_or_eq_of_le hk with h | h
    · exact Or.inl (RayTracer.randomReal_lt RAND_MAX rand k h)
    · exact Or.inr (RayTracer.randomReal_eq RAND_MAX rand k hpos h)
  exact ⟨RayTracer.randomReal_lt RAND_MAX rand n,
    RayTracer.randomReal_eq RAND_MAX rand n hpos, rfl,
    fun hb => ⟨h01 n (hb n), h01 (n + 1) (hb (n + 1))⟩⟩

theorem randomReal_zero_or_one_witness :
    (RayTracer.RandomReal 32767 (fun _ => 16000) 0 : ℚ) = 0 :=
  (randomReal_zero_or_one CMath.rat (fun _ => Material.null) 32767 (fun _ => 16000)
    Surface.null [] 5 ⟨1, ⟨0, 0, 0⟩, ⟨-1, -1, -1⟩, ⟨2, 0, 0⟩, ⟨0, 2, 0⟩⟩ 0 0 (1 / 2) (1 / 2) 0 0
    ⟨0, 0, 0⟩ (by decide)).1 (by decide)

/-- C33: `RandomReal` is `std::rand() / RAND_MAX` in `int` arithmetic, so for the
outcome `r = RAND_MAX` (with `RAND_MAX > 0`) it returns 1, which is not in `[0, 1)`;
the jittered coordinate `(x + offset)·xscale` is then `(x + 1)·xscale`, the left edge
of pixel `x + 1`. -/
theorem randomReal_reaches_one (RAND_MAX : Nat) (rand : Nat → Nat) (n x : Nat) (xscale : K)
    (hpos : 0 < RAND_MAX) (hr : rand n = RAND_MAX) :
    (RayTracer.RandomReal RAND_MAX rand n : K) = 1 ∧
    ¬ (RayTracer.RandomReal RAND_MAX rand n : K) < 1 ∧
    ((x : K) + RayTracer.RandomReal RAND_MAX rand n) * xscale = (((x + 1 : Nat) : K)) * xscale := by
  have h := RayTracer.randomReal_eq (K := K) RAND_MAX rand n hpos hr
  rw [h]
  refine ⟨rfl, lt_irrefl 1, ?_⟩
  push_cast
  ring

theorem randomReal_reaches_one_witness :
    (RayTracer.RandomReal 32767 (fun _ => 32767) 0 : ℚ) = 1 :=
  (randomReal_reaches_one 32767 (fun _ => 32767) 0 0 (1 : ℚ) (by decide) rfl).1

/-! ## BuildBVH: the range arguments -/

/-- The recursive `BuildBVH` does not read `start` and `end`. -/
theorem BVHNode.buildBVHRange_range (S : StdSort) (surfaces : List (Surface K))
    (start end_ start1 end1 split_axis : Nat) :
    BVHNode.BuildBVHRange S surfaces start end_ split_axis =
      BVHNode.BuildBVHRange S surfaces start1 end1 split_axis := by
  unfold BVHNode.BuildBVHRange
  all_goals rfl

/-- The comparator along x on two unit spheres with filled caches. -/
theorem BVHNode.sortComp_unit_spheres (c1 c2 : ℚ) :
    BVHNode.sortComp 0
      (Surface.sphere ⟨c1, 0, 0⟩ 1 ⟨⟨c1 - 1, -1, -1⟩, ⟨c1 + 1, 1, 1⟩⟩ false : Surface ℚ)
      (Surface.sphere ⟨c2, 0, 0⟩ 1 ⟨⟨c2 - 1, -1, -1⟩, ⟨c2 + 1, 1, 1⟩⟩ false) =
      decide (c1 > c2 + 2) := by
  simp only [BVHNode.sortComp, Surface.GetBoundingBox, AABB.GetMin, AABB.GetMax,
    Vec3r.get_zero, Bool.not_false, Bool.and_true, Bool.not_true, Bool.false_eq_true,
    if_false, if_true, gt_iff_lt, decide_eq_decide]
  constructor <;> intro h <;> linarith

/-- C40: the recursive `BuildBVH(surfaces, start, end, split_axis)` does not read
`start` and `end`: it builds its subtree from the whole list it is given.  On the
unit spheres with centers `(0,0,0)`, `(3,0,0)`, `(6,0,0)` (caches filled) the sort
along x gives the order 6, 3, 0, and the case `N = 3` calls the helper on the right
sublist, the spheres at 3 and 0, with `start = 1`, `end = 2`, a range that names one
of them; the returned subtree has both as leaves. -/
theorem buildBVH_ignores_range (S : StdSort) (surfaces : List (Surface K))
    (start end_ start1 end1 split_axis : Nat) :
    BVHNode.BuildBVHRange S surfaces start end_ split_axis =
      BVHNode.BuildBVHRange S surfaces start1 end1 split_axis ∧
    (StdSort.linear.sort (BVHNode.sortComp 0)
        [Surface.sphere (⟨0, 0, 0⟩ : Vec3r ℚ) 1 ⟨⟨-1, -1, -1⟩, ⟨1, 1, 1⟩⟩ false,
          Surface.sphere ⟨3, 0, 0⟩ 1 ⟨⟨2, -1, -1⟩, ⟨4, 1, 1⟩⟩ false,
          Surface.sphere ⟨6, 0, 0⟩ 1 ⟨⟨5, -1, -1⟩, ⟨7, 1, 1⟩⟩ false]).drop (3 / 2) =
      [Surface.sphere ⟨3, 0, 0⟩ 1 ⟨⟨2, -1, -1⟩, ⟨4, 1, 1⟩⟩ false,
        Surface.sphere ⟨0, 0, 0⟩ 1 ⟨⟨-1, -1, -1⟩, ⟨1, 1, 1⟩⟩ false] ∧
    BVHNode.BuildBVHRange StdSort.linear
        [Surface.sphere (⟨3, 0, 0⟩ : Vec3r ℚ) 1 ⟨⟨2, -1, -1⟩, ⟨4, 1, 1⟩⟩ false,
          Surface.sphere ⟨0, 0, 0⟩ 1 ⟨⟨-1, -1, -1⟩, ⟨1, 1, 1⟩⟩ false] (3 / 2) (3 - 1) 1 =
      some (Surface.bvhNode (Surface.sphere ⟨3, 0, 0⟩ 1 ⟨⟨2, -1, -1⟩, ⟨4, 1, 1⟩⟩ false)
        (Surface.sphere ⟨0, 0, 0⟩ 1 ⟨⟨-1, -1, -1⟩, ⟨1, 1, 1⟩⟩ false)
        ⟨⟨-1, -1, -1⟩, ⟨4, 1, 1⟩⟩ true) ∧
    (Surface.bvhNode (Surface.sphere (⟨3, 0, 0⟩ : Vec3r ℚ) 1 ⟨⟨2, -1, -1⟩, ⟨4, 1, 1⟩⟩ false)
        (Surface.sphere ⟨0, 0, 0⟩ 1 ⟨⟨-1, -1, -1⟩, ⟨1, 1, 1⟩⟩ false)
        ⟨⟨-1, -1, -1⟩, ⟨4, 1, 1⟩⟩ true).leaves =
      [Surface.sphere ⟨3, 0, 0⟩ 1 ⟨⟨2, -1, -1⟩, ⟨4, 1, 1⟩⟩ false,
        Surface.sphere ⟨0, 0, 0⟩ 1 ⟨⟨-1, -1, -1⟩, ⟨1, 1, 1⟩⟩ false] := by
  refine ⟨BVHNode.buildBVHRange_range S surfaces start end_ start1 end1 split_axis, ?_, ?_, rfl⟩
  · have h30 := BVHNode.sortComp_unit_spheres 3 0
    have h63 := BVHNode.sortComp_unit_spheres 6 3
    norm_num at h30 h63
    show (StdSort.linearInsertionSort _ _).drop _ = _
    simp only [StdSort.linearInsertionSort, List.foldl, StdSort.linearInsert, h30, h63,
      if_true]
    rfl
  · rw [BVHNode.buildBVHRange_two]
    simp only [Surface.isNull, Bool.or_self, Bool.false_eq_true, if_false, Surface.touch_sphere,
      Surface.box_sphere_clean, AABB.union, Option.some.injEq, Surface.bvhNode.injEq, true_and,
      and_true, AABB.mk.injEq, Vec3r.mk.injEq]
    norm_num

/-! ## BuildBVH: recursion and leaves -/

/-- C36: the recursive `BuildBVH` returns on every non-empty list of non-null
surfaces, with a non-null node.  For `N ≥ 3` it recurses on the first `⌊N/2⌋` and the
remaining `N − ⌊N/2⌋` elements of the sorted list and on nothing else; the left
sublist has `⌊N/2⌋ ≥ 1` elements and the right one `N − ⌊N/2⌋ ≥ 2`, both fewer than
`N`, so no recursive call gets an empty list. -/
theorem buildBVH_recursion_terminates (S : StdSort) (surfaces : List (Surface K))
    (start end_ split_axis : Nat) (hne : surfaces ≠ [])
    (hnn : ∀ s ∈ surfaces, s.isNull = false) :
    (∃ node, BVHNode.BuildBVHRange S surfaces start end_ split_axis = some node ∧
      node.isNull = false) ∧
    (3 ≤ surfaces.length →
      ((S.sort (BVHNode.sortComp (if split_axis = 0 then 0 else if split_axis = 1 then 1 else 2))
          (surfaces.map Surface.touch)).take (surfaces.length / 2)).length =
        surfaces.length / 2 ∧
      1 ≤ surfaces.length / 2 ∧ surfaces.length / 2 < surfaces.length ∧
      ((S.sort (BVHNode.sortComp (if split_axis = 0 then 0 else if split_axis = 1 then 1 else 2))
          (surfaces.map Surface.touch)).drop (surfaces.length / 2)).length =
        surfaces.length - surfaces.length / 2 ∧
      2 ≤ surfaces.length - surfaces.length / 2 ∧
      surfaces.length - surfaces.length / 2 < surfaces.length ∧
      BVHNode.BuildBVHRange S surfaces start end_ split_axis =
        match BVHNode.BuildBVHRange S
            ((S.sort (BVHNode.sortComp
              (if split_axis = 0 then 0 else if split_axis = 1 then 1 else 2))
              (surfaces.map Surface.touch)).take (surfaces.length / 2))
            0 (surfaces.length / 2) ((split_axis + 1) % 3) with
        | none => none
        | some left =>
          match BVHNode.BuildBVHRange S
              ((S.sort (BVHNode.sortComp
                (if split_axis = 0 then 0 else if split_axis = 1 then 1 else 2))
                (surfaces.map Surface.touch)).drop (surfaces.length / 2))
              (surfaces.length / 2) (surfaces.length - 1) ((split_axis + 1) % 3) with
          | none => none
          | some right =>
            some (Surface.bvhNode left.touch right.touch (AABB.union left.box right.box)
              true)) := by
  constructor
  · obtain ⟨node, h⟩ := BVHNode.buildBVHRange_isSome S surfaces.length surfaces start end_
      split_axis rfl (List.length_pos.mpr hne) hnn
    exact ⟨node, h, BVHNode.buildBVHRange_isNull S surfaces start end_ split_axis node h⟩
  · intro h3
    have hl : (S.sort (BVHNode.sortComp
        (if split_axis = 0 then 0 else if split_axis = 1 then 1 else 2))
        (surfaces.map Surface.touch)).length = surfaces.length := by
      rw [StdSort.length_sort, List.length_map]
    refine ⟨by rw [List.length_take, hl]; omega, by omega, by omega,
      by rw [List.length_drop, hl], by omega, by omega,
      BVHNode.buildBVHRange_many S surfaces start end_ split_axis h3 hnn⟩

theorem buildBVH_recursion_terminates_witness :
    ∃ node, BVHNode.BuildBVHRange StdSort.linear Surface.exampleSpheres 0 3 0 = some node ∧
      node.isNull = false :=
  (buildBVH_recursion_terminates StdSort.linear Surface.exampleSpheres 0 3 0
    (by simp [Surface.exampleSpheres]) (by simp [Surface.exampleSpheres, Surface.isNull])).1

theorem Surface.leaves_touch_leaf (s : Surface K) (hn : s.isNull = false)
    (hb : s.isBVHNode = false) :
    s.touch.leaves = [s.touch] ∧ s.touch.isBVHNode = false := by
  cases s with
  | null => simp [Surface.isNull] at hn
  | base b d => exact ⟨rfl, rfl⟩
  | sphere c r b d =>
    rw [Surface.touch_sphere]
    exact ⟨rfl, rfl⟩
  | bvhNode l r b d => simp [Surface.isBVHNode] at hb

theorem Surface.leaves_touch_node (l r : Surface K) (b : AABB K) (hl : l.isNull = false) :
    (Surface.bvhNode l r b true).touch.leaves = l.touch.leaves ++ r.touch.leaves := by
  rw [Surface.touch_bvhNode_dirty l r b hl]
  rfl

/-- The leaves of the tree that the recursive `BuildBVH` returns on surfaces that
are not `BVHNode`s are the surfaces of the list. -/
theorem BVHNode.buildBVHRange_leaves (S : StdSort) :
    ∀ (n : Nat) (surfaces : List (Surface K)) (start end_ split_axis : Nat),
      surfaces.length = n → 0 < n →
      (∀ s ∈ surfaces, s.isNull = false ∧ s.isBVHNode = false) →
      ∃ node, BVHNode.BuildBVHRange S surfaces start end_ split_axis = some node ∧
        node.isNull = false ∧ node.touch.leaves.Perm (surfaces.map Surface.touch) := by
  intro n
  induction n using Nat.strong_induction_on with
  | _ n ih =>
    intro surfaces start end_ split_axis hlen hpos hk
    match surfaces, hlen, hk with
    | [], hlen, _ =>
      simp at hlen
      omega
    | [s0], _, hk =>
      obtain ⟨h0, b0⟩ := hk s0 (List.mem_cons_self _ _)
      refine ⟨Surface.bvhNode s0.touch Surface.null s0.box true,
        by rw [BVHNode.buildBVHRange_one, h0]; rfl, rfl, ?_⟩
      rw [Surface.leaves_touch_node _ _ _ (by rw [Surface.isNull_touch]; exact h0),
        Surface.touch_touch, (Surface.leaves_touch_leaf s0 h0 b0).1]
      exact List.Perm.refl _
    | [s0, s1], _, hk =>
      obtain ⟨h0, b0⟩ := hk s0 (List.mem_cons_self _ _)
      obtain ⟨h1, b1⟩ := hk s1 (List.mem_cons_of_mem _ (List.mem_cons_self _ _))
      refine ⟨Surface.bvhNode s0.touch s1.touch (AABB.union s0.box s1.box) true,
        by rw [BVHNode.buildBVHRange_two, h0, h1]; rfl, rfl, ?_⟩
      rw [Surface.leaves_touch_node _ _ _ (by rw [Surface.isNull_touch]; exact h0),
        Surface.touch_touch, Surface.touch_touch, (Surface.leaves_touch_leaf s0 h0 b0).1,
        (Surface.leaves_touch_leaf s1 h1 b1).1]
      exact List.Perm.refl _
    | s0 :: s1 :: s2 :: rest, hlen, hk =>
      set surfaces := s0 :: s1 :: s2 :: rest with hsurf
      have h3 : 3 ≤ surfaces.length := by simp [hsurf]
      rw [BVHNode.buildBVHRange_many S surfaces start end_ split_axis h3
        (fun s hs => (hk s hs).1)]
      set sorted := S.sort (BVHNode.sortComp
        (if split_axis = 0 then 0 else if split_axis = 1 then 1 else 2))
        (surfaces.map Surface.touch) with hsorted
      have hslen : sorted.length = surfaces.length := by
        rw [hsorted, StdSort.length_sort, List.length_map]
      have hmem : ∀ s ∈ sorted, (s.isNull = false ∧ s.isBVHNode = false) ∧ s.touch = s := by
        intro s hs
        rw [hsorted, StdSort.mem_sort, List.mem_map] at hs
        obtain ⟨s', hs', rfl⟩ := hs
        rw [Surface.isNull_touch, Surface.touch_touch]
        exact ⟨⟨(hk s' hs').1, (Surface.leaves_touch_leaf s' (hk s' hs').1 (hk s' hs').2).2⟩,
          rfl⟩
      have hll : (sorted.take (surfaces.length / 2)).length = surfaces.length / 2 := by
        rw [List.length_take, hslen]; omega
      have hrl : (sorted.drop (surfaces.length / 2)).length =
          surfaces.length - surfaces.length / 2 := by
        rw [List.length_drop, hslen]
      obtain ⟨left, hleft, hlnn, hlperm⟩ := ih (surfaces.length / 2) (by omega)
        (sorted.take (surfaces.length / 2)) 0 (surfaces.length / 2) ((split_axis + 1) % 3)
        hll (by omega) (fun s hs => (hmem s (List.mem_of_mem_take hs)).1)
      obtain ⟨right, hright, hrnn, hrperm⟩ := ih (surfaces.length - surfaces.length / 2)
        (by omega) (sorted.drop (surfaces.length / 2)) (surfaces.length / 2)
        (surfaces.length - 1) ((split_axis + 1) % 3) hrl (by omega)
        (fun s hs => (hmem s (List.mem_of_mem_drop hs)).1)
      rw [hleft, hright]
      refine ⟨_, rfl, rfl, ?_⟩
      rw [Surface.leaves_touch_node _ _ _ (by rw [Surface.isNull_touch]; exact hlnn),
        Surface.touch_touch, Surface.touch_touch]
      have hmap : sorted.map Surface.touch = sorted := by
        conv_rhs => rw [← List.map_id sorted]
        apply List.map_congr_left
        intro s hs
        exact (hmem s hs).2
      have h1 : (left.touch.leaves ++ right.touch.leaves).Perm (sorted.map Surface.touch) := by
        have := List.Perm.append hlperm hrperm
        rw [← List.map_append, List.take_append_drop] at this
        exact this
      rw [hmap] at h1
      exact h1.trans (S.perm _ _)

/-- C34: for every list of non-null surfaces that are not `BVHNode`s themselves,
`BuildBVH(surfaces)` returns a tree whose leaf slots hold, as a multiset, exactly the
input surfaces (each after its call of `GetBoundingBox()`): the list of leaves is a
permutation of the input list. -/
theorem buildBVH_leaves_are_inputs (S : StdSort) (surfaces : List (Surface K))
    (hk : ∀ s ∈ surfaces, s.isNull = false ∧ s.isBVHNode = false) :
    ∃ node, BVHNode.BuildBVH S surfaces = some node ∧
      node.leaves.Perm (surfaces.map Surface.touch) := by
  by_cases hne : surfaces = []
  · rw [hne]
    exact ⟨Surface.null, rfl, List.Perm.refl _⟩
  · have hk1 : ∀ s ∈ surfaces.map Surface.touch, s.isNull = false ∧ s.isBVHNode = false := by
      intro s hs
      rw [List.mem_map] at hs
      obtain ⟨s', hs', rfl⟩ := hs
      rw [Surface.isNull_touch]
      exact ⟨(hk s' hs').1, (Surface.leaves_touch_leaf s' (hk s' hs').1 (hk s' hs').2).2⟩
    obtain ⟨node, hnode, _, hperm⟩ := BVHNode.buildBVHRange_leaves S
      (surfaces.map Surface.touch).length (surfaces.map Surface.touch) 0 surfaces.length 0 rfl
      (by rw [List.length_map]; exact List.length_pos.mpr hne) hk1
    refine ⟨node.touch, by rw [BVHNode.buildBVH_eq S surfaces hne, hnode], ?_⟩
    refine hperm.trans ?_
    rw [List.map_map]
    have : (Surface.touch ∘ Surface.touch : Surface K → Surface K) = Surface.touch := by
      funext s
      exact Surface.touch_touch s
    rw [this]

theorem buildBVH_leaves_are_inputs_witness :
    ∃ node, BVHNode.BuildBVH StdSort.linear Surface.exampleSpheres = some node ∧
      node.leaves.Perm (Surface.exampleSpheres.map Surface.touch) :=
  buildBVH_leaves_are_inputs StdSort.linear Surface.exampleSpheres
    (by simp [Surface.exampleSpheres, Surface.isNull, Surface.isBVHNode])

/-! ## The cached box of every node of the built tree -/

/-- A dirty `BVHNode` over children that are already clean: `GetBoundingBox()` clears
the dirty flag and stores the union of the children's boxes, which is the box
`BBoxCombine` gives, and the node then satisfies the box invariant. -/
theorem Surface.nodeBoxOk_node (l r : Surface K) (b : AABB K) (hl : l.isNull = false)
    (hlt : l.touch = l) (hrt : r.touch = r) (pl : l.box.Proper)
    (pr : r.isNull = false → r.box.Proper) (ol : l.NodeBoxOk) (or_ : r.NodeBoxOk) :
    (Surface.bvhNode l r b true).box =
      (if r.isNull then l.box else AABB.union l.box r.box) ∧
    (Surface.bvhNode l r b true).touch =
      Surface.bvhNode l r (if r.isNull then l.box else AABB.union l.box r.box) false ∧
    (Surface.bvhNode l r (if r.isNull then l.box else AABB.union l.box r.box)
      false).NodeBoxOk := by
  have hbox : ∀ b1 : AABB K, (Surface.bvhNode l r b1 true).box =
      (if r.isNull then l.box else AABB.union l.box r.box) := by
    intro b1
    rw [Surface.box_bvhNode_dirty l r b1 hl]
    cases hr : r.isNull
    · simp only [Bool.false_eq_true, if_false]
      rw [AABB.reset_expandBy _ _ pl, AABB.expandBy_eq_union _ _ (pr hr)]
    · simp only [if_true]
      exact AABB.reset_expandBy _ _ pl
  refine ⟨hbox b, by rw [Surface.touch_bvhNode_dirty l r b hl, hlt, hrt, hbox b], ?_⟩
  rw [Surface.NodeBoxOk]
  refine ⟨rfl, ?_, ?_, ?_, ol, or_⟩
  · cases hr : r.isNull <;>
      simp [Surface.childBoxes, hl, hr, AABB.unionList]
  · rfl
  · exact (hbox _).symm

/-- Every node of the tree built by the recursive `BuildBVH` satisfies the box
invariant after `GetBoundingBox()`, and that call leaves the cached box of the node
as the build set it. -/
theorem BVHNode.buildBVHRange_nodeBoxOk (S : StdSort) :
    ∀ (n : Nat) (surfaces : List (Surface K)) (start end_ split_axis : Nat),
      surfaces.length = n → 0 < n →
      (∀ s ∈ surfaces, s.isNull = false) → (∀ s ∈ surfaces, s.box.Proper) →
      (∀ s ∈ surfaces, s.touch.NodeBoxOk) →
      ∃ node, BVHNode.BuildBVHRange S surfaces start end_ split_axis = some node ∧
        node.isBVHNode = true ∧ node.touch.isBVHNode = true ∧ node.touch.NodeBoxOk ∧
        node.cachedBox = node.touch.cachedBox := by
  intro n
  induction n using Nat.strong_induction_on with
  | _ n ih =>
    intro surfaces start end_ split_axis hlen hpos hnn hprop hok
    match surfaces, hlen, hnn, hprop, hok with
    | [], hlen, _, _, _ =>
      simp at hlen
      omega
    | [s0], _, hnn, hprop, hok =>
      have h0 := hnn s0 (List.mem_cons_self _ _)
      have p0 := hprop s0 (List.mem_cons_self _ _)
      have o0 := hok s0 (List.mem_cons_self _ _)
      obtain ⟨_, ht, hn⟩ := Surface.nodeBoxOk_node s0.touch Surface.null s0.box
        (by rw [Surface.isNull_touch]; exact h0) (Surface.touch_touch s0) rfl
        (by rw [Surface.box_touch]; exact p0) (by intro h; simp [Surface.isNull] at h) o0
        (by simp [Surface.NodeBoxOk])
      refine ⟨Surface.bvhNode s0.touch Surface.null s0.box true,
        by rw [BVHNode.buildBVHRange_one, h0]; rfl, rfl, ?_, ?_, ?_⟩
      · rw [ht]; rfl
      · rw [ht]; exact hn
      · rw [ht]
        simp [Surface.cachedBox, Surface.isNull, Surface.box_touch]
    | [s0, s1], _, hnn, hprop, hok =>
      have h0 := hnn s0 (List.mem_cons_self _ _)
      have h1 := hnn s1 (List.mem_cons_of_mem _ (List.mem_cons_self _ _))
      have p0 := hprop s0 (List.mem_cons_self _ _)
      have p1 := hprop s1 (List.mem_cons_of_mem _ (List.mem_cons_self _ _))
      have o0 := hok s0 (List.mem_cons_self _ _)
      have o1 := hok s1 (List.mem_cons_of_mem _ (List.mem_cons_self _ _))
      obtain ⟨_, ht, hn⟩ := Surface.nodeBoxOk_node s0.touch s1.touch
        (AABB.union s0.box s1.box)
        (by rw [Surface.isNull_touch]; exact h0) (Surface.touch_touch s0)
        (Surface.touch_touch s1)
        (by rw [Surface.box_touch]; exact p0) (by intro _; rw [Surface.box_touch]; exact p1)
        o0 o1
      refine ⟨Surface.bvhNode s0.touch s1.touch (AABB.union s0.box s1.box) true,
        by rw [BVHNode.buildBVHRange_two, h0, h1]; rfl, rfl, ?_, ?_, ?_⟩
      · rw [ht]; rfl
      · rw [ht]; exact hn
      · rw [ht]
        simp [Surface.cachedBox, Surface.isNull_touch, h1, Surface.box_touch]
    | s0 :: s1 :: s2 :: rest, hlen, hnn, hprop, hok =>
      set surfaces := s0 :: s1 :: s2 :: rest with hsurf
      have h3 : 3 ≤ surfaces.length := by simp [hsurf]
      rw [BVHNode.buildBVHRange_many S surfaces start end_ split_axis h3 hnn]
      set sorted := S.sort (BVHNode.sortComp
        (if split_axis = 0 then 0 else if split_axis = 1 then 1 else 2))
        (surfaces.map Surface.touch) with hsorted
      have hslen : sorted.length = surfaces.length := by
        rw [hsorted, StdSort.length_sort, List.length_map]
      have hmem : ∀ s ∈ sorted, s.isNull = false ∧ s.box.Proper ∧ s.touch.NodeBoxOk := by
        intro s hs
        rw [hsorted, StdSort.mem_sort, List.mem_map] at hs
        obtain ⟨s', hs', rfl⟩ := hs
        rw [Surface.isNull_touch, Surface.box_touch, Surface.touch_touch]
        exact ⟨hnn s' hs', hprop s' hs', hok s' hs'⟩
      have hll : (sorted.take (surfaces.length / 2)).length = surfaces.length / 2 := by
        rw [List.length_take, hslen]; omega
      have hrl : (sorted.drop (surfaces.length / 2)).length =
          surfaces.length - surfaces.length / 2 := by
        rw [List.length_drop, hslen]
      obtain ⟨left, hleft, _, _, hlok, _⟩ := ih (surfaces.length / 2) (by omega)
        (sorted.take (surfaces.length / 2)) 0 (surfaces.length / 2) ((split_axis + 1) % 3)
        hll (by omega) (fun s hs => (hmem s (List.mem_of_mem_take hs)).1)
        (fun s hs => (hmem s (List.mem_of_mem_take hs)).2.1)
        (fun s hs => (hmem s (List.mem_of_mem_take hs)).2.2)
      obtain ⟨right, hright, _, _, hrok, _⟩ := ih (surfaces.length - surfaces.length / 2)
        (by omega) (sorted.drop (surfaces.length / 2)) (surfaces.length / 2)
        (surfaces.length - 1) ((split_axis + 1) % 3) hrl (by omega)
        (fun s hs => (hmem s (List.mem_of_mem_drop hs)).1)
        (fun s hs => (hmem s (List.mem_of_mem_drop hs)).2.1)
        (fun s hs => (hmem s (List.mem_of_mem_drop hs)).2.2)
      obtain ⟨left1, hleft1, hlnn, hlbox⟩ := BVHNode.buildBVHRange_box S (surfaces.length / 2)
        (sorted.take (surfaces.length / 2)) 0 (surfaces.length / 2) ((split_axis + 1) % 3)
        hll (by omega) (fun s hs => (hmem s (List.mem_of_mem_take hs)).1)
        (fun s hs => (hmem s (List.mem_of_mem_take hs)).2.1)
      obtain ⟨right1, hright1, hrnn, hrbox⟩ := BVHNode.buildBVHRange_box S
        (surfaces.length - surfaces.length / 2)
        (sorted.drop (surfaces.length / 2)) (surfaces.length / 2)
        (surfaces.length - 1) ((split_axis + 1) % 3) hrl (by omega)
        (fun s hs => (hmem s (List.mem_of_mem_drop hs)).1)
        (fun s hs => (hmem s (List.mem_of_mem_drop hs)).2.1)
      rw [hleft] at hleft1
      rw [hright] at hright1
      obtain rfl := Option.some.inj hleft1
      obtain rfl := Option.some.inj hright1
      have hlne : (sorted.take (surfaces.length / 2)).map Surface.box ≠ [] := by
        intro h0
        have := congrArg List.length h0
        rw [List.length_map, hll] at this
        simp at this
        omega
      have hrne : (sorted.drop (surfaces.length / 2)).map Surface.box ≠ [] := by
        intro h0
        have := congrArg List.length h0
        rw [List.length_map, hrl] at this
        simp at this
        omega
      have plbox : left.box.Proper := by
        rw [hlbox]
        apply AABB.unionList_proper _ hlne
        intro b hb
        rw [List.mem_map] at hb
        obtain ⟨s, hs, rfl⟩ := hb
        exact (hmem s (List.mem_of_mem_take hs)).2.1
      have prbox : right.box.Proper := by
        rw [hrbox]
        apply AABB.unionList_proper _ hrne
        intro b hb
        rw [List.mem_map] at hb
        obtain ⟨s, hs, rfl⟩ := hb
        exact (hmem s (List.mem_of_mem_drop hs)).2.1
      obtain ⟨_, ht, hn⟩ := Surface.nodeBoxOk_node left.touch right.touch
        (AABB.union left.box right.box)
        (by rw [Surface.isNull_touch]; exact hlnn) (Surface.touch_touch left)
        (Surface.touch_touch right)
        (by rw [Surface.box_touch]; exact plbox)
        (by intro _; rw [Surface.box_touch]; exact prbox) hlok hrok
      rw [hleft, hright]
      refine ⟨_, rfl, rfl, ?_, ?_, ?_⟩
      · rw [ht]; rfl
      · rw [ht]; exact hn
      · rw [ht]
        simp [Surface.cachedBox, Surface.isNull_touch, hrnn, Surface.box_touch]

/-- C31: over non-null surfaces with finite, valid boxes (whose own `BVHNode`s, if an
input is a tree, satisfy the invariant; spheres have none), `BuildBVH` returns a tree
in which every `BVHNode` is clean and its cached `bbox_` equals the union of the
bounding boxes of its non-null children, equals what the recursive build assigns
(`BBoxCombine`, or the one child's box) and equals what a recompute by
`GetBoundingBox()` (`Reset` and `ExpandBy`) gives; for a non-empty list the root is a
`BVHNode` whose cached box after the final `GetBoundingBox()` is the box that the
recursive build had stored. -/
theorem buildBVH_cached_box_invariant (S : StdSort) (surfaces : List (Surface K))
    (hnn : ∀ s ∈ surfaces, s.isNull = false) (hprop : ∀ s ∈ surfaces, s.box.Proper)
    (hok : ∀ s ∈ surfaces, s.touch.NodeBoxOk) :
    ∃ root, BVHNode.BuildBVH S surfaces = some root ∧ root.NodeBoxOk ∧
      (surfaces ≠ [] → ∃ node,
        BVHNode.BuildBVHRange S (surfaces.map Surface.touch) 0 surfaces.length 0 = some node ∧
        root = node.touch ∧ root.isBVHNode = true ∧ node.cachedBox = root.cachedBox) := by
  by_cases hne : surfaces = []
  · rw [hne]
    exact ⟨Surface.null, rfl, by simp [Surface.NodeBoxOk], fun h => absurd rfl h⟩
  · obtain ⟨node, hnode, _, hb, hnok, hc⟩ := BVHNode.buildBVHRange_nodeBoxOk S
      (surfaces.map Surface.touch).length (surfaces.map Surface.touch) 0 surfaces.length 0 rfl
      (by rw [List.length_map]; exact List.length_pos.mpr hne)
      (by
        intro s hs
        rw [List.mem_map] at hs
        obtain ⟨s', hs', rfl⟩ := hs
        rw [Surface.isNull_touch]
        exact hnn s' hs')
      (by
        intro s hs
        rw [List.mem_map] at hs
        obtain ⟨s', hs', rfl⟩ := hs
        rw [Surface.box_touch]
        exact hprop s' hs')
      (by
        intro s hs
        rw [List.mem_map] at hs
        obtain ⟨s', hs', rfl⟩ := hs
        rw [Surface.touch_touch]
        exact hok s' hs')
    exact ⟨node.touch, by rw [BVHNode.buildBVH_eq S surfaces hne, hnode], hnok,
      fun _ => ⟨node, hnode, rfl, hb, hc⟩⟩

theorem buildBVH_cached_box_invariant_witness :
    ∃ root, BVHNode.BuildBVH StdSort.linear Surface.exampleSpheres = some root ∧
      root.NodeBoxOk ∧
      (Surface.exampleSpheres ≠ [] → ∃ node,
        BVHNode.BuildBVHRange StdSort.linear (Surface.exampleSpheres.map Surface.touch) 0
          Surface.exampleSpheres.length 0 = some node ∧
        root = node.touch ∧ root.isBVHNode = true ∧ node.cachedBox = root.cachedBox) :=
  buildBVH_cached_box_invariant StdSort.linear Surface.exampleSpheres
    (by simp [Surface.exampleSpheres, Surface.isNull])
    (by
      intro s hs
      have h1 := Surface.exampleSpheres_ok s hs
      have := Surface.sphereBoxOk_isSphere s h1
      cases s <;> simp [Surface.isSphere] at this
      exact h1.1)
    (by
      intro s hs
      have h1 := Surface.exampleSpheres_ok s hs
      have := Surface.sphereBoxOk_isSphere s h1
      cases s <;> simp [Surface.isSphere] at this
      rw [Surface.touch_sphere]
      simp [Surface.NodeBoxOk])

/-! ## The BVH traversal against the linear scan -/

end RT
